import Mathlib

/-!
# GeoARCore: landmark mapping pipeline and pose-graph construction

A shallow embedding of the bundle-adjustment graph construction
(`src/processing/bundle_adjustment.cpp`, `src/process/bundle_adjustment.cpp`),
the per-frame landmark pipeline (`src/processing/frame_processor.cpp`) and the
landmark record (`src/core/landmark.cpp`).

Conventions of the embedding:

* `size_t` values (vector sizes, loop counters, ids) are natural numbers; every
  such value in the embedded code is bounded by the size of a container, so no
  wrap-around occurs.  The loops `for (i = 0; i < v.size(); i++)` are structural
  recursions over the list that models `v`, carrying the counter.
* `double`/`float` values are rationals: the embedded code only copies them,
  negates them and builds constant matrices from them.
* `g2o::SE3Quat` is an external type; its values are kept as terms over the
  constructor and the two operations the code calls (`*`, `inverse`).
* Undefined behaviour and aborts (null dereference, `std::vector` index past the
  end, `assert(false)`) are explicit failures in `Except Failure`.
-/

namespace GeoAR

/-! ## Numeric and geometric carriers -/

/-- The type `Eigen::Vector3d`. -/
structure Vector3d where
  x : ℚ
  y : ℚ
  z : ℚ

/-- The type `Eigen::Vector2d`. -/
structure Vector2d where
  x : ℚ
  y : ℚ

/-- The type `Eigen::Matrix3d`, entry `(row, column)`. -/
abbrev Matrix3d := Fin 3 → Fin 3 → ℚ

/-- The type `Eigen::Matrix4d`, entry `(row, column)`. -/
abbrev Matrix4d := Fin 4 → Fin 4 → ℚ

/-- Dense square information matrix of an edge. -/
abbrev InfoMatrix (n : Nat) := Fin n → Fin n → ℚ

/-- The value `Eigen::MatrixXd::Identity(n, n) * s`. -/
def scaledIdentity (n : Nat) (s : ℚ) : InfoMatrix n :=
  fun i j => (if i = j then 1 else 0) * s

/-- The value `Eigen::Vector3d(a, b, c).asDiagonal()`. -/
def asDiagonal (a b c : ℚ) : InfoMatrix 3 :=
  fun i j => if i = j then (if i.val = 0 then a else if i.val = 1 then b else c) else 0

/-- The type `g2o::SE3Quat`: terms over the constructor from a rotation matrix and a
translation, the product and the inverse. -/
inductive SE3Quat where
  | mk (rot : Matrix3d) (t : Vector3d)
  | mul (a b : SE3Quat)
  | inverse (a : SE3Quat)

/-- The type `cv::Point2f`. -/
structure Point2f where
  x : ℚ
  y : ℚ

/-- The type `cv::KeyPoint` (the pixel location is the only member the code reads). -/
structure KeyPoint where
  pt : Point2f

/-- One descriptor row of a `cv::Mat`. -/
abbrev Descriptor := List Nat

/-- A descriptor matrix `cv::Mat`, as its list of rows. -/
abbrev Mat := List Descriptor

/-- Ways in which the embedded code stops without a result. -/
inductive Failure where
  | assertion
  | nullPointer
  | outOfRange
  deriving DecidableEq, Repr

/-- Element access `v[i]` of a `std::vector`; an index past the end has no result. -/
def vectorAt {α : Type} (v : List α) (i : Nat) : Except Failure α :=
  match v.get? i with
  | some a => .ok a
  | none => .error .outOfRange

/-- The statement `v[i]++` on a `std::vector<size_t>`. -/
def incrementAt (v : List Nat) (i : Nat) : Except Failure (List Nat) :=
  match v.get? i with
  | some a => .ok (v.set i (a + 1))
  | none => .error .outOfRange

/-! ## The external graph optimizer (`g2o::SparseOptimizer`) -/

/-- Estimate carried by a vertex: `VertexSE3Expmap` holds a pose, `VertexPointXYZ` a
point. -/
inductive VertexEstimate where
  | se3 (pose : SE3Quat)
  | xyz (point : Vector3d)

/-- A graph vertex with the members the code sets. -/
structure Vertex where
  id : Nat
  estimate : VertexEstimate
  fixed : Bool
  marginalized : Bool

/-- A registered `g2o::CameraParameters` block. -/
structure CameraParameters where
  id : Nat
  focal_length : ℚ
  principle_point : Vector2d
  baseline : ℚ

/-- A graph edge.  `se3` is `EdgeSE3Expmap` (odometry), `projectXYZ2UVD` is
`EdgeProjectXYZ2UVD` (projection).  An endpoint of a projection edge is the id of the
vertex that `optimizer.vertex(id)` returned, or `none` for a null pointer. -/
inductive Edge where
  | se3 (v0 v1 : Nat) (measurement : SE3Quat) (information : InfoMatrix 6)
  | projectXYZ2UVD (v0 v1 : Option Nat) (measurement : Vector3d)
      (information : InfoMatrix 3) (parameterId : Nat)

/-- Whether an edge is an odometry edge (`EdgeSE3Expmap`). -/
def Edge.isOdometry : Edge → Bool
  | .se3 _ _ _ _ => true
  | .projectXYZ2UVD _ _ _ _ _ => false

/-- Whether an edge is a projection edge (`EdgeProjectXYZ2UVD`). -/
def Edge.isProjection : Edge → Bool
  | .se3 _ _ _ _ => false
  | .projectXYZ2UVD _ _ _ _ _ => true

/-- The ids of the vertices an edge is attached to. -/
def Edge.endpoints : Edge → List Nat
  | .se3 v0 v1 _ _ => [v0, v1]
  | .projectXYZ2UVD v0 v1 _ _ _ => v0.toList ++ v1.toList

/-- State of the optimizer: vertices and parameters are keyed by id, in insertion
order. -/
structure SparseOptimizer where
  vertices : List Vertex
  edges : List Edge
  parameters : List CameraParameters

namespace SparseOptimizer

/-- An optimizer with no vertex, edge or parameter. -/
def empty : SparseOptimizer := ⟨[], [], []⟩

/-- The lookup `optimizer.vertex(id)`: the vertex registered under `id`, if any. -/
def vertex (o : SparseOptimizer) (id : Nat) : Option Vertex :=
  o.vertices.find? (fun v => v.id == id)

/-- The call `optimizer.addVertex(v)`: refused (returning `false`) when the id is taken. -/
def addVertex (o : SparseOptimizer) (v : Vertex) : SparseOptimizer × Bool :=
  match o.vertex v.id with
  | some _ => (o, false)
  | none => ({ o with vertices := o.vertices ++ [v] }, true)

/-- The call `optimizer.addParameter(p)`: refused (returning `false`) when the id is
taken. -/
def addParameter (o : SparseOptimizer) (p : CameraParameters) : SparseOptimizer × Bool :=
  match o.parameters.find? (fun q => q.id == p.id) with
  | some _ => (o, false)
  | none => ({ o with parameters := o.parameters ++ [p] }, true)

/-- The call `optimizer.addEdge(e)`. -/
def addEdge (o : SparseOptimizer) (e : Edge) : SparseOptimizer :=
  { o with edges := o.edges ++ [e] }

end SparseOptimizer

/-- The cast `dynamic_cast<g2o::VertexSE3Expmap*>(p)` followed by the member accesses of
`addOdometry`: the id and pose of a pose vertex, nothing for a null pointer or a
vertex of another class. -/
def asVertexSE3Expmap : Option Vertex → Option (Nat × SE3Quat)
  | some ⟨id, .se3 pose, _, _⟩ => some (id, pose)
  | _ => none

/-- The cast `dynamic_cast<g2o::VertexPointXYZ*>(p)` followed by `estimate()`. -/
def asVertexPointXYZ : Option Vertex → Option (Nat × Vector3d)
  | some ⟨id, .xyz point, _, _⟩ => some (id, point)
  | _ => none

/-- The member `_stats` of a bundle adjustment. -/
structure Stats where
  total_usable_landmarks : Nat
  landmarks : List Nat
  usable_landmarks : List Nat

/-- A default-constructed `Stats()`. -/
def Stats.init : Stats := ⟨0, [], []⟩

/-- The shared body of `addOdometry` in both variants: look up the two pose vertices,
add an `EdgeSE3Expmap` between them. -/
def addOdometry (o : SparseOptimizer) (frame_id : Nat) : Except Failure SparseOptimizer :=
  match asVertexSE3Expmap (o.vertex (frame_id - 1)), asVertexSE3Expmap (o.vertex frame_id) with
  | some (id1, est1), some (id2, est2) =>
    let pose_change := SE3Quat.mul est2 (SE3Quat.inverse est1)
    .ok (o.addEdge (Edge.se3 id1 id2 pose_change (scaledIdentity 6 80000000)))
  | _, _ => .error .nullPointer

/-! ## Frames-first bundle adjustment (`src/processing/bundle_adjustment.cpp`) -/

namespace lar

/-- The record `Landmark::Observation`, with the members `FrameProcessor::process`
initialises. -/
structure Observation where
  frame_id : Nat
  timestamp : Int
  cam_position : Vector3d
  kpt : KeyPoint
  depth : ℚ
  depth_confidence : ℚ
  surface_normal : Vector3d

/-- The class `lar::Landmark` (its header is not part of the sources read here; the
members are those the code and the data model name). -/
structure Landmark where
  id : Nat
  position : Vector3d
  desc : Descriptor
  sightings : Nat
  obs : List Observation
  is_fixed : Bool
  index_center : Vector2d
  index_radius : ℚ

/-- Modelled from the spec: the body of `lar::Landmark::isUseable` is missing; a
landmark is usable iff `sightings ≥ 3`. -/
def Landmark.isUseable (l : Landmark) : Bool :=
  decide (3 ≤ l.sightings)

/-- The class `lar::Frame`, with the members the code reads. -/
structure Frame where
  id : Nat
  timestamp : Int
  intrinsics : Matrix3d
  extrinsics : Matrix4d
  processed : Bool

/-- The part of `Mapper::Data` read by the bundle adjustment: the frames and the
landmark sequence of the map. -/
structure Data where
  frames : List Frame
  landmarks : List Landmark

/-- The class `lar::BundleAdjustment`: the optimizer and the statistics (the data is
passed alongside). -/
structure BundleAdjustment where
  optimizer : SparseOptimizer
  stats : Stats

/-- The point vertex `addLandmark` builds.  `compact` is the compile-time switch
`LAR_COMPACT_BUILD`. -/
def landmarkVertex (compact : Bool) (landmark : Landmark) (id : Nat) : Vertex :=
  if compact then
    { id := id, estimate := .xyz landmark.position, fixed := false, marginalized := true }
  else
    { id := id, estimate := .xyz landmark.position, fixed := landmark.is_fixed,
      marginalized := !landmark.is_fixed }

/-- The method `BundleAdjustment::addLandmark`. -/
def addLandmark (compact : Bool) (o : SparseOptimizer) (landmark : Landmark) (id : Nat) :
    SparseOptimizer × Bool :=
  if landmark.isUseable then
    ((o.addVertex (landmarkVertex compact landmark id)).1, true)
  else
    (o, false)

/-- The initial estimate of `addPose`: the rotation block with its second and third
columns negated, the translation column, and the inverse of the resulting pose. -/
def poseEstimate (extrinsics : Matrix4d) : SE3Quat :=
  let rot : Matrix3d := fun i j => extrinsics ⟨i.val, by omega⟩ ⟨j.val, by omega⟩
  let rot1 : Matrix3d := fun i j => if j.val = 1 then - rot i j else rot i j
  let rot2 : Matrix3d := fun i j => if j.val = 2 then - rot1 i j else rot1 i j
  let t : Vector3d := ⟨extrinsics 0 3, extrinsics 1 3, extrinsics 2 3⟩
  SE3Quat.inverse (SE3Quat.mk rot2 t)

/-- The pose vertex `addPose` builds. -/
def poseVertex (extrinsics : Matrix4d) (id : Nat) (fixed : Bool) : Vertex :=
  { id := id, estimate := .se3 (poseEstimate extrinsics), fixed := fixed,
    marginalized := false }

/-- The method `BundleAdjustment::addPose`. -/
def addPose (o : SparseOptimizer) (extrinsics : Matrix4d) (id : Nat) (fixed : Bool) :
    SparseOptimizer :=
  (o.addVertex (poseVertex extrinsics id fixed)).1

/-- The parameter block `addIntrinsics` builds. -/
def cameraParameters (intrinsics : Matrix3d) (id : Nat) : CameraParameters :=
  { id := id, focal_length := intrinsics 0 0,
    principle_point := ⟨intrinsics 0 2, intrinsics 1 2⟩, baseline := 0 }

/-- The method `BundleAdjustment::addIntrinsics`; a refused parameter reaches
`assert(false)`. -/
def addIntrinsics (o : SparseOptimizer) (intrinsics : Matrix3d) (id : Nat) :
    Except Failure SparseOptimizer :=
  match o.addParameter (cameraParameters intrinsics id) with
  | (o1, true) => .ok o1
  | (_, false) => .error .assertion

/-- The projection edge built in `addLandmarkMeasurements` for one observation. -/
def projectionEdge (o : SparseOptimizer) (obs : Observation) (id : Nat) : Edge :=
  let frame_id := obs.frame_id
  let kp : Vector3d := ⟨obs.kpt.pt.x, obs.kpt.pt.y, obs.depth⟩
  Edge.projectXYZ2UVD ((o.vertex id).map Vertex.id) ((o.vertex frame_id).map Vertex.id) kp
    (asDiagonal 1 1 obs.depth_confidence) (frame_id + 1)

/-- One iteration of the loop of `addLandmarkMeasurements`. -/
def addLandmarkMeasurement (landmark : Landmark) (id : Nat) (s : SparseOptimizer × Stats)
    (obs : Observation) : Except Failure (SparseOptimizer × Stats) := do
  let frame_id := obs.frame_id
  let s1 ←
    if landmark.isUseable then do
      let o1 := s.1.addEdge (projectionEdge s.1 obs id)
      let usable ← incrementAt s.2.usable_landmarks frame_id
      pure (o1, { s.2 with usable_landmarks := usable })
    else
      pure s
  let all ← incrementAt s1.2.landmarks frame_id
  pure (s1.1, { s1.2 with landmarks := all })

/-- The method `BundleAdjustment::addLandmarkMeasurements`: the loop over
`landmark.obs`. -/
def addLandmarkMeasurements (landmark : Landmark) (id : Nat) :
    List Observation → SparseOptimizer × Stats → Except Failure (SparseOptimizer × Stats)
  | [], s => pure s
  | obs :: rest, s => do
    let s1 ← addLandmarkMeasurement landmark id s obs
    addLandmarkMeasurements landmark id rest s1

/-- One iteration of the frame loop of `construct`. -/
def constructFrame (frame_count : Nat) (o : SparseOptimizer) (frame_id : Nat) (frame : Frame) :
    Except Failure SparseOptimizer := do
  let o1 := addPose o frame.extrinsics frame_id (frame_id == frame_count - 1)
  let o2 ← if frame_id > 0 then addOdometry o1 frame_id else pure o1
  let params_id := frame_id + 1
  addIntrinsics o2 frame.intrinsics params_id

/-- The frame loop of `construct`, from counter value `frame_id` on. -/
def constructFrames (frame_count : Nat) :
    List Frame → Nat → SparseOptimizer → Except Failure SparseOptimizer
  | [], _, o => pure o
  | frame :: rest, frame_id, o => do
    let o1 ← constructFrame frame_count o frame_id frame
    constructFrames frame_count rest (frame_id + 1) o1

/-- One iteration of the landmark loop of `construct`. -/
def constructLandmark (compact : Bool) (frame_count : Nat) (s : SparseOptimizer × Stats)
    (landmark_id : Nat) (landmark : Landmark) : Except Failure (SparseOptimizer × Stats) :=
  let id := landmark_id + frame_count
  let r := addLandmark compact s.1 landmark id
  let stats1 : Stats :=
    { s.2 with total_usable_landmarks := s.2.total_usable_landmarks + (if r.2 then 1 else 0) }
  addLandmarkMeasurements landmark id landmark.obs (r.1, stats1)

/-- The landmark loop of `construct`, from counter value `landmark_id` on. -/
def constructLandmarks (compact : Bool) (frame_count : Nat) :
    List Landmark → Nat → SparseOptimizer × Stats → Except Failure (SparseOptimizer × Stats)
  | [], _, s => pure s
  | landmark :: rest, landmark_id, s => do
    let s1 ← constructLandmark compact frame_count s landmark_id landmark
    constructLandmarks compact frame_count rest (landmark_id + 1) s1

/-- The method `BundleAdjustment::construct` (frames first, then landmarks).  The
statistics are reset; the optimizer is used as it is. -/
def construct (compact : Bool) (data : Data) (ba : BundleAdjustment) :
    Except Failure BundleAdjustment := do
  let frame_count := data.frames.length
  let stats0 : Stats :=
    { Stats.init with landmarks := List.replicate frame_count 0,
                      usable_landmarks := List.replicate frame_count 0 }
  let o1 ← constructFrames frame_count data.frames 0 ba.optimizer
  let s ← constructLandmarks compact frame_count data.landmarks 0 (o1, stats0)
  pure { optimizer := s.1, stats := s.2 }

/-- The method `BundleAdjustment::addIntrinsics` with the build made explicit: `ndebug`
says whether `NDEBUG` is defined.  With it `assert(false)` expands to nothing, so a
refused parameter is dropped and the method returns; without it the assertion ends the
run. -/
def addIntrinsicsIn (ndebug : Bool) (o : SparseOptimizer) (intrinsics : Matrix3d) (id : Nat) :
    Except Failure SparseOptimizer :=
  match o.addParameter (cameraParameters intrinsics id) with
  | (o1, true) => .ok o1
  | (o1, false) => if ndebug then .ok o1 else .error .assertion

/-- One iteration of the frame loop of `construct`, in the build given by `ndebug`. -/
def constructFrameIn (ndebug : Bool) (frame_count : Nat) (o : SparseOptimizer) (frame_id : Nat)
    (frame : Frame) : Except Failure SparseOptimizer := do
  let o1 := addPose o frame.extrinsics frame_id (frame_id == frame_count - 1)
  let o2 ← if frame_id > 0 then addOdometry o1 frame_id else pure o1
  let params_id := frame_id + 1
  addIntrinsicsIn ndebug o2 frame.intrinsics params_id

/-- The frame loop of `construct`, in the build given by `ndebug`. -/
def constructFramesIn (ndebug : Bool) (frame_count : Nat) :
    List Frame → Nat → SparseOptimizer → Except Failure SparseOptimizer
  | [], _, o => pure o
  | frame :: rest, frame_id, o => do
    let o1 ← constructFrameIn ndebug frame_count o frame_id frame
    constructFramesIn ndebug frame_count rest (frame_id + 1) o1

/-- The method `BundleAdjustment::construct`, in the build given by `ndebug`; with
`ndebug = false` it is `construct`. -/
def constructIn (ndebug : Bool) (compact : Bool) (data : Data) (ba : BundleAdjustment) :
    Except Failure BundleAdjustment := do
  let frame_count := data.frames.length
  let stats0 : Stats :=
    { Stats.init with landmarks := List.replicate frame_count 0,
                      usable_landmarks := List.replicate frame_count 0 }
  let o1 ← constructFramesIn ndebug frame_count data.frames 0 ba.optimizer
  let s ← constructLandmarks compact frame_count data.landmarks 0 (o1, stats0)
  pure { optimizer := s.1, stats := s.2 }

end lar

/-! ## Landmarks-first bundle adjustment (`src/process/bundle_adjustment.cpp`) -/

namespace geoar

/-- The class `geoar::Landmark` (`src/core/landmark.cpp`). -/
structure Landmark where
  id : Nat
  position : Vector3d
  desc : Mat
  sightings : Nat
  index_radius : ℚ
  index_center : Vector2d

/-- The JSON object `frame.intrinsics`, with the keys `addIntrinsics` reads. -/
structure Intrinsics where
  focalLength : ℚ
  principlePoint : Vector2d

/-- The class `geoar::Frame`, with the members the bundle adjustment reads. -/
structure Frame where
  pose : SE3Quat
  intrinsics : Intrinsics
  landmarks : List Nat
  kpts : List KeyPoint
  depth : List ℚ
  confidence : List ℚ

/-- The part of `MapProcessingData` read by the bundle adjustment. -/
structure MapProcessingData where
  frames : List Frame
  landmarks : List Landmark

/-- The class `geoar::BundleAdjustment`: the optimizer and the statistics. -/
structure BundleAdjustment where
  optimizer : SparseOptimizer
  stats : Stats

/-- The point vertex `addLandmark` builds. -/
def landmarkVertex (landmark : Landmark) (id : Nat) : Vertex :=
  { id := id, estimate := .xyz landmark.position, fixed := false, marginalized := true }

/-- The method `BundleAdjustment::addLandmark`. -/
def addLandmark (o : SparseOptimizer) (landmark : Landmark) (id : Nat) :
    SparseOptimizer × Bool :=
  if landmark.sightings ≥ 3 then
    ((o.addVertex (landmarkVertex landmark id)).1, true)
  else
    (o, false)

/-- The pose vertex `addPose` builds. -/
def poseVertex (pose : SE3Quat) (id : Nat) (fixed : Bool) : Vertex :=
  { id := id, estimate := .se3 pose, fixed := fixed, marginalized := false }

/-- The method `BundleAdjustment::addPose`. -/
def addPose (o : SparseOptimizer) (pose : SE3Quat) (id : Nat) (fixed : Bool) :
    SparseOptimizer :=
  (o.addVertex (poseVertex pose id fixed)).1

/-- The parameter block `addIntrinsics` builds. -/
def cameraParameters (intrinsics : Intrinsics) (id : Nat) : CameraParameters :=
  { id := id, focal_length := intrinsics.focalLength,
    principle_point := intrinsics.principlePoint, baseline := 0 }

/-- The method `BundleAdjustment::addIntrinsics`; a refused parameter reaches
`assert(false)`. -/
def addIntrinsics (o : SparseOptimizer) (intrinsics : Intrinsics) (id : Nat) :
    Except Failure SparseOptimizer :=
  match o.addParameter (cameraParameters intrinsics id) with
  | (o1, true) => .ok o1
  | (_, false) => .error .assertion

/-- One iteration of the loop of `addLandmarkMeasurements`: the optimizer and the local
counter `usable_landmarks` after it. -/
def addLandmarkMeasurement (data : MapProcessingData) (frame : Frame) (frame_id params_id : Nat)
    (s : SparseOptimizer × Nat) (j : Nat) : Except Failure (SparseOptimizer × Nat) := do
  let landmark_id ← vectorAt frame.landmarks j
  let landmark ← vectorAt data.landmarks landmark_id
  let keypoint ← vectorAt frame.kpts j
  let depth ← vectorAt frame.depth j
  let kp : Vector3d := ⟨keypoint.pt.x, keypoint.pt.y, depth⟩
  if landmark.sightings ≥ 3 then do
    let confidence ← vectorAt frame.confidence j
    let edge := Edge.projectXYZ2UVD ((s.1.vertex landmark_id).map Vertex.id)
      ((s.1.vertex frame_id).map Vertex.id) kp (asDiagonal 1 1 confidence) params_id
    pure (s.1.addEdge edge, s.2 + 1)
  else
    pure s

/-- The loop of `addLandmarkMeasurements` over `j = 0 .. frame.landmarks.size() - 1`,
given as the list of remaining counter values. -/
def addLandmarkMeasurementsLoop (data : MapProcessingData) (frame : Frame)
    (frame_id params_id : Nat) :
    List Nat → SparseOptimizer × Nat → Except Failure (SparseOptimizer × Nat)
  | [], s => pure s
  | j :: rest, s => do
    let s1 ← addLandmarkMeasurement data frame frame_id params_id s j
    addLandmarkMeasurementsLoop data frame frame_id params_id rest s1

/-- The method `BundleAdjustment::addLandmarkMeasurements`. -/
def addLandmarkMeasurements (data : MapProcessingData) (s : SparseOptimizer × Stats)
    (frame : Frame) (frame_id params_id : Nat) : Except Failure (SparseOptimizer × Stats) := do
  let r ← addLandmarkMeasurementsLoop data frame frame_id params_id
    (List.range frame.landmarks.length) (s.1, 0)
  pure (r.1, { s.2 with landmarks := s.2.landmarks ++ [frame.landmarks.length],
                        usable_landmarks := s.2.usable_landmarks ++ [r.2] })

/-- The landmark loop of `construct`, from counter value `i` on. -/
def constructLandmarks : List Landmark → Nat → SparseOptimizer × Stats → SparseOptimizer × Stats
  | [], _, s => s
  | landmark :: rest, i, s =>
    let r := addLandmark s.1 landmark i
    constructLandmarks rest (i + 1)
      (r.1, { s.2 with
                total_usable_landmarks := s.2.total_usable_landmarks + (if r.2 then 1 else 0) })

/-- One iteration of the frame loop of `construct`. -/
def constructFrame (data : MapProcessingData) (landmark_count : Nat)
    (s : SparseOptimizer × Stats) (i frame_id : Nat) (frame : Frame) :
    Except Failure (SparseOptimizer × Stats) := do
  let o1 := addPose s.1 frame.pose frame_id (frame_id == landmark_count)
  let o2 ← if frame_id > landmark_count then addOdometry o1 frame_id else pure o1
  let params_id := i + 1
  let o3 ← addIntrinsics o2 frame.intrinsics params_id
  addLandmarkMeasurements data (o3, s.2) frame frame_id params_id

/-- The frame loop of `construct`, from counter values `i` and `frame_id` on. -/
def constructFrames (data : MapProcessingData) (landmark_count : Nat) :
    List Frame → Nat → Nat → SparseOptimizer × Stats → Except Failure (SparseOptimizer × Stats)
  | [], _, _, s => pure s
  | frame :: rest, i, frame_id, s => do
    let s1 ← constructFrame data landmark_count s i frame_id frame
    constructFrames data landmark_count rest (i + 1) (frame_id + 1) s1

/-- The method `BundleAdjustment::construct` (landmarks first, then frames). -/
def construct (data : MapProcessingData) (ba : BundleAdjustment) :
    Except Failure BundleAdjustment := do
  let landmark_count := data.landmarks.length
  let s1 := constructLandmarks data.landmarks 0 (ba.optimizer, ba.stats)
  let frame_id := landmark_count
  let s2 ← constructFrames data landmark_count data.frames 0 frame_id s1
  pure { optimizer := s2.1, stats := s2.2 }

end geoar

/-! ## Per-frame landmark pipeline (`src/processing/frame_processor.cpp`) -/

namespace lar

/-- The query window `Rect(Point(x, y), width, height)`. -/
structure Rect where
  x : ℚ
  y : ℚ
  width : ℚ
  height : ℚ

/-- The record `cv::DMatch`, with the two indices the code reads. -/
structure DMatch where
  queryIdx : Nat
  trainIdx : Nat

/-- A grayscale image, as its pixel rows. -/
abbrev Image := List (List Nat)

/-- Modelled from the spec: the class `LandmarkDatabase` is missing; it owns the
sequence of landmarks, indexed by `operator[]` and counted by `size()`. -/
structure LandmarkDatabase where
  all : List Landmark

/-- The external collaborators of `FrameProcessor`: image loading, `Vision`,
`SavedDepth`, `Projection`, the square root of the C library, and the window query of the
landmark database (answered by its region tree). -/
structure Collaborators where
  imread : Nat → Image
  extractFeatures : Image → List KeyPoint × Mat
  vision_match : Mat → Mat → List DMatch
  depthAt : Frame → List KeyPoint → List ℚ
  confidenceAt : Frame → List KeyPoint → List ℚ
  surfaceNormaslAt : Frame → List KeyPoint → List Vector3d
  projectToWorld : Matrix3d → Matrix4d → Point2f → ℚ → Vector3d
  sqrt : ℚ → ℚ
  find : LandmarkDatabase → Rect → List Landmark

/-- Modelled from the spec: the constructor `Landmark(position, desc, id)` is missing;
a new landmark has the given position, descriptor and id, no sighting and no observation. -/
def Landmark.new (position : Vector3d) (desc : Descriptor) (id : Nat) : Landmark :=
  { id := id, position := position, desc := desc, sightings := 0, obs := [],
    is_fixed := false, index_center := ⟨0, 0⟩, index_radius := 0 }

/-- Modelled from the spec: `Landmark::recordObservation` is missing; it appends the
observation, increments `sightings`, and on the first call sets `index_center` to the
ground-plane position of the camera and `index_radius` to its distance from the ground-plane
position of the landmark. -/
def Landmark.recordObservation (sqrt : ℚ → ℚ) (l : Landmark) (observation : Observation) :
    Landmark :=
  let l1 : Landmark :=
    if l.sightings = 0 then
      let cx := observation.cam_position.x
      let cz := observation.cam_position.z
      { l with index_center := ⟨cx, cz⟩,
               index_radius := sqrt ((l.position.x - cx) ^ 2 + (l.position.z - cz) ^ 2) }
    else l
  { l1 with obs := l1.obs ++ [observation], sightings := l1.sightings + 1 }

/-- Modelled from the spec: `LandmarkDatabase::insert` is missing; it appends each new
landmark to the sequence, assigning the next sequential id. -/
def LandmarkDatabase.insert (db : LandmarkDatabase) (new_landmarks : List Landmark) :
    LandmarkDatabase :=
  new_landmarks.foldl (fun d l => ⟨d.all ++ [{ l with id := d.all.length }]⟩) db

/-- Modelled from the spec: `lar::Landmark::concatDescriptions` is missing; the
descriptors stacked in input order. -/
def concatDescriptions (landmarks : List Landmark) : Mat :=
  landmarks.map Landmark.desc

/-- A `std::map<size_t, size_t>`, as its lookup function (`none` for `end()`). -/
abbrev IndexMap := Nat → Option Nat

/-- The assignment `m[key] = value`. -/
def IndexMap.assign (m : IndexMap) (key value : Nat) : IndexMap :=
  fun k => if k = key then some value else m k

/-- The loop of `getMatches` that populates `idx_matched`. -/
def populateMatched (landmarks : List Landmark) :
    List DMatch → IndexMap → Except Failure IndexMap
  | [], idx_matched => pure idx_matched
  | m :: rest, idx_matched => do
    let idx := m.queryIdx
    let landmark ← vectorAt landmarks m.trainIdx
    populateMatched landmarks rest (idx_matched.assign idx landmark.id)

/-- The method `FrameProcessor::getMatches`.  (Its second loop fills a local matrix that
is dropped on return.) -/
def getMatches (env : Collaborators) (db : LandmarkDatabase) (desc : Mat) (query : Rect) :
    Except Failure IndexMap :=
  let landmarks := env.find db query
  let existing_desc := concatDescriptions landmarks
  let ms := env.vision_match desc existing_desc
  populateMatched landmarks ms (fun _ => none)

/-- Local state of the loop of `getLandmarkIds`. -/
structure Staging where
  new_landmarks : List Landmark
  landmark_ids : List Nat
  new_landmark_id : Nat

/-- The loop of `getLandmarkIds` over the keypoints, from counter value `i` on. -/
def stageLandmarks (env : Collaborators) (frame : Frame) (desc : Mat) (depth : List ℚ)
    (idx_matched : IndexMap) : List KeyPoint → Nat → Staging → Except Failure Staging
  | [], _, s => pure s
  | kpt :: rest, i, s =>
    match idx_matched i with
    | none => do
      let d ← vectorAt depth i
      let row ← vectorAt desc i
      let pt3d := env.projectToWorld frame.intrinsics frame.extrinsics kpt.pt d
      let landmark := Landmark.new pt3d row s.new_landmark_id
      stageLandmarks env frame desc depth idx_matched rest (i + 1)
        { new_landmarks := s.new_landmarks ++ [landmark],
          landmark_ids := s.landmark_ids ++ [s.new_landmark_id],
          new_landmark_id := s.new_landmark_id + 1 }
    | some id =>
      stageLandmarks env frame desc depth idx_matched rest (i + 1)
        { s with landmark_ids := s.landmark_ids ++ [id] }

/-- The window query and staging part of `getLandmarkIds`, up to the bulk insertion. -/
def getLandmarkIdsStaged (env : Collaborators) (db : LandmarkDatabase) (frame : Frame)
    (desc : Mat) (kpts : List KeyPoint) (depth : List ℚ) : Except Failure Staging := do
  let query_diameter : ℚ := 50
  let query : Rect := ⟨frame.extrinsics 0 3, frame.extrinsics 2 3, query_diameter, query_diameter⟩
  let idx_matched ← getMatches env db desc query
  let new_landmark_id := db.all.length
  stageLandmarks env frame desc depth idx_matched kpts 0
    { new_landmarks := [], landmark_ids := [], new_landmark_id := new_landmark_id }

/-- The method `FrameProcessor::getLandmarkIds`: the ids, and the database after the bulk
insertion. -/
def getLandmarkIds (env : Collaborators) (db : LandmarkDatabase) (frame : Frame)
    (desc : Mat) (kpts : List KeyPoint) (depth : List ℚ) :
    Except Failure (List Nat × LandmarkDatabase) := do
  let s ← getLandmarkIdsStaged env db frame desc kpts depth
  pure (s.landmark_ids, db.insert s.new_landmarks)

/-- The observation built for keypoint `i` in `process`. -/
def makeObservation (frame : Frame) (kpt : KeyPoint) (depth confidence : ℚ)
    (normal : Vector3d) : Observation :=
  { frame_id := frame.id, timestamp := frame.timestamp,
    cam_position := ⟨frame.extrinsics 0 3, frame.extrinsics 1 3, frame.extrinsics 2 3⟩,
    kpt := kpt, depth := depth, depth_confidence := confidence, surface_normal := normal }

/-- The statement pair `Landmark& landmark = landmarks[id]; landmark.recordObservation(obs)`. -/
def recordAt (sqrt : ℚ → ℚ) (db : LandmarkDatabase) (id : Nat) (obs : Observation) :
    Except Failure LandmarkDatabase := do
  let landmark ← vectorAt db.all id
  pure ⟨db.all.set id (landmark.recordObservation sqrt obs)⟩

/-- The observation loop of `process`, from counter value `i` on. -/
def recordObservations (env : Collaborators) (frame : Frame) (depth_values confidence_values : List ℚ)
    (surface_normals : List Vector3d) (landmark_ids : List Nat) :
    List KeyPoint → Nat → LandmarkDatabase → Except Failure LandmarkDatabase
  | [], _, db => pure db
  | kpt :: rest, i, db => do
    let depth ← vectorAt depth_values i
    let confidence ← vectorAt confidence_values i
    let normal ← vectorAt surface_normals i
    let obs := makeObservation frame kpt depth confidence normal
    let id ← vectorAt landmark_ids i
    let db1 ← recordAt env.sqrt db id obs
    recordObservations env frame depth_values confidence_values surface_normals landmark_ids
      rest (i + 1) db1

/-- The method `FrameProcessor::process`: the database and the frame after the call. -/
def process (env : Collaborators) (db : LandmarkDatabase) (frame : Frame) :
    Except Failure (LandmarkDatabase × Frame) :=
  if frame.processed then pure (db, frame)
  else do
    let image := env.imread frame.id
    let features := env.extractFeatures image
    let kpts := features.1
    let desc := features.2
    let depth_values := env.depthAt frame kpts
    let confidence_values := env.confidenceAt frame kpts
    let surface_normals := env.surfaceNormaslAt frame kpts
    let r ← getLandmarkIds env db frame desc kpts depth_values
    let landmark_ids := r.1
    let db2 ← recordObservations env frame depth_values confidence_values surface_normals
      landmark_ids kpts 0 r.2
    pure (db2, { frame with processed := true })

end lar

/-! ## The landmark record of the landmarks-first code (`src/core/landmark.cpp`) -/

namespace geoar

/-- The JSON value `cam_transform`: an array of four arrays of four numbers, the columns
of the camera transform; `t c r` is `cam_transform[c][r]`. -/
abbrev CamTransform := Fin 4 → Fin 4 → ℚ

/-- The method `Landmark::recordSighting`.  `sqrt` is the square root behind
`Eigen::Vector2d::norm()`; the double arithmetic of the radius (rounding, overflow) is not
modelled, the radius enters only as the value `sqrt` gives. -/
def Landmark.recordSighting (sqrt : ℚ → ℚ) (l : Landmark) (cam_transform : CamTransform) :
    Landmark :=
  let l1 : Landmark :=
    if l.sightings = 0 then
      let position2 : Vector2d := ⟨l.position.x, l.position.z⟩
      let cam_position2 : Vector2d := ⟨cam_transform 3 0, cam_transform 3 2⟩
      let distance : ℚ :=
        sqrt ((position2.x - cam_position2.x) ^ 2 + (position2.y - cam_position2.y) ^ 2)
      { l with index_radius := distance, index_center := cam_position2 }
    else l
  { l1 with sightings := l1.sightings + 1 }

/-- A sequence of calls of `recordSighting` on one landmark, one per camera transform. -/
def Landmark.recordSightings (sqrt : ℚ → ℚ) (l : Landmark) (calls : List CamTransform) :
    Landmark :=
  calls.foldl (Landmark.recordSighting sqrt) l

/-- The usability test of the landmarks-first code, `landmark.sightings >= 3`. -/
def Landmark.usable (l : Landmark) : Bool :=
  decide (l.sightings ≥ 3)

/-- The static method `Landmark::concatDescriptions`: the loop pushes the descriptor of
each landmark onto the output matrix `desc` (`cv::Mat::push_back` appends rows). -/
def concatDescriptions : List Landmark → Mat → Mat
  | [], desc => desc
  | landmark :: rest, desc => concatDescriptions rest (desc ++ landmark.desc)

end geoar

/-! ## Optimization and writeback (`src/processing/bundle_adjustment.cpp`) -/

namespace lar

/-- The external solver: the calls `optimizer.initializeOptimization()` and
`optimizer.optimize(iterations)`, as a function of the graph. -/
abbrev Solver := SparseOptimizer → Nat → SparseOptimizer

/-- The method `BundleAdjustment::updateLandmark`, on the landmark sequence of the map. -/
def updateLandmark (o : SparseOptimizer) (frame_count : Nat) (landmarks : List Landmark)
    (landmark_id : Nat) : Except Failure (List Landmark) := do
  let landmark ← vectorAt landmarks landmark_id
  if landmark.isUseable then
    let vertex_id := landmark_id + frame_count
    match asVertexPointXYZ (o.vertex vertex_id) with
    | some (_, estimate) => pure (landmarks.set landmark_id { landmark with position := estimate })
    | none => .error .nullPointer
  else
    pure landmarks

/-- The writeback loop of `optimize`, given as the list of remaining counter values. -/
def updateLandmarks (o : SparseOptimizer) (frame_count : Nat) :
    List Nat → List Landmark → Except Failure (List Landmark)
  | [], landmarks => pure landmarks
  | i :: rest, landmarks => do
    let landmarks1 ← updateLandmark o frame_count landmarks i
    updateLandmarks o frame_count rest landmarks1

/-- The method `BundleAdjustment::optimize`: the builder and the data after the call. -/
def optimize (solve : Solver) (data : Data) (ba : BundleAdjustment) :
    Except Failure (BundleAdjustment × Data) := do
  let optimizer := solve ba.optimizer 50
  let landmark_count := data.landmarks.length
  let landmarks ← updateLandmarks optimizer data.frames.length (List.range landmark_count)
    data.landmarks
  pure ({ ba with optimizer := optimizer }, { data with landmarks := landmarks })

/-- The contract of the solver used here: it changes estimates only, so the graph after
solving has the same vertices in the same order, each with its id and its class. -/
def SolverKeepsVertices (solve : Solver) : Prop :=
  ∀ o n, List.Forall₂
    (fun v w => w.id = v.id ∧
      (asVertexPointXYZ (some w)).isSome = (asVertexPointXYZ (some v)).isSome)
    o.vertices (solve o n).vertices

/-- The landmark at index `j` after `updateLandmark(j)` has returned: a usable landmark
takes the estimate of the point vertex under id `j + frame_count`, any other landmark is
left as it is. -/
def writtenBack (o : SparseOptimizer) (frame_count j : Nat) (l : Landmark) : Landmark :=
  if l.isUseable then
    match asVertexPointXYZ (o.vertex (j + frame_count)) with
    | some (_, estimate) => { l with position := estimate }
    | none => l
  else l

end lar

/-! ## The graph the frames-first construction is expected to build -/

namespace lar

/-- Expected pose vertices from counter value `k` on: frame `i` under id `i`, fixed iff
`i` is the last index. -/
def poseVerticesFrom (frame_count : Nat) (k : Nat) (frames : List Frame) : List Vertex :=
  (frames.enumFrom k).map
    (fun p => poseVertex p.2.extrinsics p.1 (p.1 == frame_count - 1))

/-- Expected camera blocks from counter value `k` on: frame `i` under id `i + 1`. -/
def cameraBlocksFrom (k : Nat) (frames : List Frame) : List CameraParameters :=
  (frames.enumFrom k).map (fun p => cameraParameters p.2.intrinsics (p.1 + 1))

/-- The odometry edge between the pose vertices `i` and `i + 1` of two consecutive
frames. -/
def odometryEdge (i : Nat) (f0 f1 : Frame) : Edge :=
  Edge.se3 i (i + 1)
    (SE3Quat.mul (poseEstimate f1.extrinsics) (SE3Quat.inverse (poseEstimate f0.extrinsics)))
    (scaledIdentity 6 80000000)

/-- Expected odometry edges: one per pair of consecutive frames, in order. -/
def odometryEdges (frames : List Frame) : List Edge :=
  ((frames.zip frames.tail).enumFrom 0).map (fun p => odometryEdge p.1 p.2.1 p.2.2)

/-- The usable landmarks with their indices, counted from `k`. -/
def usableFrom (k : Nat) (landmarks : List Landmark) : List (Nat × Landmark) :=
  (landmarks.enumFrom k).filter (fun p => p.2.isUseable)

/-- Expected landmark vertices: usable landmark `j` under id `j + frame_count`. -/
def landmarkVerticesFrom (compact : Bool) (frame_count : Nat) (k : Nat)
    (landmarks : List Landmark) : List Vertex :=
  (usableFrom k landmarks).map (fun p => landmarkVertex compact p.2 (p.1 + frame_count))

/-- The projection edge of observation `obs` of the landmark under vertex id `id`. -/
def expectedProjectionEdge (id : Nat) (obs : Observation) : Edge :=
  Edge.projectXYZ2UVD (some id) (some obs.frame_id)
    ⟨obs.kpt.pt.x, obs.kpt.pt.y, obs.depth⟩ (asDiagonal 1 1 obs.depth_confidence)
    (obs.frame_id + 1)

/-- Expected projection edges: for each usable landmark in order, one edge per
observation in order. -/
def projectionEdgesFrom (frame_count : Nat) (k : Nat) (landmarks : List Landmark) : List Edge :=
  (usableFrom k landmarks).flatMap
    (fun p => p.2.obs.map (expectedProjectionEdge (p.1 + frame_count)))

/-- The ids of the pose vertices (`VertexSE3Expmap`) of an optimizer, in insertion order. -/
def poseVertexIds (o : SparseOptimizer) : List Nat :=
  (o.vertices.filter (fun v => (asVertexSE3Expmap (some v)).isSome)).map Vertex.id

/-- The ids of the landmark vertices (`VertexPointXYZ`) of an optimizer, in insertion
order. -/
def landmarkVertexIds (o : SparseOptimizer) : List Nat :=
  (o.vertices.filter (fun v => (asVertexPointXYZ (some v)).isSome)).map Vertex.id

/-- The number of usable landmarks of a landmark sequence. -/
def usableCount (landmarks : List Landmark) : Nat :=
  (landmarks.filter Landmark.isUseable).length

/-- The number of observations made from frame `f`, over all landmarks of a sequence. -/
def observedCount (landmarks : List Landmark) (f : Nat) : Nat :=
  (landmarks.map (fun l => l.obs.countP (fun obs => obs.frame_id == f))).sum

/-- The number of observations made from frame `f` that belong to usable landmarks. -/
def usableObservedCount (landmarks : List Landmark) (f : Nat) : Nat :=
  observedCount (landmarks.filter Landmark.isUseable) f

/-- The number of projection edges of an optimizer. -/
def projectionEdgeCount (o : SparseOptimizer) : Nat :=
  (o.edges.filter Edge.isProjection).length

/-- Every observation of every landmark refers to a frame of the frame list. -/
def ObservationsInRange (data : Data) : Prop :=
  ∀ l ∈ data.landmarks, ∀ obs ∈ l.obs, obs.frame_id < data.frames.length

/-- The graph expected from `construct` on an empty optimizer. -/
def expectedGraph (compact : Bool) (data : Data) : SparseOptimizer :=
  { vertices := poseVerticesFrom data.frames.length 0 data.frames ++
      landmarkVerticesFrom compact data.frames.length 0 data.landmarks,
    edges := odometryEdges data.frames ++
      projectionEdgesFrom data.frames.length 0 data.landmarks,
    parameters := cameraBlocksFrom 0 data.frames }

end lar

/-! ## The graph the landmarks-first construction is expected to build -/

namespace geoar

/-- Expected landmark vertices from counter value `k` on: the landmark at index `j` with
at least three sightings under id `j`. -/
def landmarkVerticesFrom (k : Nat) (landmarks : List Landmark) : List Vertex :=
  ((landmarks.enumFrom k).filter (fun p => decide (p.2.sightings ≥ 3))).map
    (fun p => landmarkVertex p.2 p.1)

/-- Expected pose vertices from counter value `i` on: frame `i` under id
`landmark_count + i`, fixed iff that id equals `landmark_count`. -/
def poseVerticesFrom (landmark_count : Nat) (i : Nat) (frames : List Frame) : List Vertex :=
  (frames.enumFrom i).map
    (fun p => poseVertex p.2.pose (landmark_count + p.1)
      (landmark_count + p.1 == landmark_count))

/-- Expected camera blocks from counter value `i` on: frame `i` under id `i + 1`. -/
def cameraBlocksFrom (i : Nat) (frames : List Frame) : List CameraParameters :=
  (frames.enumFrom i).map
    (fun p => cameraParameters p.2.intrinsics (p.1 + 1))

/-- The projection edge expected for entry `j` of a frame, if the landmark it refers to
has at least three sightings. -/
def expectedProjectionEdge (data : MapProcessingData) (frame : Frame) (frame_id params_id : Nat)
    (j : Nat) : Option Edge :=
  let landmark_id := frame.landmarks.getD j 0
  if ((data.landmarks[landmark_id]?).map Landmark.sightings).getD 0 ≥ 3 then
    some (Edge.projectXYZ2UVD (some landmark_id) (some frame_id)
      ⟨(frame.kpts.getD j ⟨⟨0, 0⟩⟩).pt.x, (frame.kpts.getD j ⟨⟨0, 0⟩⟩).pt.y, frame.depth.getD j 0⟩
      (asDiagonal 1 1 (frame.confidence.getD j 0)) params_id)
  else none

/-- The odometry edge expected for frame `i`, given the pose of the frame before (none for
the first frame). -/
def expectedOdometryEdge (landmark_count i : Nat) (frame : Frame) : Option SE3Quat → List Edge
  | some pose0 =>
    [Edge.se3 (landmark_count + i - 1) (landmark_count + i)
      (SE3Quat.mul frame.pose (SE3Quat.inverse pose0)) (scaledIdentity 6 80000000)]
  | none => []

/-- Expected edges from counter value `i` on, given the pose of the frame before: for each
frame its odometry edge, then the projection edges of its entries. -/
def edgesFrom (data : MapProcessingData) (landmark_count : Nat) :
    Nat → Option SE3Quat → List Frame → List Edge
  | _, _, [] => []
  | i, prev, frame :: rest =>
    expectedOdometryEdge landmark_count i frame prev ++
    (List.range frame.landmarks.length).filterMap
      (expectedProjectionEdge data frame (landmark_count + i) (i + 1)) ++
    edgesFrom data landmark_count (i + 1) (some frame.pose) rest

/-- The graph expected from the landmarks-first `construct` on an empty optimizer. -/
def expectedGraph (data : MapProcessingData) : SparseOptimizer :=
  { vertices := landmarkVerticesFrom 0 data.landmarks ++
      poseVerticesFrom data.landmarks.length 0 data.frames,
    edges := edgesFrom data data.landmarks.length 0 none data.frames,
    parameters := cameraBlocksFrom 0 data.frames }

/-- Every entry of every frame refers to a landmark of the map and has a keypoint, a depth
and a confidence. -/
def WellFormed (data : MapProcessingData) : Prop :=
  ∀ f ∈ data.frames,
    (∀ id ∈ f.landmarks, id < data.landmarks.length) ∧
    f.landmarks.length ≤ f.kpts.length ∧ f.landmarks.length ≤ f.depth.length ∧
    f.landmarks.length ≤ f.confidence.length

end geoar

/-! ## Quantities used to state the frame-processor claims -/

namespace lar

/-- The number of keypoint indices below `i` that the match map leaves unmatched. -/
def unmatchedBefore (idx_matched : IndexMap) (i : Nat) : Nat :=
  ((List.range i).filter (fun t => (idx_matched t).isNone)).length

/-- The landmark id expected for keypoint `i` on a database of size `n`: the matched id,
or `n` plus the number of unmatched keypoints before `i`. -/
def assignedId (idx_matched : IndexMap) (n : Nat) (i : Nat) : Nat :=
  match idx_matched i with
  | some id => id
  | none => n + unmatchedBefore idx_matched i

/-- The landmarks expected to be staged for the keypoints from counter value `i` on: one
per unmatched keypoint, in keypoint order. -/
def stagedFrom (env : Collaborators) (frame : Frame) (desc : Mat) (depth : List ℚ)
    (idx_matched : IndexMap) (n : Nat) (i : Nat) (kpts : List KeyPoint) : List Landmark :=
  ((kpts.enumFrom i).filter (fun p => (idx_matched p.1).isNone)).map
    (fun p => Landmark.new
      (env.projectToWorld frame.intrinsics frame.extrinsics p.2.pt (depth.getD p.1 0))
      (desc.getD p.1 []) (n + unmatchedBefore idx_matched p.1))

/-- The query window `getLandmarkIds` builds around the camera of a frame. -/
def queryWindow (frame : Frame) : Rect :=
  ⟨frame.extrinsics 0 3, frame.extrinsics 2 3, 50, 50⟩

/-- The observations built in `process` for the keypoints from counter value `i` on
whose landmark id is `m`, in keypoint order. -/
def observationsFor (frame : Frame) (depth_values confidence_values : List ℚ)
    (surface_normals : List Vector3d) (landmark_ids : List Nat) (i : Nat)
    (kpts : List KeyPoint) (m : Nat) : List Observation :=
  ((kpts.enumFrom i).filter (fun p => landmark_ids.getD p.1 0 == m)).map
    (fun p => makeObservation frame p.2 (depth_values.getD p.1 0)
      (confidence_values.getD p.1 0) (surface_normals.getD p.1 ⟨0, 0, 0⟩))

/-- The keypoints `process` extracts for a frame. -/
def keypointsOf (env : Collaborators) (frame : Frame) : List KeyPoint :=
  (env.extractFeatures (env.imread frame.id)).1

/-- The descriptors `process` extracts for a frame. -/
def descriptorsOf (env : Collaborators) (frame : Frame) : Mat :=
  (env.extractFeatures (env.imread frame.id)).2

/-- The observation `process` builds for keypoint `i` of a frame. -/
def observationAt (env : Collaborators) (frame : Frame) (i : Nat) (kpt : KeyPoint) :
    Observation :=
  makeObservation frame kpt
    ((env.depthAt frame (keypointsOf env frame)).getD i 0)
    ((env.confidenceAt frame (keypointsOf env frame)).getD i 0)
    ((env.surfaceNormaslAt frame (keypointsOf env frame)).getD i ⟨0, 0, 0⟩)

/-- The observations `process` builds for the keypoints matched to landmark `m`, in
keypoint order. -/
def matchedObservations (env : Collaborators) (frame : Frame) (idx_matched : IndexMap)
    (m : Nat) : List Observation :=
  (((keypointsOf env frame).enumFrom 0).filter (fun p => idx_matched p.1 == some m)).map
    (fun p => observationAt env frame p.1 p.2)

/-- The contracts of the collaborators on one frame: one descriptor, depth, confidence
and normal per keypoint; every train index of a correspondence refers to a candidate
landmark; every candidate landmark carries the id of a stored landmark. -/
def CollaboratorContracts (env : Collaborators) (db : LandmarkDatabase) (frame : Frame) :
    Prop :=
  (keypointsOf env frame).length ≤ (descriptorsOf env frame).length ∧
  (keypointsOf env frame).length ≤ (env.depthAt frame (keypointsOf env frame)).length ∧
  (keypointsOf env frame).length ≤ (env.confidenceAt frame (keypointsOf env frame)).length ∧
  (keypointsOf env frame).length ≤ (env.surfaceNormaslAt frame (keypointsOf env frame)).length ∧
  (∀ m ∈ env.vision_match (descriptorsOf env frame)
      (concatDescriptions (env.find db (queryWindow frame))),
    m.trainIdx < (env.find db (queryWindow frame)).length) ∧
  (∀ l ∈ env.find db (queryWindow frame), l.id < db.all.length)

end lar

/-! ## Sample inputs -/

namespace Sample

/-- A frame with the given id and zero matrices. -/
def frame (id : Nat) : lar.Frame :=
  { id := id, timestamp := 0, intrinsics := fun _ _ => 0, extrinsics := fun _ _ => 0,
    processed := false }

/-- An observation made from the frame with the given id. -/
def observation (frame_id : Nat) : lar.Observation :=
  { frame_id := frame_id, timestamp := 0, cam_position := ⟨0, 0, 0⟩, kpt := ⟨⟨100, 100⟩⟩,
    depth := 2, depth_confidence := 1, surface_normal := ⟨0, 0, 1⟩ }

/-- A landmark with the given number of sightings, observed from the given frames. -/
def landmark (sightings : Nat) (frame_ids : List Nat) : lar.Landmark :=
  { id := 0, position := ⟨0, 0, 0⟩, desc := [], sightings := sightings,
    obs := frame_ids.map observation, is_fixed := false, index_center := ⟨0, 0⟩,
    index_radius := 0 }

/-- Three frames, an unusable landmark (two sightings) and a usable one (three). -/
def data : lar.Data :=
  { frames := [frame 0, frame 1, frame 2],
    landmarks := [landmark 2 [0, 1], landmark 3 [0, 1, 2]] }

/-- One frame, an unusable landmark followed by a usable one. -/
def gapData : lar.Data :=
  { frames := [frame 0],
    landmarks := [landmark 0 [], landmark 3 [0, 0, 0]] }

/-- One frame and a usable landmark whose first observation names frame `1`, which is
not in the frame list. -/
def strayData : lar.Data :=
  { frames := [frame 0],
    landmarks := [landmark 3 [1, 0, 0]] }

/-- A stored landmark with the given id and descriptor, not yet observed. -/
def stored (id : Nat) (desc : Descriptor) : lar.Landmark :=
  lar.Landmark.new ⟨0, 0, 0⟩ desc id

/-- A database holding one landmark, under id `0`. -/
def db : lar.LandmarkDatabase := ⟨[stored 0 [7]]⟩

/-- Collaborators for a frame with two keypoints that both match the first candidate
landmark: every query descriptor is paired with train index `0`. -/
def env : lar.Collaborators :=
  { imread := fun _ => [],
    extractFeatures := fun _ => ([⟨⟨100, 100⟩⟩, ⟨⟨101, 100⟩⟩], [[7], [7]]),
    vision_match := fun desc _ => (List.range desc.length).map (fun i => ⟨i, 0⟩),
    depthAt := fun _ kpts => kpts.map (fun _ => 2),
    confidenceAt := fun _ kpts => kpts.map (fun _ => 1),
    surfaceNormaslAt := fun _ kpts => kpts.map (fun _ => ⟨0, 0, 1⟩),
    projectToWorld := fun _ _ pt d => ⟨pt.x, pt.y, d⟩,
    sqrt := fun x => x,
    find := fun d _ => d.all }

/-- Collaborators whose matcher pairs keypoint `0` with the first candidate landmark and
leaves the other keypoints unmatched. -/
def envOneMatch : lar.Collaborators :=
  { env with vision_match := fun _ _ => [⟨0, 0⟩] }

/-- The query window used in the samples. -/
def query : lar.Rect := ⟨0, 0, 50, 50⟩

/-- A legacy landmark with the given number of sightings. -/
def legacyLandmark (sightings : Nat) : geoar.Landmark :=
  { id := 0, position := ⟨0, 0, 0⟩, desc := [], sightings := sightings, index_radius := 0,
    index_center := ⟨0, 0⟩ }

/-- A legacy frame that observed the landmarks with the given indices. -/
def legacyFrame (landmarks : List Nat) : geoar.Frame :=
  { pose := SE3Quat.mk (fun _ _ => 0) ⟨0, 0, 0⟩, intrinsics := ⟨1, ⟨0, 0⟩⟩,
    landmarks := landmarks, kpts := landmarks.map (fun _ => ⟨⟨100, 100⟩⟩),
    depth := landmarks.map (fun _ => 2), confidence := landmarks.map (fun _ => 1) }

/-- Two legacy frames that both observed landmark `0` (two sightings, unusable) and
landmark `1` (three sightings, usable). -/
def legacyData : geoar.MapProcessingData :=
  { frames := [legacyFrame [0, 1], legacyFrame [0, 1]],
    landmarks := [legacyLandmark 2, legacyLandmark 3] }

/-- A camera transform whose translation column is `(3, 0, 4)`. -/
def camTransform : geoar.CamTransform :=
  fun c r => if c.val = 3 then (if r.val = 0 then 3 else if r.val = 2 then 4 else 0) else 0

/-- A square-root table that is exact on the one value the sample needs. -/
def sqrtTable : ℚ → ℚ :=
  fun x => if x = 25 then 5 else 0

/-- A solver that moves every point vertex to `(1, 2, 3)` and leaves the pose vertices. -/
def solver : lar.Solver :=
  fun o _ =>
    { o with vertices := o.vertices.map (fun v =>
        match v.estimate with
        | .xyz _ => { v with estimate := .xyz ⟨1, 2, 3⟩ }
        | .se3 _ => v) }

/-- Two legacy landmarks with one-row descriptors. -/
def describedLandmarks : List geoar.Landmark :=
  [{ legacyLandmark 0 with desc := [[1, 2]] }, { legacyLandmark 3 with desc := [[3, 4]] }]

end Sample

/-! ## Auxiliary facts -/

theorem incrementAt_ok (v : List Nat) (i : Nat) (h : i < v.length) :
    ∃ w, incrementAt v i = .ok w ∧ w.length = v.length := by
  unfold incrementAt
  rw [List.get?_eq_get h]
  exact ⟨_, rfl, by simp⟩

theorem incrementAt_error (v : List Nat) (i : Nat) (h : v.length ≤ i) :
    incrementAt v i = .error .outOfRange := by
  unfold incrementAt
  rw [List.get?_eq_none.mpr h]

namespace SparseOptimizer

theorem vertex_eq_none_of_lt (o : SparseOptimizer) (k : Nat)
    (h : ∀ v ∈ o.vertices, v.id < k) : o.vertex k = none := by
  unfold vertex
  rw [List.find?_eq_none]
  intro v hv
  have := h v hv
  simp
  omega

theorem addVertex_of_lt (o : SparseOptimizer) (v : Vertex)
    (h : ∀ w ∈ o.vertices, w.id < v.id) :
    o.addVertex v = ({ o with vertices := o.vertices ++ [v] }, true) := by
  unfold addVertex
  rw [vertex_eq_none_of_lt o v.id h]

theorem addParameter_of_lt (o : SparseOptimizer) (p : CameraParameters)
    (h : ∀ q ∈ o.parameters, q.id < p.id) :
    o.addParameter p = ({ o with parameters := o.parameters ++ [p] }, true) := by
  unfold addParameter
  have : o.parameters.find? (fun q => q.id == p.id) = none := by
    rw [List.find?_eq_none]
    intro q hq
    have := h q hq
    simp
    omega
  rw [this]

end SparseOptimizer

namespace lar

theorem vertex_append_new (o : SparseOptimizer) (v : Vertex)
    (h : ∀ w ∈ o.vertices, w.id < v.id) :
    SparseOptimizer.vertex { o with vertices := o.vertices ++ [v] } v.id = some v := by
  have hn : o.vertices.find? (fun w => w.id == v.id) = none := by
    rw [List.find?_eq_none]
    intro w hw
    have := h w hw
    simp
    omega
  simp [SparseOptimizer.vertex, List.find?_append, hn]

theorem vertex_append_old (o : SparseOptimizer) (vs : List Vertex) (k : Nat) (w : Vertex)
    (h : o.vertex k = some w) :
    SparseOptimizer.vertex { o with vertices := o.vertices ++ vs } k = some w := by
  unfold SparseOptimizer.vertex at h ⊢
  simp [List.find?_append, h]

theorem asVertexSE3Expmap_some (ov : Option Vertex) (k : Nat) (e : SE3Quat)
    (h : asVertexSE3Expmap ov = some (k, e)) :
    ∃ fx mg, ov = some ⟨k, .se3 e, fx, mg⟩ := by
  match ov, h with
  | some ⟨id, .se3 pose, fx, mg⟩, h =>
    simp only [asVertexSE3Expmap, Option.some.injEq, Prod.mk.injEq] at h
    obtain ⟨rfl, rfl⟩ := h
    exact ⟨fx, mg, rfl⟩

theorem constructFrame_succ (n : Nat) (o : SparseOptimizer) (k : Nat) (f0 f : Frame)
    (hV : ∀ v ∈ o.vertices, v.id < k + 1)
    (hprev : asVertexSE3Expmap (o.vertex k) = some (k, poseEstimate f0.extrinsics))
    (hP : ∀ p ∈ o.parameters, p.id < k + 2) :
    constructFrame n o (k + 1) f =
      .ok { vertices := o.vertices ++ [poseVertex f.extrinsics (k + 1) (k + 1 == n - 1)],
            edges := o.edges ++ [odometryEdge k f0 f],
            parameters := o.parameters ++ [cameraParameters f.intrinsics (k + 2)] } := by
  obtain ⟨fx, mg, hw⟩ := asVertexSE3Expmap_some _ _ _ hprev
  have hadd := SparseOptimizer.addVertex_of_lt o (poseVertex f.extrinsics (k + 1) (k + 1 == n - 1))
    (by intro v hv; exact hV v hv)
  have h1 := vertex_append_old o [poseVertex f.extrinsics (k + 1) (k + 1 == n - 1)] k _ hw
  have h2 := vertex_append_new o (poseVertex f.extrinsics (k + 1) (k + 1 == n - 1))
    (by intro v hv; exact hV v hv)
  have hpar := SparseOptimizer.addParameter_of_lt
    { vertices := o.vertices ++ [poseVertex f.extrinsics (k + 1) (k + 1 == n - 1)],
      edges := o.edges ++ [odometryEdge k f0 f], parameters := o.parameters }
    (cameraParameters f.intrinsics (k + 2))
    (by intro q hq; exact hP q hq)
  simp only [poseVertex] at h1 h2 hadd hpar
  simp only [constructFrame, addPose, poseVertex, hadd, addOdometry, Nat.add_sub_cancel,
    h1, h2, asVertexSE3Expmap, SparseOptimizer.addEdge, bind, Except.bind, pure,
    Except.pure, addIntrinsics, gt_iff_lt, Nat.zero_lt_succ, if_true]
  simp only [odometryEdge, poseVertex] at hpar ⊢
  rw [hpar]

theorem constructFrames_tail (n : Nat) (rest : List Frame) :
    ∀ (f0 : Frame) (k : Nat) (o : SparseOptimizer),
      (∀ v ∈ o.vertices, v.id < k + 1) →
      asVertexSE3Expmap (o.vertex k) = some (k, poseEstimate f0.extrinsics) →
      (∀ p ∈ o.parameters, p.id < k + 2) →
      constructFrames n rest (k + 1) o =
        .ok { vertices := o.vertices ++ poseVerticesFrom n (k + 1) rest,
              edges := o.edges ++
                (((f0 :: rest).zip rest).enumFrom k).map
                  (fun p => odometryEdge p.1 p.2.1 p.2.2),
              parameters := o.parameters ++ cameraBlocksFrom (k + 1) rest } := by
  induction rest with
  | nil =>
    intro f0 k o _ _ _
    simp [constructFrames, poseVerticesFrom, cameraBlocksFrom, pure, Except.pure]
  | cons f rest ih =>
    intro f0 k o hV hprev hP
    have hstep := constructFrame_succ n o k f0 f hV hprev hP
    have hnew := vertex_append_new o (poseVertex f.extrinsics (k + 1) (k + 1 == n - 1))
      (by intro v hv; exact hV v hv)
    simp only [constructFrames, hstep, bind, Except.bind]
    rw [ih f (k + 1)]
    · simp [poseVerticesFrom, cameraBlocksFrom, List.enumFrom_cons]
    · intro v hv
      rcases List.mem_append.mp hv with h | h
      · have := hV v h
        omega
      · simp only [List.mem_singleton] at h
        subst h
        simp [poseVertex]
    · show asVertexSE3Expmap (SparseOptimizer.vertex _ (poseVertex f.extrinsics (k + 1)
        (k + 1 == n - 1)).id) = _
      have hv2 : SparseOptimizer.vertex
          { vertices := o.vertices ++ [poseVertex f.extrinsics (k + 1) (k + 1 == n - 1)],
            edges := o.edges ++ [odometryEdge k f0 f],
            parameters := o.parameters ++ [cameraParameters f.intrinsics (k + 2)] }
          (poseVertex f.extrinsics (k + 1) (k + 1 == n - 1)).id
          = some (poseVertex f.extrinsics (k + 1) (k + 1 == n - 1)) := hnew
      rw [hv2]
      simp [poseVertex, asVertexSE3Expmap]
    · intro q hq
      rcases List.mem_append.mp hq with h | h
      · have := hP q h
        omega
      · simp only [List.mem_singleton] at h
        subst h
        simp [cameraParameters]

theorem constructFrames_empty (n : Nat) (frames : List Frame) :
    constructFrames n frames 0 SparseOptimizer.empty =
      .ok { vertices := poseVerticesFrom n 0 frames,
            edges := odometryEdges frames,
            parameters := cameraBlocksFrom 0 frames } := by
  cases frames with
  | nil => rfl
  | cons f rest =>
    have hstep : constructFrame n SparseOptimizer.empty 0 f =
        .ok { vertices := [poseVertex f.extrinsics 0 (0 == n - 1)], edges := [],
              parameters := [cameraParameters f.intrinsics 1] } := by
      simp [constructFrame, addPose, SparseOptimizer.addVertex, SparseOptimizer.vertex,
        SparseOptimizer.empty, addIntrinsics, SparseOptimizer.addParameter, bind, Except.bind,
        pure, Except.pure]
    simp only [constructFrames, hstep, bind, Except.bind]
    rw [constructFrames_tail n rest f 0]
    · simp [poseVerticesFrom, cameraBlocksFrom, odometryEdges, List.enumFrom_cons]
    · intro v hv
      simp only [List.mem_singleton] at hv
      subst hv
      simp [poseVertex]
    · simp [SparseOptimizer.vertex, poseVertex, asVertexSE3Expmap]
    · intro q hq
      simp only [List.mem_singleton] at hq
      subst hq
      simp [cameraParameters]

theorem vertex_id_of_some (o : SparseOptimizer) (k : Nat) (w : Vertex)
    (h : o.vertex k = some w) : w.id = k := by
  have := List.find?_some h
  simpa using this

theorem projectionEdge_eq (o : SparseOptimizer) (obs : Observation) (id : Nat)
    (h0 : ∃ w, o.vertex id = some w) (h1 : ∃ w, o.vertex obs.frame_id = some w) :
    projectionEdge o obs id = expectedProjectionEdge id obs := by
  obtain ⟨w0, hw0⟩ := h0
  obtain ⟨w1, hw1⟩ := h1
  simp [projectionEdge, expectedProjectionEdge, hw0, hw1, vertex_id_of_some o _ _ hw0,
    vertex_id_of_some o _ _ hw1]

theorem addLandmarkMeasurements_ok (F : Nat) (landmark : Landmark) (id : Nat)
    (obs : List Observation) :
    ∀ (o : SparseOptimizer) (st : Stats),
      (∀ ob ∈ obs, ob.frame_id < F) →
      (∀ f, f < F → ∃ w, o.vertex f = some w) →
      (landmark.isUseable = true → ∃ w, o.vertex id = some w) →
      st.landmarks.length = F → st.usable_landmarks.length = F →
      ∃ st', addLandmarkMeasurements landmark id obs (o, st) =
          .ok ({ o with edges := o.edges ++
                  (if landmark.isUseable then obs.map (expectedProjectionEdge id) else []) },
               st') ∧
        st'.landmarks.length = F ∧ st'.usable_landmarks.length = F ∧
        st'.total_usable_landmarks = st.total_usable_landmarks := by
  induction obs with
  | nil =>
    intro o st _ _ _ hl hu
    exact ⟨st, by simp [addLandmarkMeasurements, pure, Except.pure], hl, hu, rfl⟩
  | cons ob rest ih =>
    intro o st hobs hpose hid hl hu
    have hob : ob.frame_id < F := hobs ob (List.mem_cons_self _ _)
    have hrest : ∀ x ∈ rest, x.frame_id < F := fun x hx => hobs x (List.mem_cons_of_mem _ hx)
    by_cases huse : landmark.isUseable = true
    · obtain ⟨u, hu1, hu2⟩ := incrementAt_ok st.usable_landmarks ob.frame_id (by omega)
      obtain ⟨a, ha1, ha2⟩ := incrementAt_ok st.landmarks ob.frame_id (by omega)
      have hedge := projectionEdge_eq o ob id (hid huse) (hpose _ hob)
      obtain ⟨st', h1, h2, h3, h4⟩ := ih
        (o.addEdge (expectedProjectionEdge id ob))
        { st with usable_landmarks := u, landmarks := a } hrest
        (by intro f hf; exact hpose f hf) (by intro h; exact hid h)
        (by simpa using (ha2.trans hl)) (by simpa using (hu2.trans hu))
      refine ⟨st', ?_, h2, h3, h4⟩
      simp only [addLandmarkMeasurements, addLandmarkMeasurement, huse, if_true, hedge, hu1,
        ha1, bind, Except.bind, pure, Except.pure]
      rw [h1]
      simp [SparseOptimizer.addEdge, huse]
    · have huse' : landmark.isUseable = false := by simpa using huse
      obtain ⟨a, ha1, ha2⟩ := incrementAt_ok st.landmarks ob.frame_id (by omega)
      obtain ⟨st', h1, h2, h3, h4⟩ := ih o { st with landmarks := a } hrest hpose hid
        (by simpa using (ha2.trans hl)) (by simpa using hu)
      refine ⟨st', ?_, h2, h3, h4⟩
      simp only [addLandmarkMeasurements, addLandmarkMeasurement, huse', ha1, bind, Except.bind,
        pure, Except.pure, Bool.false_eq_true, if_false]
      rw [h1]
      simp [huse']

theorem constructLandmarks_ok (compact : Bool) (F : Nat) (rest : List Landmark) :
    ∀ (k : Nat) (o : SparseOptimizer) (st : Stats),
      (∀ v ∈ o.vertices, v.id < k + F) →
      (∀ f, f < F → ∃ w, o.vertex f = some w) →
      (∀ l ∈ rest, ∀ ob ∈ l.obs, ob.frame_id < F) →
      st.landmarks.length = F → st.usable_landmarks.length = F →
      ∃ st', constructLandmarks compact F rest k (o, st) =
          .ok ({ vertices := o.vertices ++ landmarkVerticesFrom compact F k rest,
                 edges := o.edges ++ projectionEdgesFrom F k rest,
                 parameters := o.parameters }, st') ∧
        st'.landmarks.length = F ∧ st'.usable_landmarks.length = F ∧
        st'.total_usable_landmarks =
          st.total_usable_landmarks + (usableFrom k rest).length := by
  induction rest with
  | nil =>
    intro k o st _ _ _ hl hu
    exact ⟨st, by simp [constructLandmarks, landmarkVerticesFrom, projectionEdgesFrom,
      usableFrom, pure, Except.pure], hl, hu, by simp [usableFrom]⟩
  | cons l rest ih =>
    intro k o st hV hpose hobs hl hu
    have hlobs : ∀ ob ∈ l.obs, ob.frame_id < F := hobs l (List.mem_cons_self _ _)
    have hrest : ∀ x ∈ rest, ∀ ob ∈ x.obs, ob.frame_id < F :=
      fun x hx => hobs x (List.mem_cons_of_mem _ hx)
    by_cases huse : l.isUseable = true
    · have hid : (landmarkVertex compact l (k + F)).id = k + F := by
        unfold landmarkVertex; split <;> rfl
      have hadd := SparseOptimizer.addVertex_of_lt o (landmarkVertex compact l (k + F))
        (by intro v hv; rw [hid]; exact hV v hv)
      have hnew := vertex_append_new o (landmarkVertex compact l (k + F))
        (by intro v hv; rw [hid]; exact hV v hv)
      rw [hid] at hnew
      obtain ⟨st1, g1, g2, g3, g4⟩ := addLandmarkMeasurements_ok F l (k + F) l.obs
        { o with vertices := o.vertices ++ [landmarkVertex compact l (k + F)] }
        { st with total_usable_landmarks := st.total_usable_landmarks + 1 } hlobs
        (by
          intro f hf
          obtain ⟨w, hw⟩ := hpose f hf
          exact ⟨w, vertex_append_old o _ f w hw⟩)
        (by intro _; exact ⟨_, hnew⟩) hl hu
      obtain ⟨st', h1, h2, h3, h4⟩ := ih (k + 1)
        { vertices := o.vertices ++ [landmarkVertex compact l (k + F)],
          edges := o.edges ++ l.obs.map (expectedProjectionEdge (k + F)),
          parameters := o.parameters } st1
        (by
          intro v hv
          rcases List.mem_append.mp hv with h | h
          · have := hV v h
            omega
          · simp only [List.mem_singleton] at h
            subst h
            rw [hid]
            omega)
        (by
          intro f hf
          obtain ⟨w, hw⟩ := hpose f hf
          exact ⟨w, vertex_append_old o _ f w hw⟩)
        hrest g2 g3
      refine ⟨st', ?_, h2, h3, ?_⟩
      · simp only [constructLandmarks, constructLandmark, addLandmark, huse, if_true, hadd,
          g1, bind, Except.bind]
        rw [h1]
        simp [landmarkVerticesFrom, projectionEdgesFrom, usableFrom, List.enumFrom_cons, huse]
      · rw [h4, g4]
        simp [usableFrom, List.enumFrom_cons, huse]
        omega
    · have huse' : l.isUseable = false := by simpa using huse
      obtain ⟨st1, g1, g2, g3, g4⟩ := addLandmarkMeasurements_ok F l (k + F) l.obs o
        { st with total_usable_landmarks := st.total_usable_landmarks + 0 } hlobs hpose
        (by intro h; exact absurd h huse) hl hu
      obtain ⟨st', h1, h2, h3, h4⟩ := ih (k + 1) o st1
        (by intro v hv; have := hV v hv; omega) hpose hrest g2 g3
      refine ⟨st', ?_, h2, h3, ?_⟩
      · simp only [huse', Bool.false_eq_true, if_false, List.append_nil] at g1
        simp only [constructLandmarks, constructLandmark, addLandmark, huse',
          Bool.false_eq_true, if_false, g1, bind, Except.bind]
        rw [h1]
        simp [landmarkVerticesFrom, projectionEdgesFrom, usableFrom, List.enumFrom_cons, huse']
      · rw [h4, g4]
        simp [usableFrom, List.enumFrom_cons, huse']

theorem poseVerticesFrom_find (n : Nat) (frames : List Frame) :
    ∀ (k i : Nat) (f : Frame), frames[i]? = some f →
      (poseVerticesFrom n k frames).find? (fun v => v.id == k + i) =
        some (poseVertex f.extrinsics (k + i) (k + i == n - 1)) := by
  induction frames with
  | nil => intro k i f h; simp at h
  | cons g rest ih =>
    intro k i f h
    cases i with
    | zero =>
      simp only [List.getElem?_cons_zero, Option.some.injEq] at h
      subst h
      simp [poseVerticesFrom, List.enumFrom_cons, poseVertex]
    | succ i =>
      simp only [List.getElem?_cons_succ] at h
      have := ih (k + 1) i f h
      have hk : k + 1 + i = k + (i + 1) := by omega
      rw [hk] at this
      simp only [poseVerticesFrom, List.enumFrom_cons, List.map_cons] at this ⊢
      rw [List.find?_cons_of_neg]
      · exact this
      · simp [poseVertex]

theorem poseVerticesFrom_ids (n k : Nat) (frames : List Frame) :
    (poseVerticesFrom n k frames).map Vertex.id = List.range' k frames.length := by
  induction frames generalizing k with
  | nil => rfl
  | cons g rest ih =>
    simp only [poseVerticesFrom, List.enumFrom_cons, List.map_cons, List.length_cons,
      List.range'_succ] at ih ⊢
    rw [ih (k + 1)]
    simp [poseVertex]

theorem landmarkVertex_id (compact : Bool) (l : Landmark) (id : Nat) :
    (landmarkVertex compact l id).id = id := by
  unfold landmarkVertex; split <;> rfl

theorem landmarkVerticesFrom_ids (compact : Bool) (F k : Nat) (landmarks : List Landmark) :
    (landmarkVerticesFrom compact F k landmarks).map Vertex.id =
      (usableFrom k landmarks).map (fun p => p.1 + F) := by
  simp [landmarkVerticesFrom, landmarkVertex_id, Function.comp_def]

theorem usableFrom_mem (k : Nat) (landmarks : List Landmark) (p : Nat × Landmark) :
    p ∈ usableFrom k landmarks ↔
      (k ≤ p.1 ∧ landmarks[p.1 - k]? = some p.2) ∧ p.2.isUseable = true := by
  obtain ⟨j, l⟩ := p
  simp [usableFrom, List.mem_filter, List.mk_mem_enumFrom_iff_le_and_getElem?_sub]

theorem usableFrom_length (k : Nat) (landmarks : List Landmark) :
    (usableFrom k landmarks).length = usableCount landmarks := by
  induction landmarks generalizing k with
  | nil => rfl
  | cons l rest ih =>
    by_cases h : l.isUseable = true
    · simp [usableFrom, usableCount, List.enumFrom_cons, List.filter_cons, h] at ih ⊢
      exact ih (k + 1)
    · simp [usableFrom, usableCount, List.enumFrom_cons, List.filter_cons, h] at ih ⊢
      exact ih (k + 1)

theorem usableFrom_ids_nodup (F k : Nat) (landmarks : List Landmark) :
    ((usableFrom k landmarks).map (fun p => p.1 + F)).Nodup := by
  have h1 : ((landmarks.enumFrom k).map (fun p => p.1 + F)).Nodup := by
    have : (landmarks.enumFrom k).map (fun p => p.1 + F)
        = (List.range' k landmarks.length).map (fun i => i + F) := by
      rw [← List.enumFrom_map_fst k landmarks, List.map_map]
      rfl
    rw [this]
    exact (List.nodup_range' k landmarks.length).map (fun a b h => by simpa using h)
  exact h1.sublist ((List.filter_sublist _).map _)

theorem poseVertices_vertex (n : Nat) (frames : List Frame) (more : List Vertex)
    (es : List Edge) (ps : List CameraParameters) (i : Nat) (f : Frame)
    (h : frames[i]? = some f) :
    SparseOptimizer.vertex ⟨poseVerticesFrom n 0 frames ++ more, es, ps⟩ i =
      some (poseVertex f.extrinsics i (i == n - 1)) := by
  have := poseVerticesFrom_find n frames 0 i f h
  simp only [Nat.zero_add] at this
  simp [SparseOptimizer.vertex, List.find?_append, this]

/-- The run of `construct` on an empty optimizer, for data whose observations refer to
frames of the list: it completes and the graph is the expected one. -/
theorem construct_empty (compact : Bool) (data : Data) (stats : Stats)
    (h : ObservationsInRange data) :
    ∃ st, construct compact data ⟨SparseOptimizer.empty, stats⟩ =
        .ok ⟨expectedGraph compact data, st⟩ ∧
      st.landmarks.length = data.frames.length ∧
      st.usable_landmarks.length = data.frames.length ∧
      st.total_usable_landmarks = usableCount data.landmarks := by
  obtain ⟨st, h1, h2, h3, h4⟩ := constructLandmarks_ok compact data.frames.length
    data.landmarks 0
    { vertices := poseVerticesFrom data.frames.length 0 data.frames,
      edges := odometryEdges data.frames,
      parameters := cameraBlocksFrom 0 data.frames }
    { Stats.init with landmarks := List.replicate data.frames.length 0,
                      usable_landmarks := List.replicate data.frames.length 0 }
    (by
      intro v hv
      have hmem : v.id ∈ (poseVerticesFrom data.frames.length 0 data.frames).map Vertex.id :=
        List.mem_map_of_mem _ hv
      rw [poseVerticesFrom_ids] at hmem
      simp only [List.mem_range'_1] at hmem
      omega)
    (by
      intro f hf
      have hget : data.frames[f]? = some data.frames[f] := List.getElem?_eq_getElem hf
      have := poseVertices_vertex data.frames.length data.frames [] (odometryEdges data.frames)
        (cameraBlocksFrom 0 data.frames) f _ hget
      simp only [List.append_nil] at this
      exact ⟨_, this⟩)
    h (by simp) (by simp)
  refine ⟨st, ?_, h2, h3, ?_⟩
  · simp only [construct, constructFrames_empty, bind, Except.bind, pure, Except.pure]
    rw [h1]
    rfl
  · rw [h4, usableFrom_length]
    simp [Stats.init]

theorem landmarkVerticesFrom_find (compact : Bool) (F : Nat) (landmarks : List Landmark) :
    ∀ (k j : Nat) (l : Landmark), landmarks[j]? = some l → l.isUseable = true →
      (landmarkVerticesFrom compact F k landmarks).find? (fun v => v.id == k + j + F) =
        some (landmarkVertex compact l (k + j + F)) := by
  induction landmarks with
  | nil => intro k j l h; simp at h
  | cons g rest ih =>
    intro k j l h hl
    cases j with
    | zero =>
      simp only [List.getElem?_cons_zero, Option.some.injEq] at h
      subst h
      simp [landmarkVerticesFrom, usableFrom, List.enumFrom_cons, hl, landmarkVertex_id]
    | succ j =>
      simp only [List.getElem?_cons_succ] at h
      have := ih (k + 1) j l h hl
      have hk : k + 1 + j = k + (j + 1) := by omega
      rw [hk] at this
      by_cases hg : g.isUseable = true
      · simp only [landmarkVerticesFrom, usableFrom, List.enumFrom_cons, List.filter_cons, hg,
          if_true, List.map_cons] at this ⊢
        rw [List.find?_cons_of_neg]
        · exact this
        · simp [landmarkVertex_id]
      · simp only [landmarkVerticesFrom, usableFrom, List.enumFrom_cons, List.filter_cons, hg,
          List.map_cons] at this ⊢
        exact this

theorem landmarkVerticesFrom_find_none (compact : Bool) (F : Nat) (landmarks : List Landmark)
    (j : Nat) (l : Landmark) (h : landmarks[j]? = some l) (hl : l.isUseable = false) :
    (landmarkVerticesFrom compact F 0 landmarks).find? (fun v => v.id == j + F) = none := by
  rw [List.find?_eq_none]
  intro v hv
  simp only [landmarkVerticesFrom, List.mem_map] at hv
  obtain ⟨p, hp, rfl⟩ := hv
  rw [usableFrom_mem] at hp
  obtain ⟨⟨_, hget⟩, huse⟩ := hp
  simp only [Nat.sub_zero] at hget
  simp only [landmarkVertex_id, beq_iff_eq, Nat.add_right_cancel_iff]
  intro heq
  rw [heq, h] at hget
  simp only [Option.some.injEq] at hget
  rw [← hget, hl] at huse
  exact Bool.false_ne_true huse

theorem poseVerticesFrom_find_none (n : Nat) (frames : List Frame) (id : Nat)
    (h : frames.length ≤ id) :
    (poseVerticesFrom n 0 frames).find? (fun v => v.id == id) = none := by
  rw [List.find?_eq_none]
  intro v hv
  have hmem : v.id ∈ (poseVerticesFrom n 0 frames).map Vertex.id := List.mem_map_of_mem _ hv
  rw [poseVerticesFrom_ids] at hmem
  simp only [List.mem_range'_1] at hmem
  simp only [beq_iff_eq]
  omega

theorem expectedGraph_landmark_vertex (compact : Bool) (data : Data) (j : Nat) (l : Landmark)
    (h : data.landmarks[j]? = some l) (hl : l.isUseable = true) :
    (expectedGraph compact data).vertex (j + data.frames.length) =
      some (landmarkVertex compact l (j + data.frames.length)) := by
  have h1 := poseVerticesFrom_find_none data.frames.length data.frames
    (j + data.frames.length) (by omega)
  have h2 := landmarkVerticesFrom_find compact data.frames.length data.landmarks 0 j l h hl
  simp only [Nat.zero_add] at h2
  simp [SparseOptimizer.vertex, expectedGraph, List.find?_append, h1, h2]

theorem expectedGraph_landmark_vertex_none (compact : Bool) (data : Data) (j : Nat)
    (l : Landmark) (h : data.landmarks[j]? = some l) (hl : l.isUseable = false) :
    (expectedGraph compact data).vertex (j + data.frames.length) = none := by
  have h1 := poseVerticesFrom_find_none data.frames.length data.frames
    (j + data.frames.length) (by omega)
  have h2 := landmarkVerticesFrom_find_none compact data.frames.length data.landmarks j l h hl
  simp [SparseOptimizer.vertex, expectedGraph, List.find?_append, h1, h2]

theorem asPose_landmarkVertex (compact : Bool) (l : Landmark) (id : Nat) :
    asVertexSE3Expmap (some (landmarkVertex compact l id)) = none := by
  unfold landmarkVertex; split <;> rfl

theorem asPoint_landmarkVertex (compact : Bool) (l : Landmark) (id : Nat) :
    asVertexPointXYZ (some (landmarkVertex compact l id)) = some (id, l.position) := by
  unfold landmarkVertex; split <;> rfl

theorem expectedGraph_poseVertexIds (compact : Bool) (data : Data) :
    poseVertexIds (expectedGraph compact data) = List.range' 0 data.frames.length := by
  have h1 : (poseVerticesFrom data.frames.length 0 data.frames).filter
      (fun v => (asVertexSE3Expmap (some v)).isSome) =
      poseVerticesFrom data.frames.length 0 data.frames := by
    rw [List.filter_eq_self]
    intro v hv
    simp only [poseVerticesFrom, List.mem_map] at hv
    obtain ⟨p, _, rfl⟩ := hv
    rfl
  have h2 : (landmarkVerticesFrom compact data.frames.length 0 data.landmarks).filter
      (fun v => (asVertexSE3Expmap (some v)).isSome) = [] := by
    rw [List.filter_eq_nil_iff]
    intro v hv
    simp only [landmarkVerticesFrom, List.mem_map] at hv
    obtain ⟨p, _, rfl⟩ := hv
    simp [asPose_landmarkVertex]
  simp only [poseVertexIds, expectedGraph, List.filter_append, h1, h2, List.append_nil]
  exact poseVerticesFrom_ids _ _ _

theorem expectedGraph_landmarkVertexIds (compact : Bool) (data : Data) :
    landmarkVertexIds (expectedGraph compact data) =
      (usableFrom 0 data.landmarks).map (fun p => p.1 + data.frames.length) := by
  have h1 : (poseVerticesFrom data.frames.length 0 data.frames).filter
      (fun v => (asVertexPointXYZ (some v)).isSome) = [] := by
    rw [List.filter_eq_nil_iff]
    intro v hv
    simp only [poseVerticesFrom, List.mem_map] at hv
    obtain ⟨p, _, rfl⟩ := hv
    simp [poseVertex, asVertexPointXYZ]
  have h2 : (landmarkVerticesFrom compact data.frames.length 0 data.landmarks).filter
      (fun v => (asVertexPointXYZ (some v)).isSome) =
      landmarkVerticesFrom compact data.frames.length 0 data.landmarks := by
    rw [List.filter_eq_self]
    intro v hv
    simp only [landmarkVerticesFrom, List.mem_map] at hv
    obtain ⟨p, _, rfl⟩ := hv
    simp [asPoint_landmarkVertex]
  simp only [landmarkVertexIds, expectedGraph, List.filter_append, h1, h2, List.nil_append]
  exact landmarkVerticesFrom_ids _ _ _ _

theorem expectedGraph_ids_nodup (compact : Bool) (data : Data) :
    ((expectedGraph compact data).vertices.map Vertex.id).Nodup := by
  simp only [expectedGraph, List.map_append, poseVerticesFrom_ids, landmarkVerticesFrom_ids]
  rw [List.nodup_append]
  refine ⟨List.nodup_range' _ _, usableFrom_ids_nodup _ _ _, ?_⟩
  intro a ha hb
  simp only [List.mem_range'_1] at ha
  simp only [List.mem_map] at hb
  obtain ⟨p, _, rfl⟩ := hb
  omega

end lar

namespace lar

theorem odometryEdges_isOdometry (frames : List Frame) :
    ∀ e ∈ odometryEdges frames, Edge.isOdometry e = true := by
  intro e he
  simp only [odometryEdges, List.mem_map] at he
  obtain ⟨p, _, rfl⟩ := he
  rfl

theorem projectionEdgesFrom_isProjection (F k : Nat) (landmarks : List Landmark) :
    ∀ e ∈ projectionEdgesFrom F k landmarks, Edge.isProjection e = true := by
  intro e he
  simp only [projectionEdgesFrom, List.mem_flatMap, List.mem_map] at he
  obtain ⟨p, _, o, _, rfl⟩ := he
  rfl

theorem isProjection_eq_not_isOdometry (e : Edge) : Edge.isProjection e = !Edge.isOdometry e := by
  cases e <;> rfl

theorem expectedGraph_projection_edges (compact : Bool) (data : Data) :
    (expectedGraph compact data).edges.filter Edge.isProjection =
      projectionEdgesFrom data.frames.length 0 data.landmarks := by
  have h1 : (odometryEdges data.frames).filter Edge.isProjection = [] := by
    rw [List.filter_eq_nil_iff]
    intro e he
    simp [isProjection_eq_not_isOdometry, odometryEdges_isOdometry data.frames e he]
  have h2 : (projectionEdgesFrom data.frames.length 0 data.landmarks).filter Edge.isProjection =
      projectionEdgesFrom data.frames.length 0 data.landmarks := by
    rw [List.filter_eq_self]
    exact projectionEdgesFrom_isProjection _ _ _
  simp only [expectedGraph, List.filter_append, h1, h2, List.nil_append]

theorem expectedGraph_odometry_edges (compact : Bool) (data : Data) :
    (expectedGraph compact data).edges.filter Edge.isOdometry = odometryEdges data.frames := by
  have h1 : (odometryEdges data.frames).filter Edge.isOdometry = odometryEdges data.frames := by
    rw [List.filter_eq_self]
    exact odometryEdges_isOdometry _
  have h2 : (projectionEdgesFrom data.frames.length 0 data.landmarks).filter Edge.isOdometry = [] := by
    rw [List.filter_eq_nil_iff]
    intro e he
    have := projectionEdgesFrom_isProjection _ _ _ e he
    rw [isProjection_eq_not_isOdometry] at this
    simpa using this
  simp only [expectedGraph, List.filter_append, h1, h2, List.append_nil]

theorem projectionEdgesFrom_length (F k : Nat) (landmarks : List Landmark) :
    (projectionEdgesFrom F k landmarks).length =
      ((landmarks.filter Landmark.isUseable).map (fun l => l.obs.length)).sum := by
  induction landmarks generalizing k with
  | nil => rfl
  | cons l rest ih =>
    by_cases h : l.isUseable = true
    · simp only [projectionEdgesFrom, usableFrom, List.enumFrom_cons, List.filter_cons, h,
        if_true, List.flatMap_cons, List.length_append, List.length_map, List.map_cons,
        List.sum_cons] at ih ⊢
      rw [ih (k + 1)]
    · simp only [projectionEdgesFrom, usableFrom, List.enumFrom_cons, List.filter_cons, h,
        Bool.false_eq_true, if_false] at ih ⊢
      exact ih (k + 1)

theorem odometryEdges_getElem (frames : List Frame) (i : Nat) (f0 f1 : Frame)
    (h0 : frames[i]? = some f0) (h1 : frames[i + 1]? = some f1) :
    (odometryEdges frames)[i]? = some (odometryEdge i f0 f1) := by
  have hz : (frames.zip frames.tail)[i]? = some (f0, f1) := by
    rw [List.getElem?_zip_eq_some]
    exact ⟨h0, by simpa using h1⟩
  simp [odometryEdges, List.getElem?_enumFrom, hz]

theorem odometryEdges_length (frames : List Frame) :
    (odometryEdges frames).length = frames.length - 1 := by
  simp only [odometryEdges, List.length_map, List.enumFrom_length, List.length_zip,
    List.length_tail]
  omega

theorem odometryEdges_mem (frames : List Frame) (a b : Nat) (m : SE3Quat) (inf : InfoMatrix 6)
    (h : Edge.se3 a b m inf ∈ odometryEdges frames) : b = a + 1 ∧ b < frames.length := by
  simp only [odometryEdges, List.mem_map] at h
  obtain ⟨p, hp, heq⟩ := h
  have hlt := List.fst_lt_add_of_mem_enumFrom hp
  simp only [odometryEdge, Edge.se3.injEq] at heq
  simp only [List.length_zip, List.length_tail] at hlt
  omega

theorem poseVerticesFrom_fixed (n : Nat) (frames : List Frame) (k : Nat) :
    ((poseVerticesFrom n k frames).filter
        (fun v => (asVertexSE3Expmap (some v)).isSome && v.fixed)).map Vertex.id =
      (List.range' k frames.length).filter (fun i => i == n - 1) := by
  induction frames generalizing k with
  | nil => rfl
  | cons f rest ih =>
    have := ih (k + 1)
    simp only [poseVerticesFrom, List.enumFrom_cons, List.map_cons, List.length_cons,
      List.range'_succ, List.filter_cons] at this ⊢
    by_cases hk : k = n - 1
    · simp [poseVertex, asVertexSE3Expmap, hk] at this ⊢
      exact this
    · simp [poseVertex, asVertexSE3Expmap, hk] at this ⊢
      exact this

theorem range'_filter_eq (t : Nat) (m : Nat) :
    ∀ k, k ≤ t → t < k + m → (List.range' k m).filter (fun i => i == t) = [t] := by
  induction m with
  | zero => intro k h1 h2; omega
  | succ m ih =>
    intro k h1 h2
    simp only [List.range'_succ, List.filter_cons]
    by_cases hk : k = t
    · subst hk
      simp only [beq_self_eq_true, if_true, List.cons.injEq, true_and]
      rw [List.filter_eq_nil_iff]
      intro a ha
      simp only [List.mem_range'_1] at ha
      simp only [beq_iff_eq]
      omega
    · have : (k == t) = false := by simpa using hk
      simp only [this, Bool.false_eq_true, if_false]
      exact ih (k + 1) (by omega) (by omega)

end lar

/-! ## Frames-first construction: observations out of range -/

namespace lar

theorem addLandmarkMeasurement_total (F : Nat) (landmark : Landmark) (id : Nat)
    (s : SparseOptimizer × Stats) (ob : Observation)
    (hl : s.2.landmarks.length = F) (hu : s.2.usable_landmarks.length = F) :
    (ob.frame_id < F →
      ∃ s', addLandmarkMeasurement landmark id s ob = .ok s' ∧
        s'.2.landmarks.length = F ∧ s'.2.usable_landmarks.length = F) ∧
    (F ≤ ob.frame_id → addLandmarkMeasurement landmark id s ob = .error .outOfRange) := by
  constructor
  · intro hlt
    obtain ⟨u, hu1, hu2⟩ := incrementAt_ok s.2.usable_landmarks ob.frame_id (by omega)
    obtain ⟨a, ha1, ha2⟩ := incrementAt_ok s.2.landmarks ob.frame_id (by omega)
    by_cases huse : landmark.isUseable = true
    · refine ⟨(s.1.addEdge (projectionEdge s.1 ob id),
        ⟨s.2.total_usable_landmarks, a, u⟩), ?_, ?_, ?_⟩
      · simp only [addLandmarkMeasurement, huse, if_true, hu1, ha1, bind, Except.bind, pure,
          Except.pure]
      · simpa using ha2.trans hl
      · simpa using hu2.trans hu
    · have huse' : landmark.isUseable = false := by simpa using huse
      refine ⟨(s.1, ⟨s.2.total_usable_landmarks, a, s.2.usable_landmarks⟩), ?_, ?_, ?_⟩
      · simp only [addLandmarkMeasurement, huse', Bool.false_eq_true, if_false, ha1, bind,
          Except.bind, pure, Except.pure]
      · simpa using ha2.trans hl
      · simpa using hu
  · intro hge
    have hu1 := incrementAt_error s.2.usable_landmarks ob.frame_id (by omega)
    have ha1 := incrementAt_error s.2.landmarks ob.frame_id (by omega)
    by_cases huse : landmark.isUseable = true
    · simp only [addLandmarkMeasurement, huse, if_true, hu1, bind, Except.bind]
    · have huse' : landmark.isUseable = false := by simpa using huse
      simp only [addLandmarkMeasurement, huse', Bool.false_eq_true, if_false, ha1, bind,
        Except.bind, pure, Except.pure]

theorem addLandmarkMeasurements_total (F : Nat) (landmark : Landmark) (id : Nat)
    (obs : List Observation) :
    ∀ (s : SparseOptimizer × Stats),
      s.2.landmarks.length = F → s.2.usable_landmarks.length = F →
      ((∀ ob ∈ obs, ob.frame_id < F) →
        ∃ s', addLandmarkMeasurements landmark id obs s = .ok s' ∧
          s'.2.landmarks.length = F ∧ s'.2.usable_landmarks.length = F) ∧
      ((∃ ob ∈ obs, F ≤ ob.frame_id) →
        addLandmarkMeasurements landmark id obs s = .error .outOfRange) := by
  induction obs with
  | nil =>
    intro s hl hu
    exact ⟨fun _ => ⟨s, rfl, hl, hu⟩, fun h => by simp at h⟩
  | cons ob rest ih =>
    intro s hl hu
    obtain ⟨hok, herr⟩ := addLandmarkMeasurement_total F landmark id s ob hl hu
    rcases Nat.lt_or_ge ob.frame_id F with hlt | hge
    · obtain ⟨s1, h1, h2, h3⟩ := hok hlt
      obtain ⟨ihok, iherr⟩ := ih s1 h2 h3
      constructor
      · intro hall
        obtain ⟨s', g1, g2, g3⟩ := ihok (fun x hx => hall x (List.mem_cons_of_mem _ hx))
        exact ⟨s', by simp only [addLandmarkMeasurements, h1, bind, Except.bind]; exact g1,
          g2, g3⟩
      · rintro ⟨x, hx, hxge⟩
        have hx' : x ∈ rest := by
          rcases List.mem_cons.mp hx with h | h
          · subst h
            omega
          · exact h
        simp only [addLandmarkMeasurements, h1, bind, Except.bind]
        exact iherr ⟨x, hx', hxge⟩
    · constructor
      · intro hall
        have := hall ob (List.mem_cons_self _ _)
        omega
      · intro _
        simp only [addLandmarkMeasurements, herr hge, bind, Except.bind]

theorem constructLandmarks_out_of_range (compact : Bool) (F : Nat) (rest : List Landmark) :
    ∀ (k : Nat) (s : SparseOptimizer × Stats),
      s.2.landmarks.length = F → s.2.usable_landmarks.length = F →
      (∃ l ∈ rest, ∃ ob ∈ l.obs, F ≤ ob.frame_id) →
      constructLandmarks compact F rest k s = .error .outOfRange := by
  induction rest with
  | nil => intro k s _ _ h; simp at h
  | cons l rest ih =>
    intro k s hl hu hbad
    obtain ⟨hok, herr⟩ := addLandmarkMeasurements_total F l (k + F) l.obs
      ((addLandmark compact s.1 l (k + F)).1,
        { s.2 with total_usable_landmarks :=
            s.2.total_usable_landmarks + (if (addLandmark compact s.1 l (k + F)).2 then 1 else 0) })
      hl hu
    by_cases hbadl : ∃ ob ∈ l.obs, F ≤ ob.frame_id
    · simp only [constructLandmarks, constructLandmark, herr hbadl, bind, Except.bind]
    · have hall : ∀ ob ∈ l.obs, ob.frame_id < F := by
        intro ob hob
        rcases Nat.lt_or_ge ob.frame_id F with h | h
        · exact h
        · exact absurd ⟨ob, hob, h⟩ hbadl
      obtain ⟨s1, h1, h2, h3⟩ := hok hall
      have hrest : ∃ x ∈ rest, ∃ ob ∈ x.obs, F ≤ ob.frame_id := by
        obtain ⟨x, hx, ob, hob, hge⟩ := hbad
        rcases List.mem_cons.mp hx with h | h
        · subst h
          exact absurd ⟨ob, hob, hge⟩ hbadl
        · exact ⟨x, h, ob, hob, hge⟩
      simp only [constructLandmarks, constructLandmark, h1, bind, Except.bind]
      exact ih (k + 1) s1 h2 h3 hrest

/-- On an empty optimizer, `construct` stops at a statistics index past the end as soon as
some observation refers to a frame outside the frame list. -/
theorem construct_empty_out_of_range (compact : Bool) (data : Data) (stats : Stats)
    (h : ¬ ObservationsInRange data) :
    construct compact data ⟨SparseOptimizer.empty, stats⟩ = .error .outOfRange := by
  have hbad : ∃ l ∈ data.landmarks, ∃ ob ∈ l.obs, data.frames.length ≤ ob.frame_id := by
    unfold ObservationsInRange at h
    push_neg at h
    exact h
  have := constructLandmarks_out_of_range compact data.frames.length data.landmarks 0
    ({ vertices := poseVerticesFrom data.frames.length 0 data.frames,
       edges := odometryEdges data.frames,
       parameters := cameraBlocksFrom 0 data.frames },
      { Stats.init with landmarks := List.replicate data.frames.length 0,
                        usable_landmarks := List.replicate data.frames.length 0 })
    (by simp) (by simp) hbad
  simp only [construct, constructFrames_empty, bind, Except.bind]
  rw [this]

/-- On an empty optimizer, `construct` completes exactly when every observation refers to
a frame of the frame list. -/
theorem construct_empty_ok_iff (compact : Bool) (data : Data) (stats : Stats) :
    (∃ ba, construct compact data ⟨SparseOptimizer.empty, stats⟩ = .ok ba) ↔
      ObservationsInRange data := by
  constructor
  · rintro ⟨ba, hba⟩
    by_contra hn
    rw [construct_empty_out_of_range compact data stats hn] at hba
    cases hba
  · intro h
    obtain ⟨st, hc, _⟩ := construct_empty compact data stats h
    exact ⟨_, hc⟩

end lar

/-! ## Frames-first construction: the claims -/

namespace lar

/-- C1: on an empty optimizer, for data whose observations refer to frames of the list,
`construct` completes; the vertex registered under id `i` is the pose vertex of the frame
at index `i`; the vertex registered under id `j + F` is the vertex of the usable landmark
at index `j`; one vertex was registered per frame and per usable landmark (no `addVertex`
was refused), the ids are pairwise distinct, and no pose id equals a landmark id. -/
theorem construct_vertex_id_scheme (compact : Bool) (data : Data) (stats : Stats)
    (h : ObservationsInRange data) :
    ∃ ba, construct compact data ⟨SparseOptimizer.empty, stats⟩ = .ok ba ∧
      (∀ i f, data.frames[i]? = some f →
        ba.optimizer.vertex i =
          some (poseVertex f.extrinsics i (i == data.frames.length - 1))) ∧
      (∀ j l, data.landmarks[j]? = some l → l.isUseable = true →
        ba.optimizer.vertex (j + data.frames.length) =
          some (landmarkVertex compact l (j + data.frames.length))) ∧
      ba.optimizer.vertices.length = data.frames.length + usableCount data.landmarks ∧
      (ba.optimizer.vertices.map Vertex.id).Nodup ∧
      (∀ a ∈ poseVertexIds ba.optimizer, ∀ b ∈ landmarkVertexIds ba.optimizer, a ≠ b) := by
  obtain ⟨st, hc, _, _, _⟩ := construct_empty compact data stats h
  refine ⟨_, hc, ?_, ?_, ?_, ?_, ?_⟩
  · intro i f hf
    exact poseVertices_vertex _ _ _ _ _ i f hf
  · intro j l hj hl
    exact expectedGraph_landmark_vertex compact data j l hj hl
  · simp [expectedGraph, poseVerticesFrom, landmarkVerticesFrom, usableFrom_length]
  · exact expectedGraph_ids_nodup compact data
  · intro a ha b hb
    rw [expectedGraph_poseVertexIds] at ha
    rw [expectedGraph_landmarkVertexIds] at hb
    simp only [List.mem_range'_1] at ha
    simp only [List.mem_map] at hb
    obtain ⟨p, _, rfl⟩ := hb
    omega

/-- Witness for C1 on the sample data (three frames, two landmarks). -/
theorem construct_vertex_id_scheme_witness :
    ObservationsInRange Sample.data ∧
    ∃ ba, construct false Sample.data ⟨SparseOptimizer.empty, Stats.init⟩ = .ok ba ∧
      (∀ i f, Sample.data.frames[i]? = some f →
        ba.optimizer.vertex i =
          some (poseVertex f.extrinsics i (i == Sample.data.frames.length - 1))) ∧
      (∀ j l, Sample.data.landmarks[j]? = some l → l.isUseable = true →
        ba.optimizer.vertex (j + Sample.data.frames.length) =
          some (landmarkVertex false l (j + Sample.data.frames.length))) ∧
      ba.optimizer.vertices.length =
        Sample.data.frames.length + usableCount Sample.data.landmarks ∧
      (ba.optimizer.vertices.map Vertex.id).Nodup ∧
      (∀ a ∈ poseVertexIds ba.optimizer, ∀ b ∈ landmarkVertexIds ba.optimizer, a ≠ b) :=
  have h : ObservationsInRange Sample.data := by
    unfold ObservationsInRange
    decide
  ⟨h, construct_vertex_id_scheme false Sample.data Stats.init h⟩

/-- C2, as stated, fails: with one frame and an unusable landmark followed by a usable one
(`F = 1`, `L = 1`), the only landmark-vertex id is `2`, which is outside `[F, F + L)`. -/
theorem landmark_ids_not_contiguous :
    ∃ ba, construct false Sample.gapData ⟨SparseOptimizer.empty, Stats.init⟩ = .ok ba ∧
      ¬ (∀ id, id ∈ landmarkVertexIds ba.optimizer ↔
          Sample.gapData.frames.length ≤ id ∧
          id < Sample.gapData.frames.length + usableCount Sample.gapData.landmarks) := by
  have h : ObservationsInRange Sample.gapData := by
    unfold ObservationsInRange
    decide
  obtain ⟨st, hc, _, _, _⟩ := construct_empty false Sample.gapData Stats.init h
  refine ⟨_, hc, ?_⟩
  intro hall
  have hmem : 2 ∈ landmarkVertexIds (expectedGraph false Sample.gapData) := by
    rw [expectedGraph_landmarkVertexIds]
    decide
  have := (hall 2).mp hmem
  have hF : Sample.gapData.frames.length = 1 := rfl
  have hL : usableCount Sample.gapData.landmarks = 1 := by decide
  omega

/-- C2, amended: on an empty optimizer, for data whose observations refer to frames of
the list, `construct` completes; the pose-vertex ids are exactly `0, .., F - 1`; the
landmark-vertex ids are exactly the values `j + F` for the indices `j` of the usable
landmarks, so there are `L` of them, all in `[F, F + N)` for `N` landmarks; and no pose id
equals a landmark id. -/
theorem construct_vertex_id_ranges (compact : Bool) (data : Data) (stats : Stats)
    (h : ObservationsInRange data) :
    ∃ ba, construct compact data ⟨SparseOptimizer.empty, stats⟩ = .ok ba ∧
      poseVertexIds ba.optimizer = List.range' 0 data.frames.length ∧
      (∀ id, id ∈ landmarkVertexIds ba.optimizer ↔
        ∃ j l, data.landmarks[j]? = some l ∧ l.isUseable = true ∧
          id = j + data.frames.length) ∧
      (landmarkVertexIds ba.optimizer).length = usableCount data.landmarks ∧
      (landmarkVertexIds ba.optimizer).Nodup ∧
      (∀ id ∈ landmarkVertexIds ba.optimizer,
        data.frames.length ≤ id ∧ id < data.frames.length + data.landmarks.length) ∧
      (∀ a ∈ poseVertexIds ba.optimizer, ∀ b ∈ landmarkVertexIds ba.optimizer, a ≠ b) := by
  obtain ⟨st, hc, _, _, _⟩ := construct_empty compact data stats h
  have hmem : ∀ id, id ∈ landmarkVertexIds (expectedGraph compact data) ↔
      ∃ j l, data.landmarks[j]? = some l ∧ l.isUseable = true ∧
        id = j + data.frames.length := by
    intro id
    rw [expectedGraph_landmarkVertexIds]
    simp only [List.mem_map]
    constructor
    · rintro ⟨p, hp, rfl⟩
      rw [usableFrom_mem] at hp
      exact ⟨p.1, p.2, by simpa using hp.1.2, hp.2, rfl⟩
    · rintro ⟨j, l, hj, hl, rfl⟩
      exact ⟨(j, l), (usableFrom_mem 0 data.landmarks (j, l)).mpr
        ⟨⟨Nat.zero_le _, by simpa using hj⟩, hl⟩, rfl⟩
  refine ⟨_, hc, expectedGraph_poseVertexIds compact data, hmem, ?_, ?_, ?_, ?_⟩
  · rw [expectedGraph_landmarkVertexIds]
    simp [usableFrom_length]
  · rw [expectedGraph_landmarkVertexIds]
    exact usableFrom_ids_nodup _ _ _
  · intro id hid
    obtain ⟨j, l, hj, _, rfl⟩ := (hmem id).mp hid
    have hlt : j < data.landmarks.length := by
      rcases Nat.lt_or_ge j data.landmarks.length with hlt | hge
      · exact hlt
      · rw [List.getElem?_eq_none hge] at hj
        cases hj
    omega
  · intro a ha b hb
    rw [expectedGraph_poseVertexIds] at ha
    obtain ⟨j, l, _, _, rfl⟩ := (hmem b).mp hb
    simp only [List.mem_range'_1] at ha
    omega

/-- Witness for the amended C2 on the sample data with a gap. -/
theorem construct_vertex_id_ranges_witness :
    ObservationsInRange Sample.gapData ∧
    ∃ ba, construct true Sample.gapData ⟨SparseOptimizer.empty, Stats.init⟩ = .ok ba ∧
      poseVertexIds ba.optimizer = List.range' 0 Sample.gapData.frames.length ∧
      (∀ id, id ∈ landmarkVertexIds ba.optimizer ↔
        ∃ j l, Sample.gapData.landmarks[j]? = some l ∧ l.isUseable = true ∧
          id = j + Sample.gapData.frames.length) ∧
      (landmarkVertexIds ba.optimizer).length = usableCount Sample.gapData.landmarks ∧
      (landmarkVertexIds ba.optimizer).Nodup ∧
      (∀ id ∈ landmarkVertexIds ba.optimizer,
        Sample.gapData.frames.length ≤ id ∧
        id < Sample.gapData.frames.length + Sample.gapData.landmarks.length) ∧
      (∀ a ∈ poseVertexIds ba.optimizer, ∀ b ∈ landmarkVertexIds ba.optimizer, a ≠ b) :=
  have h : ObservationsInRange Sample.gapData := by
    unfold ObservationsInRange
    decide
  ⟨h, construct_vertex_id_ranges true Sample.gapData Stats.init h⟩

/-- C4: on an empty optimizer, for data whose observations refer to frames of the list,
`construct` completes and its projection edges are, in order, one edge per observation `o`
of each usable landmark `j`: vertex 0 is the vertex under id `j + F`, which is the landmark
vertex of `j`; vertex 1 is the vertex under id `o.frame_id`, which is a pose vertex; the
measurement is `(o.kpt.pt.x, o.kpt.pt.y, o.depth)`, the information is
`diag(1, 1, o.depth_confidence)` and the parameter id is `o.frame_id + 1`.  Their number is
the sum of the observation counts of the usable landmarks. -/
theorem construct_projection_edges (compact : Bool) (data : Data) (stats : Stats)
    (h : ObservationsInRange data) :
    ∃ ba, construct compact data ⟨SparseOptimizer.empty, stats⟩ = .ok ba ∧
      ba.optimizer.edges.filter Edge.isProjection =
        (usableFrom 0 data.landmarks).flatMap (fun p => p.2.obs.map (fun o =>
          Edge.projectXYZ2UVD (some (p.1 + data.frames.length)) (some o.frame_id)
            ⟨o.kpt.pt.x, o.kpt.pt.y, o.depth⟩ (asDiagonal 1 1 o.depth_confidence)
            (o.frame_id + 1))) ∧
      (ba.optimizer.edges.filter Edge.isProjection).length =
        ((data.landmarks.filter Landmark.isUseable).map (fun l => l.obs.length)).sum ∧
      (∀ j l, data.landmarks[j]? = some l → l.isUseable = true →
        asVertexPointXYZ (ba.optimizer.vertex (j + data.frames.length)) =
          some (j + data.frames.length, l.position)) ∧
      (∀ l ∈ data.landmarks, ∀ o ∈ l.obs,
        ∃ pose, asVertexSE3Expmap (ba.optimizer.vertex o.frame_id) = some (o.frame_id, pose)) := by
  obtain ⟨st, hc, _, _, _⟩ := construct_empty compact data stats h
  refine ⟨_, hc, ?_, ?_, ?_, ?_⟩
  · rw [expectedGraph_projection_edges]
    rfl
  · rw [expectedGraph_projection_edges, projectionEdgesFrom_length]
  · intro j l hj hl
    show asVertexPointXYZ ((expectedGraph compact data).vertex (j + data.frames.length)) = _
    rw [expectedGraph_landmark_vertex compact data j l hj hl, asPoint_landmarkVertex]
  · intro l hl o ho
    have hlt : o.frame_id < data.frames.length := h l hl o ho
    have hget : data.frames[o.frame_id]? = some data.frames[o.frame_id] :=
      List.getElem?_eq_getElem hlt
    refine ⟨poseEstimate (data.frames[o.frame_id]).extrinsics, ?_⟩
    show asVertexSE3Expmap ((expectedGraph compact data).vertex o.frame_id) = _
    have := poseVertices_vertex data.frames.length data.frames
      (landmarkVerticesFrom compact data.frames.length 0 data.landmarks)
      (expectedGraph compact data).edges (expectedGraph compact data).parameters
      o.frame_id _ hget
    rw [show (expectedGraph compact data) = ⟨poseVerticesFrom data.frames.length 0 data.frames ++
      landmarkVerticesFrom compact data.frames.length 0 data.landmarks,
      (expectedGraph compact data).edges, (expectedGraph compact data).parameters⟩ from rfl, this]
    rfl

/-- Witness for C4 on the sample data. -/
theorem construct_projection_edges_witness :
    ObservationsInRange Sample.data ∧
    ∃ ba, construct false Sample.data ⟨SparseOptimizer.empty, Stats.init⟩ = .ok ba ∧
      ba.optimizer.edges.filter Edge.isProjection =
        (usableFrom 0 Sample.data.landmarks).flatMap (fun p => p.2.obs.map (fun o =>
          Edge.projectXYZ2UVD (some (p.1 + Sample.data.frames.length)) (some o.frame_id)
            ⟨o.kpt.pt.x, o.kpt.pt.y, o.depth⟩ (asDiagonal 1 1 o.depth_confidence)
            (o.frame_id + 1))) ∧
      (ba.optimizer.edges.filter Edge.isProjection).length =
        ((Sample.data.landmarks.filter Landmark.isUseable).map (fun l => l.obs.length)).sum ∧
      (∀ j l, Sample.data.landmarks[j]? = some l → l.isUseable = true →
        asVertexPointXYZ (ba.optimizer.vertex (j + Sample.data.frames.length)) =
          some (j + Sample.data.frames.length, l.position)) ∧
      (∀ l ∈ Sample.data.landmarks, ∀ o ∈ l.obs,
        ∃ pose, asVertexSE3Expmap (ba.optimizer.vertex o.frame_id) = some (o.frame_id, pose)) :=
  have h : ObservationsInRange Sample.data := by
    unfold ObservationsInRange
    decide
  ⟨h, construct_projection_edges false Sample.data Stats.init h⟩

/-- C5: on an empty optimizer, for a non-empty frame list (and observations referring to
frames of the list), `construct` completes; the vertex under id `i` of each frame index `i`
is a pose vertex that is fixed iff `i = F - 1`; and the fixed pose vertices are exactly the
one with id `F - 1`. -/
theorem construct_fixed_pose (compact : Bool) (data : Data) (stats : Stats)
    (hne : data.frames ≠ []) (h : ObservationsInRange data) :
    ∃ ba, construct compact data ⟨SparseOptimizer.empty, stats⟩ = .ok ba ∧
      (∀ i f, data.frames[i]? = some f →
        ∃ v, ba.optimizer.vertex i = some v ∧ (asVertexSE3Expmap (some v)).isSome = true ∧
          (v.fixed = true ↔ i = data.frames.length - 1)) ∧
      (ba.optimizer.vertices.filter
          (fun v => (asVertexSE3Expmap (some v)).isSome && v.fixed)).map Vertex.id =
        [data.frames.length - 1] := by
  obtain ⟨st, hc, _, _, _⟩ := construct_empty compact data stats h
  refine ⟨_, hc, ?_, ?_⟩
  · intro i f hf
    refine ⟨_, poseVertices_vertex _ _ _ _ _ i f hf, rfl, ?_⟩
    simp [poseVertex]
  · have hpos : 0 < data.frames.length := List.length_pos.mpr hne
    have h2 : (landmarkVerticesFrom compact data.frames.length 0 data.landmarks).filter
        (fun v => (asVertexSE3Expmap (some v)).isSome && v.fixed) = [] := by
      rw [List.filter_eq_nil_iff]
      intro v hv
      simp only [landmarkVerticesFrom, List.mem_map] at hv
      obtain ⟨p, _, rfl⟩ := hv
      simp [asPose_landmarkVertex]
    simp only [expectedGraph, List.filter_append, h2, List.append_nil]
    rw [poseVerticesFrom_fixed]
    exact range'_filter_eq _ _ 0 (Nat.zero_le _) (by omega)

/-- Witness for C5 on the sample data. -/
theorem construct_fixed_pose_witness :
    (Sample.data.frames ≠ [] ∧ ObservationsInRange Sample.data) ∧
    ∃ ba, construct false Sample.data ⟨SparseOptimizer.empty, Stats.init⟩ = .ok ba ∧
      (∀ i f, Sample.data.frames[i]? = some f →
        ∃ v, ba.optimizer.vertex i = some v ∧ (asVertexSE3Expmap (some v)).isSome = true ∧
          (v.fixed = true ↔ i = Sample.data.frames.length - 1)) ∧
      (ba.optimizer.vertices.filter
          (fun v => (asVertexSE3Expmap (some v)).isSome && v.fixed)).map Vertex.id =
        [Sample.data.frames.length - 1] :=
  have hne : Sample.data.frames ≠ [] := by simp [Sample.data]
  have h : ObservationsInRange Sample.data := by
    unfold ObservationsInRange
    decide
  ⟨⟨hne, h⟩, construct_fixed_pose false Sample.data Stats.init hne h⟩

/-- C6: on an empty optimizer, for data whose observations refer to frames of the list,
`construct` completes with exactly `F - 1` odometry edges (none for `F = 0`); the one at
position `i` joins the pose vertex `i` (vertex 0) to the pose vertex `i + 1` (vertex 1), its
measurement is the estimate of vertex `i + 1` times the inverse of the estimate of vertex `i`,
these being the initial estimates of the two frames, and its information is `80000000` times
the identity; every odometry edge joins two consecutive pose vertices. -/
theorem construct_odometry_edges (compact : Bool) (data : Data) (stats : Stats)
    (h : ObservationsInRange data) :
    ∃ ba, construct compact data ⟨SparseOptimizer.empty, stats⟩ = .ok ba ∧
      (ba.optimizer.edges.filter Edge.isOdometry).length = data.frames.length - 1 ∧
      (∀ i f0 f1, data.frames[i]? = some f0 → data.frames[i + 1]? = some f1 →
        (ba.optimizer.edges.filter Edge.isOdometry)[i]? =
          some (Edge.se3 i (i + 1)
            (SE3Quat.mul (poseEstimate f1.extrinsics) (SE3Quat.inverse (poseEstimate f0.extrinsics)))
            (fun r c => (if r = c then 1 else 0) * 80000000))) ∧
      (∀ i f, data.frames[i]? = some f →
        asVertexSE3Expmap (ba.optimizer.vertex i) = some (i, poseEstimate f.extrinsics)) ∧
      (∀ a b m inf, Edge.se3 a b m inf ∈ ba.optimizer.edges →
        b = a + 1 ∧ b < data.frames.length) := by
  obtain ⟨st, hc, _, _, _⟩ := construct_empty compact data stats h
  refine ⟨_, hc, ?_, ?_, ?_, ?_⟩
  · rw [expectedGraph_odometry_edges, odometryEdges_length]
  · intro i f0 f1 h0 h1
    rw [expectedGraph_odometry_edges, odometryEdges_getElem data.frames i f0 f1 h0 h1]
    rfl
  · intro i f hf
    show asVertexSE3Expmap (SparseOptimizer.vertex _ i) = _
    have := poseVertices_vertex data.frames.length data.frames
      (landmarkVerticesFrom compact data.frames.length 0 data.landmarks)
      (expectedGraph compact data).edges (expectedGraph compact data).parameters i f hf
    rw [show (expectedGraph compact data) = ⟨poseVerticesFrom data.frames.length 0 data.frames ++
      landmarkVerticesFrom compact data.frames.length 0 data.landmarks,
      (expectedGraph compact data).edges, (expectedGraph compact data).parameters⟩ from rfl, this]
    rfl
  · intro a b m inf hmem
    have hmem' : Edge.se3 a b m inf ∈ (expectedGraph compact data).edges := hmem
    simp only [expectedGraph, List.mem_append] at hmem'
    rcases hmem' with h1 | h2
    · exact odometryEdges_mem data.frames a b m inf h1
    · have := projectionEdgesFrom_isProjection _ _ _ _ h2
      simp [Edge.isProjection] at this

/-- Witness for C6 on the sample data. -/
theorem construct_odometry_edges_witness :
    ObservationsInRange Sample.data ∧
    ∃ ba, construct false Sample.data ⟨SparseOptimizer.empty, Stats.init⟩ = .ok ba ∧
      (ba.optimizer.edges.filter Edge.isOdometry).length = Sample.data.frames.length - 1 ∧
      (∀ i f0 f1, Sample.data.frames[i]? = some f0 → Sample.data.frames[i + 1]? = some f1 →
        (ba.optimizer.edges.filter Edge.isOdometry)[i]? =
          some (Edge.se3 i (i + 1)
            (SE3Quat.mul (poseEstimate f1.extrinsics) (SE3Quat.inverse (poseEstimate f0.extrinsics)))
            (fun r c => (if r = c then 1 else 0) * 80000000))) ∧
      (∀ i f, Sample.data.frames[i]? = some f →
        asVertexSE3Expmap (ba.optimizer.vertex i) = some (i, poseEstimate f.extrinsics)) ∧
      (∀ a b m inf, Edge.se3 a b m inf ∈ ba.optimizer.edges →
        b = a + 1 ∧ b < Sample.data.frames.length) :=
  have h : ObservationsInRange Sample.data := by
    unfold ObservationsInRange
    decide
  ⟨h, construct_odometry_edges false Sample.data Stats.init h⟩

end lar

/-! ## Frame processor: matching -/

namespace lar

theorem vectorAt_ok {α : Type} (v : List α) (i : Nat) (a : α) (h : v[i]? = some a) :
    vectorAt v i = .ok a := by
  simp [vectorAt, List.get?_eq_getElem?, h]

theorem vectorAt_of_lt {α : Type} (v : List α) (i : Nat) (h : i < v.length) :
    vectorAt v i = .ok v[i] :=
  vectorAt_ok v i _ (List.getElem?_eq_getElem h)

/-- The map built by `populateMatched`: a key holds the id of the landmark at the train
index of the last correspondence with that query index. -/
theorem populateMatched_ok (landmarks : List Landmark) (ms : List DMatch) :
    ∀ (m0 : IndexMap), (∀ m ∈ ms, m.trainIdx < landmarks.length) →
      ∃ im, populateMatched landmarks ms m0 = .ok im ∧
        ∀ k, im k =
          match ms.reverse.find? (fun m => m.queryIdx == k) with
          | some mt => (landmarks[mt.trainIdx]?).map Landmark.id
          | none => m0 k := by
  induction ms with
  | nil =>
    intro m0 _
    exact ⟨m0, rfl, fun k => by simp⟩
  | cons mt rest ih =>
    intro m0 hr
    have hlt : mt.trainIdx < landmarks.length := hr mt (List.mem_cons_self _ _)
    obtain ⟨im, h1, h2⟩ := ih (m0.assign mt.queryIdx (landmarks[mt.trainIdx]).id)
      (fun m hm => hr m (List.mem_cons_of_mem _ hm))
    refine ⟨im, ?_, ?_⟩
    · simp only [populateMatched, vectorAt_of_lt landmarks mt.trainIdx hlt, bind, Except.bind]
      exact h1
    · intro k
      rw [h2 k]
      simp only [List.reverse_cons, List.find?_append]
      cases hf : rest.reverse.find? (fun m => m.queryIdx == k) with
      | some x => simp
      | none =>
        by_cases hk : mt.queryIdx = k
        · simp [IndexMap.assign, hk, List.getElem?_eq_getElem hlt]
        · have hk' : ¬ k = mt.queryIdx := fun h => hk h.symm
          simp [IndexMap.assign, hk, hk']

/-- C9, as stated, fails: when the matcher pairs the keypoints `0` and `1` with the same
candidate landmark, `getMatches` maps both keypoint indices to that landmark's id. -/
theorem getMatches_not_injective :
    ∃ im, getMatches Sample.env Sample.db [[7], [7]] Sample.query = .ok im ∧
      im 0 = some 0 ∧ im 1 = some 0 ∧
      ¬ (∀ a b id, im a = some id → im b = some id → a = b) :=
  ⟨_, rfl, rfl, rfl, fun h => absurd (h 0 1 0 rfl rfl) (by decide)⟩

/-- C9, amended: when every train index returned by the matcher refers to a candidate
landmark, `getMatches` returns a map that is defined exactly on the query indices of the
correspondences, each value being the id of a candidate landmark paired with that key,
namely the one at the train index of the last correspondence with that query index (a
correspondence followed by none with its query index decides the value of its key); the
map is injective when the correspondences have pairwise distinct train indices and the
candidate landmarks pairwise distinct ids. -/
theorem getMatches_map (env : Collaborators) (db : LandmarkDatabase) (desc : Mat) (query : Rect)
    (hr : ∀ m ∈ env.vision_match desc (concatDescriptions (env.find db query)),
      m.trainIdx < (env.find db query).length) :
    ∃ im, getMatches env db desc query = .ok im ∧
      (∀ k, (im k).isSome = true ↔
        ∃ m ∈ env.vision_match desc (concatDescriptions (env.find db query)),
          m.queryIdx = k) ∧
      (∀ k id, im k = some id →
        ∃ m ∈ env.vision_match desc (concatDescriptions (env.find db query)),
          ∃ l, m.queryIdx = k ∧ (env.find db query)[m.trainIdx]? = some l ∧ l.id = id) ∧
      (∀ (before : List DMatch) (mt : DMatch) (after : List DMatch),
        env.vision_match desc (concatDescriptions (env.find db query)) =
          before ++ mt :: after →
        (∀ m ∈ after, m.queryIdx ≠ mt.queryIdx) →
        ∃ l, (env.find db query)[mt.trainIdx]? = some l ∧ im mt.queryIdx = some l.id) ∧
      (((env.vision_match desc (concatDescriptions (env.find db query))).map
            DMatch.trainIdx).Nodup →
        ((env.find db query).map Landmark.id).Nodup →
        ∀ a b id, im a = some id → im b = some id → a = b) := by
  obtain ⟨im, h1, h2⟩ := populateMatched_ok (env.find db query)
    (env.vision_match desc (concatDescriptions (env.find db query))) (fun _ => none) hr
  have hval : ∀ k id, im k = some id →
      ∃ m ∈ env.vision_match desc (concatDescriptions (env.find db query)),
        ∃ l, m.queryIdx = k ∧ (env.find db query)[m.trainIdx]? = some l ∧ l.id = id := by
    intro k id hk
    rw [h2 k] at hk
    cases hf : (env.vision_match desc (concatDescriptions (env.find db query))).reverse.find?
        (fun m => m.queryIdx == k) with
    | none => rw [hf] at hk; cases hk
    | some mt =>
      rw [hf] at hk
      have hmem := List.mem_of_find?_eq_some hf
      have hq := List.find?_some hf
      simp only [Option.map_eq_some'] at hk
      obtain ⟨l, hl, hid⟩ := hk
      exact ⟨mt, by simpa using hmem, l, by simpa using hq, hl, hid⟩
  have hlast : ∀ (before : List DMatch) (mt : DMatch) (after : List DMatch),
      env.vision_match desc (concatDescriptions (env.find db query)) =
        before ++ mt :: after →
      (∀ m ∈ after, m.queryIdx ≠ mt.queryIdx) →
      ∃ l, (env.find db query)[mt.trainIdx]? = some l ∧ im mt.queryIdx = some l.id := by
    intro before mt after hsplit hafter
    have hmem : mt ∈ env.vision_match desc (concatDescriptions (env.find db query)) := by
      rw [hsplit]
      simp
    have hlt := hr mt hmem
    have hnone : after.reverse.find? (fun m => m.queryIdx == mt.queryIdx) = none := by
      rw [List.find?_eq_none]
      intro m hm
      have := hafter m (by simpa using hm)
      simpa using this
    refine ⟨(env.find db query)[mt.trainIdx], List.getElem?_eq_getElem hlt, ?_⟩
    rw [h2 mt.queryIdx, hsplit]
    simp only [List.reverse_append, List.reverse_cons, List.append_assoc, List.find?_append,
      hnone, Option.none_or, List.singleton_append, List.find?_cons, beq_self_eq_true]
    simp [List.getElem?_eq_getElem hlt]
  refine ⟨im, h1, ?_, hval, hlast, ?_⟩
  · intro k
    constructor
    · intro hs
      obtain ⟨id, hid⟩ := Option.isSome_iff_exists.mp hs
      obtain ⟨m, hm, _, hq, _, _⟩ := hval k id hid
      exact ⟨m, hm, hq⟩
    · rintro ⟨m, hm, hq⟩
      rw [h2 k]
      cases hf : (env.vision_match desc (concatDescriptions (env.find db query))).reverse.find?
          (fun m => m.queryIdx == k) with
      | none =>
        rw [List.find?_eq_none] at hf
        have := hf m (by simpa using hm)
        simp [hq] at this
      | some mt =>
        have hmem := List.mem_of_find?_eq_some hf
        have hlt := hr mt (by simpa using hmem)
        simp [List.getElem?_eq_getElem hlt]
  · intro hnd hids a b id ha hb
    obtain ⟨ma, hma, la, hqa, hla, hida⟩ := hval a id ha
    obtain ⟨mb, hmb, lb, hqb, hlb, hidb⟩ := hval b id hb
    have hta : ma.trainIdx < (env.find db query).length := hr ma hma
    have htb : mb.trainIdx < (env.find db query).length := hr mb hmb
    have hidx : ma.trainIdx = mb.trainIdx := by
      have hinj := List.nodup_iff_injective_get.mp hids
      have hla' : la = (env.find db query)[ma.trainIdx] := by
        rw [List.getElem?_eq_getElem hta] at hla
        exact (Option.some.inj hla).symm
      have hlb' : lb = (env.find db query)[mb.trainIdx] := by
        rw [List.getElem?_eq_getElem htb] at hlb
        exact (Option.some.inj hlb).symm
      have heq : ((env.find db query).map Landmark.id).get ⟨ma.trainIdx, by simpa using hta⟩ =
          ((env.find db query).map Landmark.id).get ⟨mb.trainIdx, by simpa using htb⟩ := by
        simp only [List.get_eq_getElem, List.getElem_map]
        rw [← hla', ← hlb', hida, hidb]
      have := hinj heq
      simpa using congrArg Fin.val this
    have hm : ma = mb := List.inj_on_of_nodup_map hnd hma hmb hidx
    rw [← hqa, ← hqb, hm]

/-- Witness for the amended C9: one correspondence, keypoint `0` with candidate `0`. -/
theorem getMatches_map_witness :
    (∀ m ∈ Sample.envOneMatch.vision_match [[7], [7]]
        (concatDescriptions (Sample.envOneMatch.find Sample.db Sample.query)),
      m.trainIdx < (Sample.envOneMatch.find Sample.db Sample.query).length) ∧
    ∃ im, getMatches Sample.envOneMatch Sample.db [[7], [7]] Sample.query = .ok im ∧
      (∀ k, (im k).isSome = true ↔
        ∃ m ∈ Sample.envOneMatch.vision_match [[7], [7]]
            (concatDescriptions (Sample.envOneMatch.find Sample.db Sample.query)),
          m.queryIdx = k) ∧
      (∀ k id, im k = some id →
        ∃ m ∈ Sample.envOneMatch.vision_match [[7], [7]]
            (concatDescriptions (Sample.envOneMatch.find Sample.db Sample.query)),
          ∃ l, m.queryIdx = k ∧
            (Sample.envOneMatch.find Sample.db Sample.query)[m.trainIdx]? = some l ∧ l.id = id) ∧
      (∀ (before : List DMatch) (mt : DMatch) (after : List DMatch),
        Sample.envOneMatch.vision_match [[7], [7]]
            (concatDescriptions (Sample.envOneMatch.find Sample.db Sample.query)) =
          before ++ mt :: after →
        (∀ m ∈ after, m.queryIdx ≠ mt.queryIdx) →
        ∃ l, (Sample.envOneMatch.find Sample.db Sample.query)[mt.trainIdx]? = some l ∧
          im mt.queryIdx = some l.id) ∧
      (((Sample.envOneMatch.vision_match [[7], [7]]
            (concatDescriptions (Sample.envOneMatch.find Sample.db Sample.query))).map
            DMatch.trainIdx).Nodup →
        ((Sample.envOneMatch.find Sample.db Sample.query).map Landmark.id).Nodup →
        ∀ a b id, im a = some id → im b = some id → a = b) :=
  have h : ∀ m ∈ Sample.envOneMatch.vision_match [[7], [7]]
        (concatDescriptions (Sample.envOneMatch.find Sample.db Sample.query)),
      m.trainIdx < (Sample.envOneMatch.find Sample.db Sample.query).length := by
    intro m hm
    simp only [Sample.envOneMatch, List.mem_singleton] at hm
    subst hm
    decide
  ⟨h, getMatches_map Sample.envOneMatch Sample.db [[7], [7]] Sample.query h⟩

end lar

/-! ## Frame processor: staging of new landmarks -/

namespace lar

theorem unmatchedBefore_succ (im : IndexMap) (i : Nat) :
    unmatchedBefore im (i + 1) = unmatchedBefore im i + (if (im i).isNone then 1 else 0) := by
  unfold unmatchedBefore
  rw [List.range_succ, List.filter_append, List.length_append]
  by_cases h : (im i).isNone = true <;> simp [h]

theorem stageLandmarks_ok (env : Collaborators) (frame : Frame) (desc : Mat) (depth : List ℚ)
    (im : IndexMap) (n : Nat) (kpts : List KeyPoint) :
    ∀ (i : Nat) (s : Staging), s.new_landmark_id = n + unmatchedBefore im i →
      i + kpts.length ≤ depth.length → i + kpts.length ≤ desc.length →
      ∃ s', stageLandmarks env frame desc depth im kpts i s = .ok s' ∧
        s'.landmark_ids = s.landmark_ids ++ (List.range' i kpts.length).map (assignedId im n) ∧
        s'.new_landmark_id = n + unmatchedBefore im (i + kpts.length) ∧
        s'.new_landmarks = s.new_landmarks ++ stagedFrom env frame desc depth im n i kpts := by
  induction kpts with
  | nil =>
    intro i s hs _ _
    exact ⟨s, rfl, by simp, by simpa using hs, by simp [stagedFrom]⟩
  | cons kpt rest ih =>
    intro i s hs hd hm
    simp only [List.length_cons] at hd hm
    have hdi : i < depth.length := by omega
    have hmi : i < desc.length := by omega
    cases him : im i with
    | none =>
      obtain ⟨s', h1, h2, h3, h4⟩ := ih (i + 1)
        { new_landmarks := s.new_landmarks ++
            [Landmark.new (env.projectToWorld frame.intrinsics frame.extrinsics kpt.pt depth[i])
              desc[i] s.new_landmark_id],
          landmark_ids := s.landmark_ids ++ [s.new_landmark_id],
          new_landmark_id := s.new_landmark_id + 1 }
        (by simp [unmatchedBefore_succ, him, hs]; omega) (by omega) (by omega)
      refine ⟨s', ?_, ?_, ?_, ?_⟩
      · simp only [stageLandmarks, him, vectorAt_of_lt depth i hdi, vectorAt_of_lt desc i hmi,
          bind, Except.bind]
        exact h1
      · rw [h2]
        simp [List.range'_succ, assignedId, him, hs]
      · rw [h3]
        congr 2
        simp only [List.length_cons]
        omega
      · rw [h4]
        simp [stagedFrom, List.enumFrom_cons, him, hs, List.getD_eq_getElem?_getD,
          List.getElem?_eq_getElem hdi, List.getElem?_eq_getElem hmi]
    | some id =>
      obtain ⟨s', h1, h2, h3, h4⟩ := ih (i + 1)
        { s with landmark_ids := s.landmark_ids ++ [id] }
        (by simp [unmatchedBefore_succ, him, hs]) (by omega) (by omega)
      refine ⟨s', ?_, ?_, ?_, ?_⟩
      · simp only [stageLandmarks, him]
        exact h1
      · rw [h2]
        simp [List.range'_succ, assignedId, him]
      · rw [h3]
        congr 2
        simp only [List.length_cons]
        omega
      · rw [h4]
        simp [stagedFrom, List.enumFrom_cons, him]

theorem stagedFrom_ids (env : Collaborators) (frame : Frame) (desc : Mat) (depth : List ℚ)
    (im : IndexMap) (n : Nat) (kpts : List KeyPoint) :
    ∀ i, ∃ c, unmatchedBefore im (i + kpts.length) = unmatchedBefore im i + c ∧
      (stagedFrom env frame desc depth im n i kpts).map Landmark.id =
        List.range' (n + unmatchedBefore im i) c ∧
      (stagedFrom env frame desc depth im n i kpts).length = c ∧
      ((List.range' i kpts.length).filter (fun t => (im t).isNone)).map (assignedId im n) =
        List.range' (n + unmatchedBefore im i) c := by
  induction kpts with
  | nil => intro i; exact ⟨0, by simp, by simp [stagedFrom], by simp [stagedFrom], by simp⟩
  | cons kpt rest ih =>
    intro i
    obtain ⟨c, h1, h2, h3, h4⟩ := ih (i + 1)
    have hlen : i + (kpt :: rest).length = i + 1 + rest.length := by
      simp only [List.length_cons]; omega
    cases him : im i with
    | none =>
      have hs : unmatchedBefore im (i + 1) = unmatchedBefore im i + 1 := by
        simp [unmatchedBefore_succ, him]
      rw [hs] at h1 h2 h4
      refine ⟨c + 1, ?_, ?_, ?_, ?_⟩
      · rw [hlen, h1]; omega
      · simp only [stagedFrom, List.enumFrom_cons, List.filter_cons, him, Option.isNone_none,
          if_true, List.map_cons, List.range'_succ] at h2 ⊢
        rw [h2]
        simp [Landmark.new, Nat.add_assoc]
      · simp only [stagedFrom, List.enumFrom_cons, List.filter_cons, him, Option.isNone_none,
          if_true, List.map_cons, List.length_cons] at h3 ⊢
        rw [h3]
      · simp only [List.length_cons, List.range'_succ, List.filter_cons, him,
          Option.isNone_none, if_true, List.map_cons]
        rw [h4]
        simp [assignedId, him, Nat.add_assoc]
    | some id =>
      have hs : unmatchedBefore im (i + 1) = unmatchedBefore im i := by
        simp [unmatchedBefore_succ, him]
      rw [hs] at h1 h2 h4
      refine ⟨c, ?_, ?_, ?_, ?_⟩
      · rw [hlen, h1]
      · simp only [stagedFrom, List.enumFrom_cons, List.filter_cons, him, Option.isNone_some,
          Bool.false_eq_true, if_false] at h2 ⊢
        exact h2
      · simp only [stagedFrom, List.enumFrom_cons, List.filter_cons, him, Option.isNone_some,
          Bool.false_eq_true, if_false] at h3 ⊢
        exact h3
      · simp only [List.length_cons, List.range'_succ, List.filter_cons, him,
          Option.isNone_some, Bool.false_eq_true, if_false]
        exact h4

theorem stagedFrom_getElem (env : Collaborators) (frame : Frame) (desc : Mat) (depth : List ℚ)
    (im : IndexMap) (n : Nat) (kpts : List KeyPoint) :
    ∀ (i t : Nat) (kpt : KeyPoint), kpts[t]? = some kpt → im (i + t) = none →
      ∃ c, unmatchedBefore im (i + t) = unmatchedBefore im i + c ∧
        (stagedFrom env frame desc depth im n i kpts)[c]? =
          some (Landmark.new
            (env.projectToWorld frame.intrinsics frame.extrinsics kpt.pt (depth.getD (i + t) 0))
            (desc.getD (i + t) []) (n + unmatchedBefore im (i + t))) := by
  induction kpts with
  | nil => intro i t kpt h; simp at h
  | cons g rest ih =>
    intro i t kpt h hu
    cases t with
    | zero =>
      simp only [List.getElem?_cons_zero, Option.some.injEq] at h
      subst h
      simp only [Nat.add_zero] at hu
      exact ⟨0, rfl, by simp [stagedFrom, List.enumFrom_cons, hu]⟩
    | succ t =>
      simp only [List.getElem?_cons_succ] at h
      have hidx : i + 1 + t = i + (t + 1) := by omega
      obtain ⟨c, h1, h2⟩ := ih (i + 1) t kpt h (by rw [hidx]; exact hu)
      rw [hidx] at h1 h2
      cases him : im i with
      | none =>
        have hs : unmatchedBefore im (i + 1) = unmatchedBefore im i + 1 := by
          simp [unmatchedBefore_succ, him]
        refine ⟨c + 1, by rw [h1, hs]; omega, ?_⟩
        simp only [stagedFrom, List.enumFrom_cons, List.filter_cons, him, Option.isNone_none,
          if_true, List.map_cons, List.getElem?_cons_succ] at h2 ⊢
        exact h2
      | some id =>
        have hs : unmatchedBefore im (i + 1) = unmatchedBefore im i := by
          simp [unmatchedBefore_succ, him]
        refine ⟨c, by rw [h1, hs], ?_⟩
        simp only [stagedFrom, List.enumFrom_cons, List.filter_cons, him, Option.isNone_some,
          Bool.false_eq_true, if_false] at h2 ⊢
        exact h2

theorem insert_eq_append (new_landmarks : List Landmark) :
    ∀ (db : LandmarkDatabase),
      new_landmarks.map Landmark.id = List.range' db.all.length new_landmarks.length →
      (db.insert new_landmarks).all = db.all ++ new_landmarks := by
  induction new_landmarks with
  | nil => intro db _; simp [LandmarkDatabase.insert]
  | cons l rest ih =>
    intro db h
    simp only [List.map_cons, List.length_cons, List.range'_succ, List.cons.injEq] at h
    obtain ⟨hid, hrest⟩ := h
    have hl : ({ l with id := db.all.length } : Landmark) = l := by
      cases l
      simp only [Landmark.mk.injEq, and_true] at hid ⊢
      exact hid.symm
    have := ih ⟨db.all ++ [l]⟩ (by simpa using hrest)
    simp only [LandmarkDatabase.insert, List.foldl_cons, hl] at this ⊢
    rw [this]
    simp

/-- The staging part of `getLandmarkIds` on a database of size `n`, once `getMatches` has
returned the map `im`. -/
theorem getLandmarkIdsStaged_ok (env : Collaborators) (db : LandmarkDatabase) (frame : Frame)
    (desc : Mat) (kpts : List KeyPoint) (depth : List ℚ) (im : IndexMap)
    (hgm : getMatches env db desc (queryWindow frame) = .ok im)
    (hdepth : kpts.length ≤ depth.length) (hdesc : kpts.length ≤ desc.length) :
    getLandmarkIdsStaged env db frame desc kpts depth =
      .ok { new_landmarks := stagedFrom env frame desc depth im db.all.length 0 kpts,
            landmark_ids := (List.range kpts.length).map (assignedId im db.all.length),
            new_landmark_id := db.all.length + unmatchedBefore im kpts.length } := by
  obtain ⟨s', h1, h2, h3, h4⟩ := stageLandmarks_ok env frame desc depth im db.all.length kpts 0
    { new_landmarks := [], landmark_ids := [], new_landmark_id := db.all.length }
    (by simp [unmatchedBefore]) (by omega) (by omega)
  have hgm' : getMatches env db desc
      ⟨frame.extrinsics 0 3, frame.extrinsics 2 3, 50, 50⟩ = .ok im := hgm
  simp only [getLandmarkIdsStaged, hgm', bind, Except.bind]
  rw [h1]
  cases s'
  simp only [List.nil_append, Nat.zero_add] at h2 h3 h4
  simp only [h2, h3, h4, List.range_eq_range']

/-- C7: on a database of size `n`, once `getMatches` has returned the map `im` (and the
depth vector and descriptor matrix have an entry per keypoint), `getLandmarkIds` returns
one id per keypoint: the matched id for a matched keypoint and `n + k` for the unmatched
keypoint with `k` unmatched keypoints before it.  The ids issued to the unmatched keypoints
are `n, n + 1, ..` in keypoint order, hence distinct and at least `n`; the landmarks staged
for insertion are as many as the unmatched keypoints and carry these ids in the same order,
the one for an unmatched keypoint `i` carrying the id returned for `i`. -/
theorem getLandmarkIds_ids (env : Collaborators) (db : LandmarkDatabase) (frame : Frame)
    (desc : Mat) (kpts : List KeyPoint) (depth : List ℚ) (im : IndexMap)
    (hgm : getMatches env db desc (queryWindow frame) = .ok im)
    (hdepth : kpts.length ≤ depth.length) (hdesc : kpts.length ≤ desc.length) :
    ∃ s, getLandmarkIdsStaged env db frame desc kpts depth = .ok s ∧
      getLandmarkIds env db frame desc kpts depth =
        .ok (s.landmark_ids, db.insert s.new_landmarks) ∧
      s.landmark_ids.length = kpts.length ∧
      (∀ i, i < kpts.length → s.landmark_ids[i]? =
        some (match im i with
              | some id => id
              | none => db.all.length + unmatchedBefore im i)) ∧
      ((List.range kpts.length).filter (fun i => (im i).isNone)).map
          (fun i => s.landmark_ids.getD i 0) =
        List.range' db.all.length (unmatchedBefore im kpts.length) ∧
      s.new_landmarks.length = unmatchedBefore im kpts.length ∧
      s.new_landmarks.map Landmark.id =
        List.range' db.all.length (unmatchedBefore im kpts.length) ∧
      (∀ i kpt, kpts[i]? = some kpt → im i = none →
        ∃ l, s.new_landmarks[unmatchedBefore im i]? = some l ∧
          s.landmark_ids[i]? = some l.id ∧ l.desc = desc.getD i [] ∧ l.sightings = 0) ∧
      (db.insert s.new_landmarks).all = db.all ++ s.new_landmarks := by
  have hst := getLandmarkIdsStaged_ok env db frame desc kpts depth im hgm hdepth hdesc
  obtain ⟨c, hc1, hc2, hc3, hc4⟩ := stagedFrom_ids env frame desc depth im db.all.length kpts 0
  simp only [Nat.zero_add, unmatchedBefore, List.range_zero, List.filter_nil, List.length_nil,
    Nat.add_zero] at hc1 hc2 hc4
  have hcount : unmatchedBefore im kpts.length = c := hc1
  have hids : ∀ i, i < kpts.length →
      ((List.range kpts.length).map (assignedId im db.all.length))[i]? =
        some (assignedId im db.all.length i) := by
    intro i hi
    simp [List.getElem?_map, List.getElem?_range hi]
  refine ⟨_, hst, ?_, ?_, ?_, ?_, ?_, ?_, ?_, ?_⟩
  · simp only [getLandmarkIds, hst, bind, Except.bind, pure, Except.pure]
  · simp
  · intro i hi
    rw [hids i hi]
    simp only [assignedId]
  · rw [hcount, ← hc4, ← List.range_eq_range']
    apply List.map_congr_left
    intro i hi
    have hlt : i < kpts.length := by
      have := (List.mem_filter.mp hi).1
      simpa using this
    simp [List.getD_eq_getElem?_getD, hids i hlt]
  · rw [hcount, hc3]
  · rw [hcount, hc2]
  · intro i kpt hk hu
    obtain ⟨c', h1, h2⟩ := stagedFrom_getElem env frame desc depth im db.all.length kpts 0 i kpt
      hk (by simpa using hu)
    simp only [Nat.zero_add] at h1 h2
    have h0 : unmatchedBefore im 0 = 0 := rfl
    rw [h0, Nat.zero_add] at h1
    have hlt : i < kpts.length := by
      rcases Nat.lt_or_ge i kpts.length with h | h
      · exact h
      · rw [List.getElem?_eq_none h] at hk
        cases hk
    refine ⟨_, by rw [h1]; exact h2, ?_, rfl, rfl⟩
    rw [hids i hlt]
    simp [assignedId, hu, Landmark.new]
  · apply insert_eq_append
    rw [hc2, hc3]

/-- Witness for C7 on the sample frame: keypoint `0` matched, keypoint `1` unmatched. -/
theorem getLandmarkIds_ids_witness :
    (getMatches Sample.envOneMatch Sample.db [[7], [7]] (queryWindow (Sample.frame 0)) =
        .ok (IndexMap.assign (fun _ => none) 0 0) ∧
      [(⟨⟨100, 100⟩⟩ : KeyPoint), ⟨⟨101, 100⟩⟩].length ≤ [(2 : ℚ), 2].length ∧
      [(⟨⟨100, 100⟩⟩ : KeyPoint), ⟨⟨101, 100⟩⟩].length ≤ ([[7], [7]] : Mat).length) ∧
    ∃ s, getLandmarkIdsStaged Sample.envOneMatch Sample.db (Sample.frame 0) [[7], [7]]
        [⟨⟨100, 100⟩⟩, ⟨⟨101, 100⟩⟩] [2, 2] = .ok s ∧
      getLandmarkIds Sample.envOneMatch Sample.db (Sample.frame 0) [[7], [7]]
        [⟨⟨100, 100⟩⟩, ⟨⟨101, 100⟩⟩] [2, 2] =
        .ok (s.landmark_ids, Sample.db.insert s.new_landmarks) ∧
      s.landmark_ids.length = [(⟨⟨100, 100⟩⟩ : KeyPoint), ⟨⟨101, 100⟩⟩].length ∧
      (∀ i, i < [(⟨⟨100, 100⟩⟩ : KeyPoint), ⟨⟨101, 100⟩⟩].length → s.landmark_ids[i]? =
        some (match (IndexMap.assign (fun _ => none) 0 0) i with
              | some id => id
              | none => Sample.db.all.length +
                  unmatchedBefore (IndexMap.assign (fun _ => none) 0 0) i)) ∧
      ((List.range [(⟨⟨100, 100⟩⟩ : KeyPoint), ⟨⟨101, 100⟩⟩].length).filter
          (fun i => ((IndexMap.assign (fun _ => none) 0 0) i).isNone)).map
          (fun i => s.landmark_ids.getD i 0) =
        List.range' Sample.db.all.length
          (unmatchedBefore (IndexMap.assign (fun _ => none) 0 0)
            [(⟨⟨100, 100⟩⟩ : KeyPoint), ⟨⟨101, 100⟩⟩].length) ∧
      s.new_landmarks.length =
        unmatchedBefore (IndexMap.assign (fun _ => none) 0 0)
          [(⟨⟨100, 100⟩⟩ : KeyPoint), ⟨⟨101, 100⟩⟩].length ∧
      s.new_landmarks.map Landmark.id =
        List.range' Sample.db.all.length
          (unmatchedBefore (IndexMap.assign (fun _ => none) 0 0)
            [(⟨⟨100, 100⟩⟩ : KeyPoint), ⟨⟨101, 100⟩⟩].length) ∧
      (∀ i kpt, [(⟨⟨100, 100⟩⟩ : KeyPoint), ⟨⟨101, 100⟩⟩][i]? = some kpt →
        (IndexMap.assign (fun _ => none) 0 0) i = none →
        ∃ l, s.new_landmarks[unmatchedBefore (IndexMap.assign (fun _ => none) 0 0) i]? = some l ∧
          s.landmark_ids[i]? = some l.id ∧ l.desc = ([[7], [7]] : Mat).getD i [] ∧
          l.sightings = 0) ∧
      (Sample.db.insert s.new_landmarks).all = Sample.db.all ++ s.new_landmarks :=
  have hgm : getMatches Sample.envOneMatch Sample.db [[7], [7]] (queryWindow (Sample.frame 0)) =
      .ok (IndexMap.assign (fun _ => none) 0 0) := rfl
  ⟨⟨hgm, by decide, by decide⟩,
    getLandmarkIds_ids Sample.envOneMatch Sample.db (Sample.frame 0) [[7], [7]]
      [⟨⟨100, 100⟩⟩, ⟨⟨101, 100⟩⟩] [2, 2] (IndexMap.assign (fun _ => none) 0 0) hgm
      (by decide) (by decide)⟩

end lar

/-! ## Frame processor: recording of observations -/

namespace lar

theorem recordObservation_fields (sqrt : ℚ → ℚ) (l : Landmark) (o : Observation) :
    (l.recordObservation sqrt o).obs = l.obs ++ [o] ∧
    (l.recordObservation sqrt o).sightings = l.sightings + 1 ∧
    (l.recordObservation sqrt o).id = l.id ∧
    (l.recordObservation sqrt o).position = l.position ∧
    (l.recordObservation sqrt o).desc = l.desc ∧
    (l.recordObservation sqrt o).is_fixed = l.is_fixed := by
  unfold Landmark.recordObservation
  by_cases h : l.sightings = 0 <;> simp [h]

theorem sum_sightings_set (xs : List Landmark) :
    ∀ (i : Nat) (l l' : Landmark), xs[i]? = some l → l'.sightings = l.sightings + 1 →
      ((xs.set i l').map Landmark.sightings).sum = (xs.map Landmark.sightings).sum + 1 := by
  induction xs with
  | nil => intro i l l' h; simp at h
  | cons x rest ih =>
    intro i l l' h hs
    cases i with
    | zero =>
      simp only [List.getElem?_cons_zero, Option.some.injEq] at h
      subst h
      simp only [List.set_cons_zero, List.map_cons, List.sum_cons, hs]
      omega
    | succ i =>
      simp only [List.getElem?_cons_succ] at h
      simp only [List.set_cons_succ, List.map_cons, List.sum_cons, ih i l l' h hs]
      omega

theorem observationsFor_cons (frame : Frame) (depth conf : List ℚ) (normals : List Vector3d)
    (ids : List Nat) (i : Nat) (kpt : KeyPoint) (rest : List KeyPoint) (m : Nat) :
    observationsFor frame depth conf normals ids i (kpt :: rest) m =
      (if ids.getD i 0 == m then
        [makeObservation frame kpt (depth.getD i 0) (conf.getD i 0) (normals.getD i ⟨0, 0, 0⟩)]
       else []) ++ observationsFor frame depth conf normals ids (i + 1) rest m := by
  simp only [observationsFor, List.enumFrom_cons, List.filter_cons]
  split <;> rfl

theorem recordObservations_ok (env : Collaborators) (frame : Frame)
    (depth conf : List ℚ) (normals : List Vector3d) (ids : List Nat) (kpts : List KeyPoint) :
    ∀ (i : Nat) (db : LandmarkDatabase),
      i + kpts.length ≤ depth.length → i + kpts.length ≤ conf.length →
      i + kpts.length ≤ normals.length → i + kpts.length ≤ ids.length →
      (∀ t, i ≤ t → t < i + kpts.length → ids.getD t 0 < db.all.length) →
      ∃ db', recordObservations env frame depth conf normals ids kpts i db = .ok db' ∧
        db'.all.length = db.all.length ∧
        (db'.all.map Landmark.sightings).sum =
          (db.all.map Landmark.sightings).sum + kpts.length ∧
        ∀ m l, db.all[m]? = some l →
          ∃ l', db'.all[m]? = some l' ∧
            l'.obs = l.obs ++ observationsFor frame depth conf normals ids i kpts m ∧
            l'.sightings =
              l.sightings + (observationsFor frame depth conf normals ids i kpts m).length ∧
            l'.id = l.id ∧ l'.position = l.position ∧ l'.desc = l.desc ∧
            l'.is_fixed = l.is_fixed := by
  induction kpts with
  | nil =>
    intro i db _ _ _ _ _
    refine ⟨db, rfl, rfl, by simp, ?_⟩
    intro m l hl
    exact ⟨l, hl, by simp [observationsFor], by simp [observationsFor], rfl, rfl, rfl, rfl⟩
  | cons kpt rest ih =>
    intro i db hd hc hn hi hr
    simp only [List.length_cons] at hd hc hn hi hr
    have hdi : i < depth.length := by omega
    have hci : i < conf.length := by omega
    have hni : i < normals.length := by omega
    have hii : i < ids.length := by omega
    have hidlt : ids[i] < db.all.length := by
      have := hr i (Nat.le_refl _) (by omega)
      simpa [List.getD_eq_getElem?_getD, List.getElem?_eq_getElem hii] using this
    obtain ⟨f1, f2, f3, f4, f5, f6⟩ := recordObservation_fields env.sqrt (db.all[ids[i]])
      (makeObservation frame kpt depth[i] conf[i] normals[i])
    obtain ⟨db', h1, h2, h3, h4⟩ := ih (i + 1)
      ⟨db.all.set ids[i] ((db.all[ids[i]]).recordObservation env.sqrt
        (makeObservation frame kpt depth[i] conf[i] normals[i]))⟩
      (by omega) (by omega) (by omega) (by omega)
      (by
        intro t ht1 ht2
        simp only [List.length_set]
        exact hr t (by omega) (by omega))
    refine ⟨db', ?_, ?_, ?_, ?_⟩
    · simp only [recordObservations, recordAt, vectorAt_of_lt depth i hdi,
        vectorAt_of_lt conf i hci, vectorAt_of_lt normals i hni, vectorAt_of_lt ids i hii,
        vectorAt_of_lt db.all ids[i] hidlt, bind, Except.bind, pure, Except.pure]
      exact h1
    · rw [h2]
      simp
    · rw [h3, sum_sightings_set db.all ids[i] (db.all[ids[i]]) _
        (List.getElem?_eq_getElem hidlt) f2]
      simp only [List.length_cons]
      omega
    · intro m l hl
      have hmlt : m < db.all.length := by
        rcases Nat.lt_or_ge m db.all.length with h | h
        · exact h
        · rw [List.getElem?_eq_none h] at hl
          cases hl
      have hlm : l = db.all[m] := by
        rw [List.getElem?_eq_getElem hmlt] at hl
        exact (Option.some.inj hl).symm
      have hget0 : ids.getD i 0 = ids[i] := by
        simp [List.getD_eq_getElem?_getD, List.getElem?_eq_getElem hii]
      have hdg : depth.getD i 0 = depth[i] := by
        simp [List.getD_eq_getElem?_getD, List.getElem?_eq_getElem hdi]
      have hcg : conf.getD i 0 = conf[i] := by
        simp [List.getD_eq_getElem?_getD, List.getElem?_eq_getElem hci]
      have hng : normals.getD i ⟨0, 0, 0⟩ = normals[i] := by
        simp [List.getD_eq_getElem?_getD, List.getElem?_eq_getElem hni]
      by_cases hm : ids[i] = m
      · subst hm
        obtain ⟨l', g1, g2, g3, g4, g5, g6, g7⟩ := h4 ids[i]
          ((db.all[ids[i]]).recordObservation env.sqrt
            (makeObservation frame kpt depth[i] conf[i] normals[i]))
          (by simp [List.getElem?_set, hidlt])
        refine ⟨l', g1, ?_, ?_, ?_, ?_, ?_, ?_⟩
        · rw [g2, f1, hlm, observationsFor_cons, hget0, hdg, hcg, hng]
          simp
        · rw [g3, f2, hlm, observationsFor_cons, hget0]
          simp only [beq_self_eq_true, if_true, List.length_append, List.length_singleton]
          omega
        · rw [g4, f3, hlm]
        · rw [g5, f4, hlm]
        · rw [g6, f5, hlm]
        · rw [g7, f6, hlm]
      · obtain ⟨l', g1, g2, g3, g4, g5, g6, g7⟩ := h4 m l
          (by simp [List.getElem?_set, hm, hl])
        have hne : (ids[i] == m) = false := by simpa using hm
        refine ⟨l', g1, ?_, ?_, g4, g5, g6, g7⟩
        · rw [g2, observationsFor_cons, hget0, hne]
          simp
        · rw [g3, observationsFor_cons, hget0, hne]
          simp

theorem unmatchedBefore_mono (im : IndexMap) (a b : Nat) (h : a ≤ b) :
    unmatchedBefore im a ≤ unmatchedBefore im b := by
  induction b with
  | zero =>
    have : a = 0 := by omega
    subst this
    exact Nat.le_refl _
  | succ b ih =>
    rcases Nat.lt_or_ge a (b + 1) with hlt | hge
    · have := ih (by omega)
      rw [unmatchedBefore_succ]
      omega
    · have : a = b + 1 := by omega
      subst this
      exact Nat.le_refl _

theorem unmatchedBefore_lt (im : IndexMap) (a b : Nat) (h : a < b) (ha : im a = none) :
    unmatchedBefore im a < unmatchedBefore im b := by
  have h1 : unmatchedBefore im (a + 1) = unmatchedBefore im a + 1 := by
    simp [unmatchedBefore_succ, ha]
  have h2 := unmatchedBefore_mono im (a + 1) b (by omega)
  omega

theorem assignedId_eq_old (im : IndexMap) (n t m : Nat) (hm : m < n) :
    (assignedId im n t == m) = (im t == some m) := by
  unfold assignedId
  cases h : im t with
  | none =>
    have : ¬ (n + unmatchedBefore im t = m) := by omega
    simp [this]
  | some id => simp

theorem assignedId_eq_new (im : IndexMap) (n t i : Nat)
    (hrange : ∀ t id, im t = some id → id < n) (hi : im i = none) :
    (assignedId im n t == n + unmatchedBefore im i) = (t == i) := by
  unfold assignedId
  cases h : im t with
  | some id =>
    have h1 := hrange t id h
    have h2 : ¬ (id = n + unmatchedBefore im i) := by omega
    have h3 : ¬ (t = i) := by
      intro heq
      rw [heq, hi] at h
      cases h
    simp [h2, h3]
  | none =>
    by_cases hti : t = i
    · subst hti
      simp
    · have hne : ¬ (unmatchedBefore im t = unmatchedBefore im i) := by
        rcases Nat.lt_or_gt_of_ne hti with hlt | hgt
        · have := unmatchedBefore_lt im t i hlt h
          omega
        · have := unmatchedBefore_lt im i t hgt hi
          omega
      simp [hti, hne]

theorem enumFrom_filter_index {α : Type} (xs : List α) :
    ∀ (s i : Nat) (x : α), xs[i]? = some x →
      (xs.enumFrom s).filter (fun p => p.1 == s + i) = [(s + i, x)] := by
  induction xs with
  | nil => intro s i x h; simp at h
  | cons y rest ih =>
    intro s i x h
    cases i with
    | zero =>
      simp only [List.getElem?_cons_zero, Option.some.injEq] at h
      subst h
      simp only [Nat.add_zero, List.enumFrom_cons, List.filter_cons, beq_self_eq_true, if_true,
        List.cons.injEq, true_and]
      rw [List.filter_eq_nil_iff]
      intro p hp
      have := List.le_fst_of_mem_enumFrom hp
      simp only [beq_iff_eq]
      omega
    | succ i =>
      simp only [List.getElem?_cons_succ] at h
      have := ih (s + 1) i x h
      have hidx : s + 1 + i = s + (i + 1) := by omega
      rw [hidx] at this
      have hne : (s == s + (i + 1)) = false := by
        simp only [beq_eq_false_iff_ne, ne_eq]
        omega
      simp only [List.enumFrom_cons, List.filter_cons, hne, Bool.false_eq_true, if_false]
      exact this

theorem getMatches_values (env : Collaborators) (db : LandmarkDatabase) (desc : Mat)
    (query : Rect)
    (hr : ∀ m ∈ env.vision_match desc (concatDescriptions (env.find db query)),
      m.trainIdx < (env.find db query).length) :
    ∃ im, getMatches env db desc query = .ok im ∧
      ∀ k id, im k = some id → ∃ l ∈ env.find db query, l.id = id := by
  obtain ⟨im, h1, h2⟩ := populateMatched_ok (env.find db query)
    (env.vision_match desc (concatDescriptions (env.find db query))) (fun _ => none) hr
  refine ⟨im, h1, ?_⟩
  intro k id hk
  rw [h2 k] at hk
  cases hf : (env.vision_match desc (concatDescriptions (env.find db query))).reverse.find?
      (fun m => m.queryIdx == k) with
  | none => rw [hf] at hk; cases hk
  | some mt =>
    rw [hf] at hk
    simp only [Option.map_eq_some'] at hk
    obtain ⟨l, hl, hid⟩ := hk
    exact ⟨l, List.getElem?_mem hl, hid⟩

theorem observationsFor_old (env : Collaborators) (frame : Frame) (im : IndexMap) (n m : Nat)
    (hm : m < n) :
    observationsFor frame (env.depthAt frame (keypointsOf env frame))
        (env.confidenceAt frame (keypointsOf env frame))
        (env.surfaceNormaslAt frame (keypointsOf env frame))
        ((List.range (keypointsOf env frame).length).map (assignedId im n)) 0
        (keypointsOf env frame) m =
      matchedObservations env frame im m := by
  unfold observationsFor matchedObservations
  have hf : ((keypointsOf env frame).enumFrom 0).filter
      (fun p => ((List.range (keypointsOf env frame).length).map (assignedId im n)).getD p.1 0
        == m) =
      ((keypointsOf env frame).enumFrom 0).filter (fun p => im p.1 == some m) := by
    apply List.filter_congr
    intro p hp
    have hlt : p.1 < (keypointsOf env frame).length := by
      have := List.fst_lt_add_of_mem_enumFrom hp
      omega
    have : ((List.range (keypointsOf env frame).length).map (assignedId im n)).getD p.1 0 =
        assignedId im n p.1 := by
      simp [List.getD_eq_getElem?_getD, List.getElem?_range hlt]
    rw [this]
    exact assignedId_eq_old im n p.1 m hm
  rw [hf]
  rfl

theorem observationsFor_new (env : Collaborators) (frame : Frame) (im : IndexMap) (n i : Nat)
    (kpt : KeyPoint) (hrange : ∀ t id, im t = some id → id < n)
    (hk : (keypointsOf env frame)[i]? = some kpt) (hi : im i = none) :
    observationsFor frame (env.depthAt frame (keypointsOf env frame))
        (env.confidenceAt frame (keypointsOf env frame))
        (env.surfaceNormaslAt frame (keypointsOf env frame))
        ((List.range (keypointsOf env frame).length).map (assignedId im n)) 0
        (keypointsOf env frame) (n + unmatchedBefore im i) =
      [observationAt env frame i kpt] := by
  unfold observationsFor
  have hf : ((keypointsOf env frame).enumFrom 0).filter
      (fun p => ((List.range (keypointsOf env frame).length).map (assignedId im n)).getD p.1 0
        == n + unmatchedBefore im i) =
      ((keypointsOf env frame).enumFrom 0).filter (fun p => p.1 == 0 + i) := by
    apply List.filter_congr
    intro p hp
    have hlt : p.1 < (keypointsOf env frame).length := by
      have := List.fst_lt_add_of_mem_enumFrom hp
      omega
    have : ((List.range (keypointsOf env frame).length).map (assignedId im n)).getD p.1 0 =
        assignedId im n p.1 := by
      simp [List.getD_eq_getElem?_getD, List.getElem?_range hlt]
    rw [this, Nat.zero_add]
    exact assignedId_eq_new im n p.1 i hrange hi
  rw [hf, enumFrom_filter_index (keypointsOf env frame) 0 i kpt hk]
  simp [observationAt]

/-- The run of `process` on an unprocessed frame whose collaborators honour their
contracts: it completes, marks the frame, appends one landmark per unmatched keypoint and
records one observation per keypoint. -/
theorem process_ok (env : Collaborators) (db : LandmarkDatabase) (frame : Frame)
    (hp : frame.processed = false) (hc : CollaboratorContracts env db frame) :
    ∃ im db', getMatches env db (descriptorsOf env frame) (queryWindow frame) = .ok im ∧
      process env db frame = .ok (db', { frame with processed := true }) ∧
      (∃ db1, getLandmarkIds env db frame (descriptorsOf env frame) (keypointsOf env frame)
          (env.depthAt frame (keypointsOf env frame)) =
        .ok ((List.range (keypointsOf env frame).length).map (assignedId im db.all.length),
             db1)) ∧
      (∀ t id, im t = some id → id < db.all.length) ∧
      db'.all.length = db.all.length + unmatchedBefore im (keypointsOf env frame).length ∧
      (db'.all.map Landmark.sightings).sum =
        (db.all.map Landmark.sightings).sum + (keypointsOf env frame).length ∧
      (∀ m l, db.all[m]? = some l →
        ∃ l', db'.all[m]? = some l' ∧
          l'.obs = l.obs ++ matchedObservations env frame im m ∧
          l'.sightings = l.sightings + (matchedObservations env frame im m).length ∧
          l'.id = l.id ∧ l'.position = l.position ∧ l'.desc = l.desc) ∧
      (∀ i kpt, (keypointsOf env frame)[i]? = some kpt → im i = none →
        ∃ l', db'.all[db.all.length + unmatchedBefore im i]? = some l' ∧
          l'.obs = [observationAt env frame i kpt] ∧ l'.sightings = 1 ∧
          l'.id = db.all.length + unmatchedBefore im i ∧
          l'.desc = (descriptorsOf env frame).getD i []) := by
  obtain ⟨hdesc, hdepth, hconf, hnorm, hmatch, hfound⟩ := hc
  obtain ⟨im, hgm, hval⟩ := getMatches_values env db (descriptorsOf env frame)
    (queryWindow frame) hmatch
  have hrange : ∀ t id, im t = some id → id < db.all.length := by
    intro t id h
    obtain ⟨l, hl, hid⟩ := hval t id h
    rw [← hid]
    exact hfound l hl
  have hst := getLandmarkIdsStaged_ok env db frame (descriptorsOf env frame)
    (keypointsOf env frame) (env.depthAt frame (keypointsOf env frame)) im hgm hdepth hdesc
  obtain ⟨c, hc1, hc2, hc3, _⟩ := stagedFrom_ids env frame (descriptorsOf env frame)
    (env.depthAt frame (keypointsOf env frame)) im db.all.length (keypointsOf env frame) 0
  have h0 : unmatchedBefore im 0 = 0 := rfl
  simp only [Nat.zero_add, h0, Nat.add_zero] at hc1 hc2
  have hins := insert_eq_append (stagedFrom env frame (descriptorsOf env frame)
    (env.depthAt frame (keypointsOf env frame)) im db.all.length 0 (keypointsOf env frame)) db
    (by rw [hc2, hc3])
  have hgl : getLandmarkIds env db frame (descriptorsOf env frame) (keypointsOf env frame)
      (env.depthAt frame (keypointsOf env frame)) =
      .ok ((List.range (keypointsOf env frame).length).map (assignedId im db.all.length),
        db.insert (stagedFrom env frame (descriptorsOf env frame)
          (env.depthAt frame (keypointsOf env frame)) im db.all.length 0
          (keypointsOf env frame))) := by
    simp only [getLandmarkIds, hst, bind, Except.bind, pure, Except.pure]
  have hlen1 : (db.insert (stagedFrom env frame (descriptorsOf env frame)
      (env.depthAt frame (keypointsOf env frame)) im db.all.length 0
      (keypointsOf env frame))).all.length =
      db.all.length + unmatchedBefore im (keypointsOf env frame).length := by
    rw [hins, List.length_append, hc3, hc1]
  obtain ⟨db', r1, r2, r3, r4⟩ := recordObservations_ok env frame
    (env.depthAt frame (keypointsOf env frame)) (env.confidenceAt frame (keypointsOf env frame))
    (env.surfaceNormaslAt frame (keypointsOf env frame))
    ((List.range (keypointsOf env frame).length).map (assignedId im db.all.length))
    (keypointsOf env frame) 0
    (db.insert (stagedFrom env frame (descriptorsOf env frame)
      (env.depthAt frame (keypointsOf env frame)) im db.all.length 0 (keypointsOf env frame)))
    (by omega) (by omega) (by omega) (by simp)
    (by
      intro t _ ht
      have hlt : t < (keypointsOf env frame).length := by omega
      have hget : ((List.range (keypointsOf env frame).length).map
          (assignedId im db.all.length)).getD t 0 = assignedId im db.all.length t := by
        simp [List.getD_eq_getElem?_getD, List.getElem?_range hlt]
      rw [hget, hlen1]
      unfold assignedId
      cases h : im t with
      | some id =>
        have := hrange t id h
        simp only
        omega
      | none =>
        have := unmatchedBefore_lt im t (keypointsOf env frame).length hlt h
        simp only
        omega)
  have hsum1 : ((db.insert (stagedFrom env frame (descriptorsOf env frame)
      (env.depthAt frame (keypointsOf env frame)) im db.all.length 0
      (keypointsOf env frame))).all.map Landmark.sightings).sum =
      (db.all.map Landmark.sightings).sum := by
    rw [hins, List.map_append, List.sum_append]
    have : (stagedFrom env frame (descriptorsOf env frame)
        (env.depthAt frame (keypointsOf env frame)) im db.all.length 0
        (keypointsOf env frame)).map Landmark.sightings =
        List.replicate c 0 := by
      rw [List.eq_replicate_iff]
      refine ⟨by simp [hc3], ?_⟩
      intro b hb
      simp only [stagedFrom, List.map_map, List.mem_map] at hb
      obtain ⟨p, _, rfl⟩ := hb
      rfl
    rw [this]
    simp
  refine ⟨im, db', hgm, ?_, ⟨_, hgl⟩, hrange, ?_, ?_, ?_, ?_⟩
  · have hgl' := hgl
    simp only [keypointsOf, descriptorsOf] at hgl' r1
    simp only [process, hp, Bool.false_eq_true, if_false, hgl', r1, bind, Except.bind, pure,
      Except.pure]
  · rw [r2, hlen1]
  · rw [r3, hsum1]
  · intro m l hl
    have hmlt : m < db.all.length := by
      rcases Nat.lt_or_ge m db.all.length with h | h
      · exact h
      · rw [List.getElem?_eq_none h] at hl
        cases hl
    obtain ⟨l', g1, g2, g3, g4, g5, g6, _⟩ := r4 m l
      (by rw [hins, List.getElem?_append_left hmlt]; exact hl)
    rw [observationsFor_old env frame im db.all.length m hmlt] at g2 g3
    exact ⟨l', g1, g2, g3, g4, g5, g6⟩
  · intro i kpt hk hi
    obtain ⟨c', q1, q2⟩ := stagedFrom_getElem env frame (descriptorsOf env frame)
      (env.depthAt frame (keypointsOf env frame)) im db.all.length (keypointsOf env frame)
      0 i kpt hk (by simpa using hi)
    simp only [Nat.zero_add, h0] at q1 q2
    rw [← q1] at q2
    obtain ⟨l', g1, g2, g3, g4, _, g6, _⟩ := r4 (db.all.length + unmatchedBefore im i) _
      (by
        rw [hins, List.getElem?_append_right (by omega)]
        simp only [Nat.add_sub_cancel_left]
        exact q2)
    rw [observationsFor_new env frame im db.all.length i kpt hrange hk hi] at g2 g3
    refine ⟨l', g1, ?_, ?_, ?_, ?_⟩
    · rw [g2]; simp [Landmark.new]
    · rw [g3]; simp [Landmark.new]
    · rw [g4]; simp [Landmark.new]
    · rw [g6]; simp [Landmark.new]

end lar

/-! ## Frame processor: the claims on `process` -/

namespace lar

/-- C8: on an unprocessed frame with `k` keypoints whose collaborators honour their
contracts, `process` completes.  With `im` the match map and `n` the size of the database
before the call, `getLandmarkIds` assigns keypoint `i` the id `assignedId im n i`, and the
observation built for keypoint `i` (carrying `frame.id`, the keypoint, its depth and its
confidence) is recorded on the landmark stored under that id; the sightings of all
landmarks together grow by exactly `k`.  A matched keypoint adds its observation to the
landmark it is matched to, which existed before, and the database grows only by one
landmark per unmatched keypoint; each landmark created in this call holds exactly the one
observation of its keypoint. -/
theorem process_records_observations (env : Collaborators) (db : LandmarkDatabase)
    (frame : Frame) (hp : frame.processed = false) (hc : CollaboratorContracts env db frame) :
    ∃ im db', getMatches env db (descriptorsOf env frame) (queryWindow frame) = .ok im ∧
      process env db frame = .ok (db', { frame with processed := true }) ∧
      (∃ db1, getLandmarkIds env db frame (descriptorsOf env frame) (keypointsOf env frame)
          (env.depthAt frame (keypointsOf env frame)) =
        .ok ((List.range (keypointsOf env frame).length).map (assignedId im db.all.length),
             db1)) ∧
      (db'.all.map Landmark.sightings).sum =
        (db.all.map Landmark.sightings).sum + (keypointsOf env frame).length ∧
      (∀ i kpt, (keypointsOf env frame)[i]? = some kpt →
        (∃ l', db'.all[assignedId im db.all.length i]? = some l' ∧
          observationAt env frame i kpt ∈ l'.obs) ∧
        (observationAt env frame i kpt).frame_id = frame.id ∧
        (observationAt env frame i kpt).kpt = kpt ∧
        (observationAt env frame i kpt).depth =
          (env.depthAt frame (keypointsOf env frame)).getD i 0 ∧
        (observationAt env frame i kpt).depth_confidence =
          (env.confidenceAt frame (keypointsOf env frame)).getD i 0) ∧
      db'.all.length = db.all.length + unmatchedBefore im (keypointsOf env frame).length ∧
      (∀ i kpt id, (keypointsOf env frame)[i]? = some kpt → im i = some id →
        ∃ l l', db.all[id]? = some l ∧ db'.all[id]? = some l' ∧ l'.id = l.id ∧
          l'.obs = l.obs ++ matchedObservations env frame im id ∧
          observationAt env frame i kpt ∈ matchedObservations env frame im id ∧
          l'.sightings = l.sightings + (matchedObservations env frame im id).length) ∧
      (∀ i kpt, (keypointsOf env frame)[i]? = some kpt → im i = none →
        ∃ l', db'.all[db.all.length + unmatchedBefore im i]? = some l' ∧
          l'.id = db.all.length + unmatchedBefore im i ∧
          l'.obs = [observationAt env frame i kpt] ∧ l'.sightings = 1) := by
  obtain ⟨im, db', h1, h2, h3, hrange, h4, h5, h6, h7⟩ := process_ok env db frame hp hc
  have hmemobs : ∀ i kpt id, (keypointsOf env frame)[i]? = some kpt → im i = some id →
      observationAt env frame i kpt ∈ matchedObservations env frame im id := by
    intro i kpt id hk hi
    simp only [matchedObservations, List.mem_map, List.mem_filter]
    refine ⟨(i, kpt), ⟨?_, by simp [hi]⟩, rfl⟩
    rw [List.mk_mem_enumFrom_iff_le_and_getElem?_sub]
    exact ⟨Nat.zero_le _, by simpa using hk⟩
  have hmatched : ∀ i kpt id, (keypointsOf env frame)[i]? = some kpt → im i = some id →
      ∃ l l', db.all[id]? = some l ∧ db'.all[id]? = some l' ∧ l'.id = l.id ∧
        l'.obs = l.obs ++ matchedObservations env frame im id ∧
        observationAt env frame i kpt ∈ matchedObservations env frame im id ∧
        l'.sightings = l.sightings + (matchedObservations env frame im id).length := by
    intro i kpt id hk hi
    have hlt := hrange i id hi
    obtain ⟨l', g1, g2, g3, g4, _, _⟩ := h6 id db.all[id] (List.getElem?_eq_getElem hlt)
    exact ⟨db.all[id], l', List.getElem?_eq_getElem hlt, g1, g4, g2, hmemobs i kpt id hk hi, g3⟩
  have hnew : ∀ i kpt, (keypointsOf env frame)[i]? = some kpt → im i = none →
      ∃ l', db'.all[db.all.length + unmatchedBefore im i]? = some l' ∧
        l'.id = db.all.length + unmatchedBefore im i ∧
        l'.obs = [observationAt env frame i kpt] ∧ l'.sightings = 1 := by
    intro i kpt hk hi
    obtain ⟨l', g1, g2, g3, g4, _⟩ := h7 i kpt hk hi
    exact ⟨l', g1, g4, g2, g3⟩
  refine ⟨im, db', h1, h2, h3, h5, ?_, h4, hmatched, hnew⟩
  intro i kpt hk
  refine ⟨?_, rfl, rfl, rfl, rfl⟩
  cases hi : im i with
  | some id =>
    obtain ⟨l, l', _, g2, _, g4, g5, _⟩ := hmatched i kpt id hk hi
    refine ⟨l', by simpa [assignedId, hi] using g2, ?_⟩
    rw [g4]
    exact List.mem_append_right _ g5
  | none =>
    obtain ⟨l', g1, _, g3, _⟩ := hnew i kpt hk hi
    refine ⟨l', by simpa [assignedId, hi] using g1, ?_⟩
    rw [g3]
    exact List.mem_singleton_self _

/-- Witness for C8: a frame with two keypoints, the first matched to the stored landmark
and the second unmatched. -/
theorem process_records_observations_witness :
    ((Sample.frame 2).processed = false ∧
      CollaboratorContracts Sample.envOneMatch Sample.db (Sample.frame 2)) ∧
    ∃ im db', getMatches Sample.envOneMatch Sample.db (descriptorsOf Sample.envOneMatch (Sample.frame 2)) (queryWindow (Sample.frame 2)) = .ok im ∧
      process Sample.envOneMatch Sample.db (Sample.frame 2) = .ok (db', { (Sample.frame 2) with processed := true }) ∧
      (∃ db1, getLandmarkIds Sample.envOneMatch Sample.db (Sample.frame 2) (descriptorsOf Sample.envOneMatch (Sample.frame 2)) (keypointsOf Sample.envOneMatch (Sample.frame 2))
          (Sample.envOneMatch.depthAt (Sample.frame 2) (keypointsOf Sample.envOneMatch (Sample.frame 2))) =
        .ok ((List.range (keypointsOf Sample.envOneMatch (Sample.frame 2)).length).map (assignedId im Sample.db.all.length),
             db1)) ∧
      (db'.all.map Landmark.sightings).sum =
        (Sample.db.all.map Landmark.sightings).sum + (keypointsOf Sample.envOneMatch (Sample.frame 2)).length ∧
      (∀ i kpt, (keypointsOf Sample.envOneMatch (Sample.frame 2))[i]? = some kpt →
        (∃ l', db'.all[assignedId im Sample.db.all.length i]? = some l' ∧
          observationAt Sample.envOneMatch (Sample.frame 2) i kpt ∈ l'.obs) ∧
        (observationAt Sample.envOneMatch (Sample.frame 2) i kpt).frame_id = (Sample.frame 2).id ∧
        (observationAt Sample.envOneMatch (Sample.frame 2) i kpt).kpt = kpt ∧
        (observationAt Sample.envOneMatch (Sample.frame 2) i kpt).depth =
          (Sample.envOneMatch.depthAt (Sample.frame 2) (keypointsOf Sample.envOneMatch (Sample.frame 2))).getD i 0 ∧
        (observationAt Sample.envOneMatch (Sample.frame 2) i kpt).depth_confidence =
          (Sample.envOneMatch.confidenceAt (Sample.frame 2) (keypointsOf Sample.envOneMatch (Sample.frame 2))).getD i 0) ∧
      db'.all.length = Sample.db.all.length + unmatchedBefore im (keypointsOf Sample.envOneMatch (Sample.frame 2)).length ∧
      (∀ i kpt id, (keypointsOf Sample.envOneMatch (Sample.frame 2))[i]? = some kpt → im i = some id →
        ∃ l l', Sample.db.all[id]? = some l ∧ db'.all[id]? = some l' ∧ l'.id = l.id ∧
          l'.obs = l.obs ++ matchedObservations Sample.envOneMatch (Sample.frame 2) im id ∧
          observationAt Sample.envOneMatch (Sample.frame 2) i kpt ∈ matchedObservations Sample.envOneMatch (Sample.frame 2) im id ∧
          l'.sightings = l.sightings + (matchedObservations Sample.envOneMatch (Sample.frame 2) im id).length) ∧
      (∀ i kpt, (keypointsOf Sample.envOneMatch (Sample.frame 2))[i]? = some kpt → im i = none →
        ∃ l', db'.all[Sample.db.all.length + unmatchedBefore im i]? = some l' ∧
          l'.id = Sample.db.all.length + unmatchedBefore im i ∧
          l'.obs = [observationAt Sample.envOneMatch (Sample.frame 2) i kpt] ∧ l'.sightings = 1) :=
  have hc : CollaboratorContracts Sample.envOneMatch Sample.db (Sample.frame 2) := by
    unfold CollaboratorContracts
    decide
  ⟨⟨rfl, hc⟩, process_records_observations Sample.envOneMatch Sample.db (Sample.frame 2) rfl hc⟩

/-- C10: `process` on a frame whose flag is set returns the database and the frame
unchanged; whenever `process` completes, the resulting frame has its flag set and a second
call on the results changes nothing, so two calls in succession have the effect of one; and
on an unprocessed frame whose collaborators honour their contracts `process` does complete,
with the flag set. -/
theorem process_idempotent (env : Collaborators) (db : LandmarkDatabase) (frame : Frame) :
    (frame.processed = true → process env db frame = .ok (db, frame)) ∧
    (∀ db' frame', process env db frame = .ok (db', frame') →
      frame'.processed = true ∧ process env db' frame' = .ok (db', frame')) ∧
    ((process env db frame).bind (fun r => process env r.1 r.2) = process env db frame) ∧
    (frame.processed = false → CollaboratorContracts env db frame →
      ∃ db', process env db frame = .ok (db', { frame with processed := true })) := by
  have hnoop : ∀ (d : LandmarkDatabase) (f : Frame), f.processed = true →
      process env d f = .ok (d, f) := by
    intro d f hf
    simp [process, hf, pure, Except.pure]
  have hflag : ∀ db' frame', process env db frame = .ok (db', frame') →
      frame'.processed = true := by
    intro db' frame' h
    by_cases hf : frame.processed = true
    · rw [hnoop db frame hf] at h
      simp only [Except.ok.injEq, Prod.mk.injEq] at h
      rw [← h.2]
      exact hf
    · have hf' : frame.processed = false := by simpa using hf
      simp only [process, hf', Bool.false_eq_true, if_false, bind, Except.bind, pure,
        Except.pure] at h
      split at h
      · cases h
      · split at h
        · cases h
        · simp only [Except.ok.injEq, Prod.mk.injEq] at h
          rw [← h.2]
  refine ⟨hnoop db frame, ?_, ?_, ?_⟩
  · intro db' frame' h
    exact ⟨hflag db' frame' h, hnoop db' frame' (hflag db' frame' h)⟩
  · cases h : process env db frame with
    | error e => rfl
    | ok r =>
      obtain ⟨d, f⟩ := r
      exact hnoop d f (hflag d f h)
  · intro hp hc
    obtain ⟨_, db', _, h2, _⟩ := process_ok env db frame hp hc
    exact ⟨db', h2⟩

/-- Witness for C10: a processed frame, and an unprocessed frame with two keypoints. -/
theorem process_idempotent_witness :
    ({ Sample.frame 2 with processed := true } : Frame).processed = true ∧
    process Sample.envOneMatch Sample.db { Sample.frame 2 with processed := true } =
      .ok (Sample.db, { Sample.frame 2 with processed := true }) ∧
    ((Sample.frame 2).processed = false ∧
      CollaboratorContracts Sample.envOneMatch Sample.db (Sample.frame 2)) ∧
    ∃ db', process Sample.envOneMatch Sample.db (Sample.frame 2) =
      .ok (db', { Sample.frame 2 with processed := true }) :=
  have hc : CollaboratorContracts Sample.envOneMatch Sample.db (Sample.frame 2) := by
    unfold CollaboratorContracts
    decide
  ⟨rfl,
    (process_idempotent Sample.envOneMatch Sample.db
      { Sample.frame 2 with processed := true }).1 rfl,
    ⟨rfl, hc⟩,
    (process_idempotent Sample.envOneMatch Sample.db (Sample.frame 2)).2.2.2 rfl hc⟩

end lar

/-! ## Landmarks-first construction -/

namespace geoar

theorem vertex_mk_append_old (vs more : List Vertex) (es : List Edge)
    (ps : List CameraParameters) (k : Nat) (w : Vertex)
    (h : SparseOptimizer.vertex ⟨vs, [], []⟩ k = some w) :
    SparseOptimizer.vertex ⟨vs ++ more, es, ps⟩ k = some w := by
  unfold SparseOptimizer.vertex at h ⊢
  simp only at h ⊢
  simp [List.find?_append, h]

theorem vertex_mk_append_new (vs : List Vertex) (v : Vertex) (es : List Edge)
    (ps : List CameraParameters) (h : ∀ w ∈ vs, w.id < v.id) :
    SparseOptimizer.vertex ⟨vs ++ [v], es, ps⟩ v.id = some v := by
  have hn : vs.find? (fun w => w.id == v.id) = none := by
    rw [List.find?_eq_none]
    intro w hw
    have := h w hw
    simp
    omega
  simp [SparseOptimizer.vertex, List.find?_append, hn]

theorem vertex_mk_irrelevant (vs : List Vertex) (es es' : List Edge)
    (ps ps' : List CameraParameters) (k : Nat) :
    SparseOptimizer.vertex ⟨vs, es, ps⟩ k = SparseOptimizer.vertex ⟨vs, es', ps'⟩ k := rfl

theorem constructLandmarks_spec (rest : List Landmark) :
    ∀ (k : Nat) (s : SparseOptimizer × Stats), (∀ v ∈ s.1.vertices, v.id < k) →
      (constructLandmarks rest k s).1 =
        { vertices := s.1.vertices ++ landmarkVerticesFrom k rest, edges := s.1.edges,
          parameters := s.1.parameters } := by
  induction rest with
  | nil => intro k s _; simp [constructLandmarks, landmarkVerticesFrom]
  | cons l rest ih =>
    intro k s hV
    by_cases hl : l.sightings ≥ 3
    · have hadd := SparseOptimizer.addVertex_of_lt s.1 (landmarkVertex l k)
        (by intro v hv; exact hV v hv)
      simp only [constructLandmarks, addLandmark, hl, if_true, hadd]
      rw [ih (k + 1)]
      · simp [landmarkVerticesFrom, List.enumFrom_cons, hl]
      · intro v hv
        rcases List.mem_append.mp hv with h | h
        · have := hV v h
          omega
        · simp only [List.mem_singleton] at h
          subst h
          simp [landmarkVertex]
    · simp only [constructLandmarks, addLandmark, hl, if_false]
      rw [ih (k + 1)]
      · simp [landmarkVerticesFrom, List.enumFrom_cons, hl]
      · intro v hv
        have := hV v hv
        omega

theorem addLandmarkMeasurementsLoop_ok (data : MapProcessingData) (frame : Frame)
    (frame_id params_id : Nat) (js : List Nat) :
    ∀ (o : SparseOptimizer) (c : Nat),
      (∀ j ∈ js, j < frame.landmarks.length) →
      (∀ id ∈ frame.landmarks, id < data.landmarks.length) →
      frame.landmarks.length ≤ frame.kpts.length →
      frame.landmarks.length ≤ frame.depth.length →
      frame.landmarks.length ≤ frame.confidence.length →
      (∀ id l, data.landmarks[id]? = some l → l.sightings ≥ 3 → ∃ w, o.vertex id = some w) →
      (∃ w, o.vertex frame_id = some w) →
      ∃ c', addLandmarkMeasurementsLoop data frame frame_id params_id js (o, c) =
        .ok ({ o with edges := o.edges ++
                js.filterMap (expectedProjectionEdge data frame frame_id params_id) }, c') := by
  induction js with
  | nil =>
    intro o c _ _ _ _ _ _ _
    exact ⟨c, by simp [addLandmarkMeasurementsLoop, pure, Except.pure]⟩
  | cons j rest ih =>
    intro o c hjs hids hk hd hc hland hpose
    have hj : j < frame.landmarks.length := hjs j (List.mem_cons_self _ _)
    have hlid : frame.landmarks[j] < data.landmarks.length :=
      hids _ (List.getElem_mem hj)
    have hjk : j < frame.kpts.length := by omega
    have hjd : j < frame.depth.length := by omega
    have hjc : j < frame.confidence.length := by omega
    have e1 : frame.landmarks.getD j 0 = frame.landmarks[j] := by
      simp [List.getD_eq_getElem?_getD, List.getElem?_eq_getElem hj]
    have e2 : frame.kpts.getD j ⟨⟨0, 0⟩⟩ = frame.kpts[j] := by
      simp [List.getD_eq_getElem?_getD, List.getElem?_eq_getElem hjk]
    have e3 : frame.depth.getD j 0 = frame.depth[j] := by
      simp [List.getD_eq_getElem?_getD, List.getElem?_eq_getElem hjd]
    have e4 : frame.confidence.getD j 0 = frame.confidence[j] := by
      simp [List.getD_eq_getElem?_getD, List.getElem?_eq_getElem hjc]
    have e5 : ((data.landmarks[frame.landmarks[j]]?).map Landmark.sightings).getD 0 =
        (data.landmarks[frame.landmarks[j]]).sightings := by
      simp [List.getElem?_eq_getElem hlid]
    by_cases hs : (data.landmarks[frame.landmarks[j]]).sightings ≥ 3
    · obtain ⟨w0, hw0⟩ := hland _ _ (List.getElem?_eq_getElem hlid) hs
      obtain ⟨w1, hw1⟩ := hpose
      obtain ⟨c', h1⟩ := ih
        (o.addEdge (Edge.projectXYZ2UVD (some frame.landmarks[j]) (some frame_id)
          ⟨(frame.kpts[j]).pt.x, (frame.kpts[j]).pt.y, frame.depth[j]⟩
          (asDiagonal 1 1 frame.confidence[j]) params_id)) (c + 1)
        (fun x hx => hjs x (List.mem_cons_of_mem _ hx)) hids hk hd hc hland ⟨w1, hw1⟩
      refine ⟨c', ?_⟩
      simp only [addLandmarkMeasurementsLoop, addLandmarkMeasurement,
        lar.vectorAt_of_lt frame.landmarks j hj,
        lar.vectorAt_of_lt data.landmarks _ hlid, lar.vectorAt_of_lt frame.kpts j hjk,
        lar.vectorAt_of_lt frame.depth j hjd, lar.vectorAt_of_lt frame.confidence j hjc,
        hs, if_true, hw0, hw1, Option.map_some', lar.vertex_id_of_some o _ _ hw0,
        lar.vertex_id_of_some o _ _ hw1, bind, Except.bind, pure, Except.pure]
      rw [h1]
      have hexp : expectedProjectionEdge data frame frame_id params_id j =
          some (Edge.projectXYZ2UVD (some frame.landmarks[j]) (some frame_id)
            ⟨(frame.kpts[j]).pt.x, (frame.kpts[j]).pt.y, frame.depth[j]⟩
            (asDiagonal 1 1 frame.confidence[j]) params_id) := by
        simp only [expectedProjectionEdge, e1, e2, e3, e4, e5]
        rw [if_pos hs]
      simp [SparseOptimizer.addEdge, List.filterMap_cons, hexp]
    · obtain ⟨c', h1⟩ := ih o c
        (fun x hx => hjs x (List.mem_cons_of_mem _ hx)) hids hk hd hc hland hpose
      refine ⟨c', ?_⟩
      simp only [addLandmarkMeasurementsLoop, addLandmarkMeasurement,
        lar.vectorAt_of_lt frame.landmarks j hj,
        lar.vectorAt_of_lt data.landmarks _ hlid, lar.vectorAt_of_lt frame.kpts j hjk,
        lar.vectorAt_of_lt frame.depth j hjd, hs, if_false, bind, Except.bind, pure,
        Except.pure]
      rw [h1]
      have hexp : expectedProjectionEdge data frame frame_id params_id j = none := by
        simp only [expectedProjectionEdge, e1, e5]
        rw [if_neg hs]
      simp [List.filterMap_cons, hexp]

theorem constructFrames_ok (data : MapProcessingData) (N : Nat) (rest : List Frame) :
    ∀ (i frame_id : Nat) (prev : Option SE3Quat) (o : SparseOptimizer) (st : Stats),
      frame_id = N + i →
      (∀ f ∈ rest,
        (∀ id ∈ f.landmarks, id < data.landmarks.length) ∧
        f.landmarks.length ≤ f.kpts.length ∧ f.landmarks.length ≤ f.depth.length ∧
        f.landmarks.length ≤ f.confidence.length) →
      (∀ v ∈ o.vertices, v.id < frame_id) →
      (∀ q ∈ o.parameters, q.id < i + 1) →
      (∀ id l, data.landmarks[id]? = some l → l.sightings ≥ 3 →
        ∃ w, SparseOptimizer.vertex ⟨o.vertices, [], []⟩ id = some w) →
      (match prev with
        | none => i = 0
        | some pose0 => 0 < i ∧ ∃ fx,
            SparseOptimizer.vertex ⟨o.vertices, [], []⟩ (frame_id - 1) =
              some (poseVertex pose0 (frame_id - 1) fx)) →
      ∃ st', constructFrames data N rest i frame_id (o, st) =
        .ok ({ vertices := o.vertices ++ poseVerticesFrom N i rest,
               edges := o.edges ++ edgesFrom data N i prev rest,
               parameters := o.parameters ++ cameraBlocksFrom i rest }, st') := by
  induction rest with
  | nil =>
    intro i frame_id prev o st _ _ _ _ _ _
    exact ⟨st, by simp [constructFrames, poseVerticesFrom, edgesFrom, cameraBlocksFrom, pure,
      Except.pure]⟩
  | cons f rest ih =>
    intro i frame_id prev o st hfid hwf hV hP hland hprev
    subst hfid
    obtain ⟨hids, hk, hd, hc⟩ := hwf f (List.mem_cons_self _ _)
    have hadd := SparseOptimizer.addVertex_of_lt o (poseVertex f.pose (N + i) (N + i == N))
      (by intro v hv; exact hV v hv)
    have hnew : ∀ es ps, SparseOptimizer.vertex
        ⟨o.vertices ++ [poseVertex f.pose (N + i) (N + i == N)], es, ps⟩ (N + i) =
        some (poseVertex f.pose (N + i) (N + i == N)) := by
      intro es ps
      exact vertex_mk_append_new o.vertices (poseVertex f.pose (N + i) (N + i == N))
        es ps (by intro v hv; exact hV v hv)
    have hodo : (if N + i > N then
          addOdometry ⟨o.vertices ++ [poseVertex f.pose (N + i) (N + i == N)], o.edges,
            o.parameters⟩ (N + i)
        else pure ⟨o.vertices ++ [poseVertex f.pose (N + i) (N + i == N)], o.edges,
            o.parameters⟩) =
        Except.ok ⟨o.vertices ++ [poseVertex f.pose (N + i) (N + i == N)],
          o.edges ++ expectedOdometryEdge N i f prev, o.parameters⟩ := by
      cases prev with
      | none =>
        simp only at hprev
        subst hprev
        simp [pure, Except.pure, expectedOdometryEdge]
      | some pose0 =>
        obtain ⟨hi, fx, hv⟩ := hprev
        have hold := vertex_mk_append_old o.vertices
          [poseVertex f.pose (N + i) (N + i == N)] o.edges o.parameters (N + i - 1) _ hv
        have hgt : N + i > N := by omega
        simp only [hgt, if_true, addOdometry, hold, hnew o.edges o.parameters]
        simp only [poseVertex, asVertexSE3Expmap, SparseOptimizer.addEdge, expectedOdometryEdge]
    have hpar := SparseOptimizer.addParameter_of_lt
      ⟨o.vertices ++ [poseVertex f.pose (N + i) (N + i == N)],
        o.edges ++ expectedOdometryEdge N i f prev, o.parameters⟩
      (cameraParameters f.intrinsics (i + 1))
      (by intro q hq; exact hP q hq)
    obtain ⟨c', hloop⟩ := addLandmarkMeasurementsLoop_ok data f (N + i) (i + 1)
      (List.range f.landmarks.length)
      ⟨o.vertices ++ [poseVertex f.pose (N + i) (N + i == N)],
        o.edges ++ expectedOdometryEdge N i f prev,
        o.parameters ++ [cameraParameters f.intrinsics (i + 1)]⟩ 0
      (by intro j hj; simpa using hj) hids hk hd hc
      (by
        intro id l hl hs
        obtain ⟨w, hw⟩ := hland id l hl hs
        exact ⟨w, vertex_mk_append_old o.vertices _ _ _ id w hw⟩)
      ⟨_, hnew _ _⟩
    obtain ⟨st', hrest⟩ := ih (i + 1) (N + i + 1) (some f.pose)
      ⟨o.vertices ++ [poseVertex f.pose (N + i) (N + i == N)],
        o.edges ++ expectedOdometryEdge N i f prev ++
          (List.range f.landmarks.length).filterMap
            (expectedProjectionEdge data f (N + i) (i + 1)),
        o.parameters ++ [cameraParameters f.intrinsics (i + 1)]⟩
      ⟨st.total_usable_landmarks, st.landmarks ++ [f.landmarks.length],
        st.usable_landmarks ++ [c']⟩
      (by omega)
      (fun g hg => hwf g (List.mem_cons_of_mem _ hg))
      (by
        intro v hv
        rcases List.mem_append.mp hv with h | h
        · have := hV v h
          omega
        · simp only [List.mem_singleton] at h
          subst h
          simp [poseVertex])
      (by
        intro q hq
        rcases List.mem_append.mp hq with h | h
        · have := hP q h
          omega
        · simp only [List.mem_singleton] at h
          subst h
          simp [cameraParameters])
      (by
        intro id l hl hs
        obtain ⟨w, hw⟩ := hland id l hl hs
        exact ⟨w, vertex_mk_append_old o.vertices _ _ _ id w hw⟩)
      (by
        refine ⟨Nat.succ_pos _, (N + i == N), ?_⟩
        simp only [Nat.add_sub_cancel]
        exact hnew [] [])
    have hstep : constructFrame data N (o, st) i (N + i) f =
        .ok (⟨o.vertices ++ [poseVertex f.pose (N + i) (N + i == N)],
          o.edges ++ expectedOdometryEdge N i f prev ++
            (List.range f.landmarks.length).filterMap
              (expectedProjectionEdge data f (N + i) (i + 1)),
          o.parameters ++ [cameraParameters f.intrinsics (i + 1)]⟩,
          ⟨st.total_usable_landmarks, st.landmarks ++ [f.landmarks.length],
            st.usable_landmarks ++ [c']⟩) := by
      by_cases hgt : N + i > N
      · rw [if_pos hgt] at hodo
        simp only [constructFrame, addPose, hadd, hgt, if_true, hodo, addIntrinsics, hpar,
          addLandmarkMeasurements, hloop, bind, Except.bind, pure, Except.pure]
      · have hes : expectedOdometryEdge N i f prev = [] := by
          cases prev with
          | none => rfl
          | some pose0 =>
            obtain ⟨hi, _⟩ := hprev
            omega
        simp only [hes, List.append_nil] at hpar hloop ⊢
        simp only [constructFrame, addPose, hadd, hgt, if_false, addIntrinsics, hpar,
          addLandmarkMeasurements, hloop, bind, Except.bind, pure, Except.pure]
    refine ⟨st', ?_⟩
    simp only [constructFrames, hstep, bind, Except.bind]
    rw [hrest]
    simp [poseVerticesFrom, cameraBlocksFrom, edgesFrom, List.enumFrom_cons, List.append_assoc]

theorem landmarkVerticesFrom_mem (k : Nat) (landmarks : List Landmark) (v : Vertex)
    (h : v ∈ landmarkVerticesFrom k landmarks) :
    ∃ l, k ≤ v.id ∧ landmarks[v.id - k]? = some l ∧ l.sightings ≥ 3 := by
  simp only [landmarkVerticesFrom, List.mem_map, List.mem_filter] at h
  obtain ⟨p, ⟨hp, hs⟩, rfl⟩ := h
  obtain ⟨j, l⟩ := p
  rw [List.mk_mem_enumFrom_iff_le_and_getElem?_sub] at hp
  exact ⟨l, hp.1, hp.2, by simpa using hs⟩

theorem landmarkVerticesFrom_vertex (landmarks : List Landmark) (id : Nat) (l : Landmark)
    (h : landmarks[id]? = some l) (hs : l.sightings ≥ 3) :
    ∃ w, SparseOptimizer.vertex ⟨landmarkVerticesFrom 0 landmarks, [], []⟩ id = some w := by
  have : (SparseOptimizer.vertex ⟨landmarkVerticesFrom 0 landmarks, [], []⟩ id).isSome = true := by
    unfold SparseOptimizer.vertex
    rw [List.find?_isSome]
    refine ⟨landmarkVertex l id, ?_, by simp [landmarkVertex]⟩
    simp only [landmarkVerticesFrom, List.mem_map, List.mem_filter]
    refine ⟨(id, l), ⟨?_, by simpa using hs⟩, rfl⟩
    rw [List.mk_mem_enumFrom_iff_le_and_getElem?_sub]
    exact ⟨Nat.zero_le _, by simpa using h⟩
  exact Option.isSome_iff_exists.mp this

/-- The run of the landmarks-first `construct` on an empty optimizer, for well-formed
data: it completes and the graph is the expected one. -/
theorem legacy_construct_empty (data : MapProcessingData) (stats : Stats) (hwf : WellFormed data) :
    ∃ st, construct data ⟨SparseOptimizer.empty, stats⟩ = .ok ⟨expectedGraph data, st⟩ := by
  have hl := constructLandmarks_spec data.landmarks 0 (SparseOptimizer.empty, stats)
    (by intro v hv; simp [SparseOptimizer.empty] at hv)
  simp only [SparseOptimizer.empty, List.nil_append] at hl
  obtain ⟨st', hf⟩ := constructFrames_ok data data.landmarks.length data.frames 0
    data.landmarks.length none
    ⟨landmarkVerticesFrom 0 data.landmarks, [], []⟩
    (constructLandmarks data.landmarks 0 (SparseOptimizer.empty, stats)).2
    rfl hwf
    (by
      intro v hv
      obtain ⟨l, _, hget, _⟩ := landmarkVerticesFrom_mem 0 data.landmarks v hv
      rcases Nat.lt_or_ge v.id data.landmarks.length with h | h
      · exact h
      · rw [List.getElem?_eq_none (by omega)] at hget
        cases hget)
    (by intro q hq; simp at hq)
    (by
      intro id l hget hs
      exact landmarkVerticesFrom_vertex data.landmarks id l hget hs)
    rfl
  refine ⟨st', ?_⟩
  have hpair : constructLandmarks data.landmarks 0 (SparseOptimizer.empty, stats) =
      (⟨landmarkVerticesFrom 0 data.landmarks, [], []⟩,
        (constructLandmarks data.landmarks 0 (SparseOptimizer.empty, stats)).2) :=
    Prod.ext hl rfl
  simp only [construct, bind, Except.bind, pure, Except.pure]
  rw [hpair, hf]
  simp [expectedGraph]

theorem expectedProjectionEdge_endpoints (data : MapProcessingData) (frame : Frame)
    (frame_id params_id j : Nat) (e : Edge)
    (h : expectedProjectionEdge data frame frame_id params_id j = some e) :
    ∀ x ∈ e.endpoints, x = frame_id ∨ ∃ l, data.landmarks[x]? = some l ∧ l.sightings ≥ 3 := by
  unfold expectedProjectionEdge at h
  simp only at h
  split at h
  · rename_i hs
    simp only [Option.some.injEq] at h
    subst h
    intro x hx
    simp only [Edge.endpoints, Option.toList_some, List.singleton_append, List.mem_cons,
      List.mem_singleton, List.not_mem_nil, or_false] at hx
    rcases hx with hx | hx
    · right
      subst hx
      cases hget : data.landmarks[frame.landmarks.getD j 0]? with
      | none => rw [hget] at hs; simp at hs
      | some l => rw [hget] at hs; exact ⟨l, rfl, by simpa using hs⟩
    · left
      exact hx
  · cases h

theorem edgesFrom_endpoints (data : MapProcessingData) (N : Nat) (rest : List Frame) :
    ∀ (i : Nat) (prev : Option SE3Quat), (prev.isSome = true → 0 < i) →
      ∀ e ∈ edgesFrom data N i prev rest, ∀ x ∈ e.endpoints,
        N ≤ x ∨ ∃ l, data.landmarks[x]? = some l ∧ l.sightings ≥ 3 := by
  induction rest with
  | nil => intro i prev _ e he; simp [edgesFrom] at he
  | cons f rest ih =>
    intro i prev hprev e he x hx
    simp only [edgesFrom, List.mem_append, List.mem_filterMap] at he
    rcases he with (he | ⟨j, _, hj⟩) | he
    · cases prev with
      | none => simp [expectedOdometryEdge] at he
      | some pose0 =>
        have hi : 0 < i := hprev rfl
        simp only [expectedOdometryEdge, List.mem_singleton] at he
        subst he
        simp only [Edge.endpoints, List.mem_cons, List.mem_singleton, List.not_mem_nil,
          or_false] at hx
        left
        omega
    · rcases expectedProjectionEdge_endpoints data f (N + i) (i + 1) j e hj x hx with h | h
      · left
        omega
      · right
        exact h
    · exact ih (i + 1) (some f.pose) (fun _ => Nat.succ_pos _) e he x hx

end geoar

/-! ## Unusable landmarks in both constructions -/

theorem lar_expectedGraph_endpoints (compact : Bool) (data : lar.Data)
    (h : lar.ObservationsInRange data) :
    ∀ e ∈ (lar.expectedGraph compact data).edges, ∀ x ∈ e.endpoints,
      x < data.frames.length ∨
      ∃ j l, data.landmarks[j]? = some l ∧ l.isUseable = true ∧ x = j + data.frames.length := by
  intro e he x hx
  simp only [lar.expectedGraph, List.mem_append] at he
  rcases he with he | he
  · simp only [lar.odometryEdges, List.mem_map] at he
    obtain ⟨p, hp, rfl⟩ := he
    have hlt := List.fst_lt_add_of_mem_enumFrom hp
    simp only [List.length_zip, List.length_tail] at hlt
    simp only [lar.odometryEdge, Edge.endpoints, List.mem_cons, List.mem_singleton,
      List.not_mem_nil, or_false] at hx
    left
    omega
  · simp only [lar.projectionEdgesFrom, List.mem_flatMap, List.mem_map] at he
    obtain ⟨p, hp, o, ho, rfl⟩ := he
    rw [lar.usableFrom_mem] at hp
    obtain ⟨⟨_, hget⟩, huse⟩ := hp
    simp only [Nat.sub_zero] at hget
    simp only [lar.expectedProjectionEdge, Edge.endpoints, Option.toList_some,
      List.singleton_append, List.mem_cons, List.mem_singleton, List.not_mem_nil,
      or_false] at hx
    rcases hx with hx | hx
    · right
      exact ⟨p.1, p.2, hget, huse, hx⟩
    · left
      rw [hx]
      exact h p.2 (List.getElem?_mem hget) o ho

/-- C3: a landmark with fewer than three sightings, whatever observations it holds, gets
no vertex and is an endpoint of no edge.  Frames-first variant: for the landmark at index
`j`, the graph built on an empty optimizer has no vertex under id `j + F` and no edge
attached to that id.  Landmarks-first variant: the graph has no vertex under id `j` and no
edge attached to that id.  In both variants the run completes on data whose references are
in range. -/
theorem unusable_landmark_excluded :
    (∀ (compact : Bool) (data : lar.Data) (stats : Stats) (j : Nat) (l : lar.Landmark),
      lar.ObservationsInRange data → data.landmarks[j]? = some l → l.sightings < 3 →
      ∃ ba, lar.construct compact data ⟨SparseOptimizer.empty, stats⟩ = .ok ba ∧
        ba.optimizer.vertex (j + data.frames.length) = none ∧
        (∀ v ∈ ba.optimizer.vertices, v.id ≠ j + data.frames.length) ∧
        (∀ e ∈ ba.optimizer.edges, j + data.frames.length ∉ e.endpoints)) ∧
    (∀ (data : geoar.MapProcessingData) (stats : Stats) (j : Nat) (l : geoar.Landmark),
      geoar.WellFormed data → data.landmarks[j]? = some l → l.sightings < 3 →
      ∃ ba, geoar.construct data ⟨SparseOptimizer.empty, stats⟩ = .ok ba ∧
        ba.optimizer.vertex j = none ∧
        (∀ v ∈ ba.optimizer.vertices, v.id ≠ j) ∧
        (∀ e ∈ ba.optimizer.edges, j ∉ e.endpoints)) := by
  constructor
  · intro compact data stats j l hwf hget hs
    obtain ⟨st, hc, _, _, _⟩ := lar.construct_empty compact data stats hwf
    have hl : l.isUseable = false := by
      simp only [lar.Landmark.isUseable, decide_eq_false_iff_not]
      omega
    have hnone := lar.expectedGraph_landmark_vertex_none compact data j l hget hl
    refine ⟨_, hc, hnone, ?_, ?_⟩
    · intro v hv heq
      have hfind := hnone
      unfold SparseOptimizer.vertex at hfind
      rw [List.find?_eq_none] at hfind
      have := hfind v hv
      simp [heq] at this
    · intro e he hmem
      rcases lar_expectedGraph_endpoints compact data hwf e he _ hmem with h | ⟨j', l', hg, hu, heq⟩
      · omega
      · have hjj : j = j' := by omega
        subst hjj
        rw [hget] at hg
        simp only [Option.some.injEq] at hg
        subst hg
        rw [hl] at hu
        cases hu
  · intro data stats j l hwf hget hs
    obtain ⟨st, hc⟩ := geoar.legacy_construct_empty data stats hwf
    have hjlt : j < data.landmarks.length := by
      rcases Nat.lt_or_ge j data.landmarks.length with h | h
      · exact h
      · rw [List.getElem?_eq_none h] at hget
        cases hget
    have hverts : ∀ v ∈ (geoar.expectedGraph data).vertices, v.id ≠ j := by
      intro v hv heq
      simp only [geoar.expectedGraph, List.mem_append] at hv
      rcases hv with hv | hv
      · obtain ⟨l', _, hg, hs'⟩ := geoar.landmarkVerticesFrom_mem 0 data.landmarks v hv
        rw [heq, Nat.sub_zero, hget] at hg
        simp only [Option.some.injEq] at hg
        subst hg
        omega
      · simp only [geoar.poseVerticesFrom, List.mem_map] at hv
        obtain ⟨p, _, rfl⟩ := hv
        simp only [geoar.poseVertex] at heq
        omega
    refine ⟨_, hc, ?_, hverts, ?_⟩
    · show SparseOptimizer.vertex (geoar.expectedGraph data) j = none
      unfold SparseOptimizer.vertex
      rw [List.find?_eq_none]
      intro v hv
      have := hverts v hv
      simpa using this
    · intro e he hmem
      have he' : e ∈ geoar.edgesFrom data data.landmarks.length 0 none data.frames := he
      rcases geoar.edgesFrom_endpoints data data.landmarks.length data.frames 0 none
        (by intro h; cases h) e he' j hmem with h | ⟨l', hg, hs'⟩
      · omega
      · rw [hget] at hg
        simp only [Option.some.injEq] at hg
        subst hg
        omega

/-- Witness for C3: in both samples the landmark at index `0` has two sightings. -/
theorem unusable_landmark_excluded_witness :
    (lar.ObservationsInRange Sample.data ∧
      Sample.data.landmarks[0]? = some (Sample.landmark 2 [0, 1]) ∧
      (Sample.landmark 2 [0, 1]).sightings < 3) ∧
    (∃ ba, lar.construct false Sample.data ⟨SparseOptimizer.empty, Stats.init⟩ = .ok ba ∧
      ba.optimizer.vertex (0 + Sample.data.frames.length) = none ∧
      (∀ v ∈ ba.optimizer.vertices, v.id ≠ 0 + Sample.data.frames.length) ∧
      (∀ e ∈ ba.optimizer.edges, 0 + Sample.data.frames.length ∉ e.endpoints)) ∧
    (geoar.WellFormed Sample.legacyData ∧
      Sample.legacyData.landmarks[0]? = some (Sample.legacyLandmark 2) ∧
      (Sample.legacyLandmark 2).sightings < 3) ∧
    (∃ ba, geoar.construct Sample.legacyData ⟨SparseOptimizer.empty, Stats.init⟩ = .ok ba ∧
      ba.optimizer.vertex 0 = none ∧
      (∀ v ∈ ba.optimizer.vertices, v.id ≠ 0) ∧
      (∀ e ∈ ba.optimizer.edges, 0 ∉ e.endpoints)) :=
  have h1 : lar.ObservationsInRange Sample.data := by
    unfold lar.ObservationsInRange
    decide
  have h2 : geoar.WellFormed Sample.legacyData := by
    unfold geoar.WellFormed
    decide
  ⟨⟨h1, rfl, by decide⟩,
    unusable_landmark_excluded.1 false Sample.data Stats.init 0 (Sample.landmark 2 [0, 1])
      h1 rfl (by decide),
    ⟨h2, rfl, by decide⟩,
    unusable_landmark_excluded.2 Sample.legacyData Stats.init 0 (Sample.legacyLandmark 2)
      h2 rfl (by decide)⟩

/-! ## The landmark record: sightings, spatial index and descriptors -/

namespace geoar

theorem recordSighting_fields (sqrt : ℚ → ℚ) (l : Landmark) (t : CamTransform) :
    (l.recordSighting sqrt t).sightings = l.sightings + 1 ∧
    (l.recordSighting sqrt t).position = l.position ∧
    (l.recordSighting sqrt t).id = l.id ∧
    (l.recordSighting sqrt t).desc = l.desc := by
  unfold Landmark.recordSighting
  by_cases h : l.sightings = 0 <;> simp [h]

theorem recordSighting_later (sqrt : ℚ → ℚ) (l : Landmark) (t : CamTransform)
    (h : l.sightings ≠ 0) :
    (l.recordSighting sqrt t).index_center = l.index_center ∧
    (l.recordSighting sqrt t).index_radius = l.index_radius := by
  unfold Landmark.recordSighting
  simp [h]

theorem recordSightings_fields (sqrt : ℚ → ℚ) (calls : List CamTransform) :
    ∀ (l : Landmark),
      (l.recordSightings sqrt calls).sightings = l.sightings + calls.length ∧
      (l.recordSightings sqrt calls).position = l.position ∧
      (l.sightings ≠ 0 →
        (l.recordSightings sqrt calls).index_center = l.index_center ∧
        (l.recordSightings sqrt calls).index_radius = l.index_radius) := by
  induction calls with
  | nil => intro l; simp [Landmark.recordSightings]
  | cons t rest ih =>
    intro l
    obtain ⟨f1, f2, _, _⟩ := recordSighting_fields sqrt l t
    obtain ⟨g1, g2, g3⟩ := ih (l.recordSighting sqrt t)
    simp only [Landmark.recordSightings, List.foldl_cons] at g1 g2 g3 ⊢
    refine ⟨?_, ?_, ?_⟩
    · rw [g1, f1]
      simp only [List.length_cons]
      omega
    · rw [g2, f2]
    · intro h
      obtain ⟨k1, k2⟩ := recordSighting_later sqrt l t h
      obtain ⟨m1, m2⟩ := g3 (by rw [f1]; omega)
      exact ⟨by rw [m1, k1], by rw [m2, k2]⟩

/-- C14: each call of `recordSighting` increases `sightings` by exactly one; after `n`
calls the count has grown by `n`, so it equals `n` for a landmark that started at `0`,
it never decreases, and a landmark with at least three sightings keeps at least three
after every further call. -/
theorem recordSighting_sightings (sqrt : ℚ → ℚ) (l : Landmark) :
    (∀ t, (l.recordSighting sqrt t).sightings = l.sightings + 1) ∧
    (∀ calls, (l.recordSightings sqrt calls).sightings = l.sightings + calls.length) ∧
    (∀ calls, l.sightings ≤ (l.recordSightings sqrt calls).sightings) ∧
    (l.sightings = 0 → ∀ calls, (l.recordSightings sqrt calls).sightings = calls.length) ∧
    (l.usable = true → ∀ calls, (l.recordSightings sqrt calls).usable = true) := by
  refine ⟨fun t => (recordSighting_fields sqrt l t).1,
    fun calls => (recordSightings_fields sqrt calls l).1, ?_, ?_, ?_⟩
  · intro calls
    rw [(recordSightings_fields sqrt calls l).1]
    omega
  · intro h calls
    rw [(recordSightings_fields sqrt calls l).1, h]
    omega
  · intro h calls
    simp only [Landmark.usable, decide_eq_true_eq] at h ⊢
    rw [(recordSightings_fields sqrt calls l).1]
    omega

/-- Witness for C14: a landmark that starts at zero, and one that has three sightings. -/
theorem recordSighting_sightings_witness :
    ((Sample.legacyLandmark 0).sightings = 0 ∧
      ((Sample.legacyLandmark 0).recordSightings Sample.sqrtTable
        [Sample.camTransform, Sample.camTransform]).sightings = 2) ∧
    ((Sample.legacyLandmark 3).usable = true ∧
      ((Sample.legacyLandmark 3).recordSightings Sample.sqrtTable
        [Sample.camTransform]).usable = true) :=
  ⟨⟨rfl, (recordSighting_sightings Sample.sqrtTable (Sample.legacyLandmark 0)).2.2.2.1 rfl
      [Sample.camTransform, Sample.camTransform]⟩,
   ⟨rfl, (recordSighting_sightings Sample.sqrtTable (Sample.legacyLandmark 3)).2.2.2.2 rfl
      [Sample.camTransform]⟩⟩

theorem concatDescriptions_eq (landmarks : List Landmark) :
    ∀ desc : Mat, concatDescriptions landmarks desc =
      desc ++ (landmarks.map Landmark.desc).flatten := by
  induction landmarks with
  | nil => intro desc; simp [concatDescriptions]
  | cons l rest ih =>
    intro desc
    simp only [concatDescriptions, ih, List.map_cons, List.flatten_cons, List.append_assoc]

theorem flatten_single_rows (landmarks : List Landmark)
    (h : ∀ l ∈ landmarks, l.desc.length = 1) :
    (landmarks.map Landmark.desc).flatten.length = landmarks.length ∧
    ∀ (i : Nat) (l : Landmark), landmarks[i]? = some l →
      ∃ row, l.desc = [row] ∧ (landmarks.map Landmark.desc).flatten[i]? = some row := by
  induction landmarks with
  | nil => exact ⟨rfl, fun i l hl => by simp at hl⟩
  | cons x rest ih =>
    obtain ⟨ih1, ih2⟩ := ih (fun l hl => h l (List.mem_cons_of_mem _ hl))
    have hx := h x (List.mem_cons_self _ _)
    obtain ⟨row, hrow⟩ : ∃ row, x.desc = [row] := by
      match hd : x.desc, hx with
      | [row], _ => exact ⟨row, rfl⟩
    refine ⟨?_, ?_⟩
    · simp only [List.map_cons, List.flatten_cons, List.length_append, List.length_cons, ih1, hx]
      omega
    · intro i l hl
      cases i with
      | zero =>
        simp only [List.getElem?_cons_zero, Option.some.injEq] at hl
        subst hl
        exact ⟨row, hrow, by simp [hrow]⟩
      | succ i =>
        simp only [List.getElem?_cons_succ] at hl
        obtain ⟨r, hr1, hr2⟩ := ih2 i l hl
        exact ⟨r, hr1, by simp [hrow, hr2]⟩

/-- C16: `concatDescriptions` appends to the output matrix the descriptors of the
landmarks, stacked in input order; on an empty output matrix the result is exactly that
stack, and when every descriptor is a single row the result has one row per landmark, row
`i` being the descriptor of `landmarks[i]`. -/
theorem concatDescriptions_rows (landmarks : List Landmark) (desc : Mat) :
    concatDescriptions landmarks desc = desc ++ (landmarks.map Landmark.desc).flatten ∧
    concatDescriptions landmarks [] = (landmarks.map Landmark.desc).flatten ∧
    ((∀ l ∈ landmarks, l.desc.length = 1) →
      (concatDescriptions landmarks []).length = landmarks.length ∧
      ∀ (i : Nat) (l : Landmark), landmarks[i]? = some l →
        ∃ row, l.desc = [row] ∧ (concatDescriptions landmarks [])[i]? = some row) := by
  have h0 : concatDescriptions landmarks [] = (landmarks.map Landmark.desc).flatten := by
    rw [concatDescriptions_eq]
    simp
  refine ⟨concatDescriptions_eq landmarks desc, h0, ?_⟩
  intro h
  rw [h0]
  exact flatten_single_rows landmarks h

/-- Witness for C16: two landmarks with one-row descriptors. -/
theorem concatDescriptions_rows_witness :
    (∀ l ∈ Sample.describedLandmarks, l.desc.length = 1) ∧
    (concatDescriptions Sample.describedLandmarks []).length =
      Sample.describedLandmarks.length ∧
    ∀ (i : Nat) (l : Landmark), Sample.describedLandmarks[i]? = some l →
      ∃ row, l.desc = [row] ∧ (concatDescriptions Sample.describedLandmarks [])[i]? = some row :=
  have h : ∀ l ∈ Sample.describedLandmarks, l.desc.length = 1 := by decide
  ⟨h, (concatDescriptions_rows Sample.describedLandmarks []).2.2 h⟩

end geoar

/-! ## Frames-first construction: camera blocks and repeated runs -/

namespace lar

theorem addVertex_keeps (o : SparseOptimizer) (v : Vertex) :
    (o.addVertex v).1.parameters = o.parameters ∧ (o.addVertex v).1.edges = o.edges := by
  unfold SparseOptimizer.addVertex
  split <;> exact ⟨rfl, rfl⟩

theorem addOdometry_cases (o : SparseOptimizer) (k : Nat) :
    addOdometry o k = .error .nullPointer ∨
      ∃ e, addOdometry o k = .ok { o with edges := o.edges ++ [e] } := by
  unfold addOdometry
  split
  · right
    exact ⟨_, rfl⟩
  · left
    rfl

theorem addIntrinsics_ok (o : SparseOptimizer) (intrinsics : Matrix3d) (id : Nat)
    (h : ∀ q ∈ o.parameters, q.id < id) :
    ∃ o', addIntrinsics o intrinsics id = .ok o' ∧
      o'.parameters = o.parameters ++ [cameraParameters intrinsics id] ∧
      o'.vertices = o.vertices ∧ o'.edges = o.edges := by
  have := SparseOptimizer.addParameter_of_lt o (cameraParameters intrinsics id)
    (by intro q hq; exact h q hq)
  refine ⟨{ o with parameters := o.parameters ++ [cameraParameters intrinsics id] }, ?_, rfl,
    rfl, rfl⟩
  simp only [addIntrinsics, this]

theorem constructFrame_cases (n : Nat) (o : SparseOptimizer) (k : Nat) (f : Frame)
    (hP : ∀ p ∈ o.parameters, p.id < k + 1) :
    constructFrame n o k f = .error .nullPointer ∨
      ∃ o', constructFrame n o k f = .ok o' ∧
        o'.parameters = o.parameters ++ [cameraParameters f.intrinsics (k + 1)] := by
  have hkeep := addVertex_keeps o (poseVertex f.extrinsics k (k == n - 1))
  by_cases hk : k > 0
  · rcases addOdometry_cases (addPose o f.extrinsics k (k == n - 1)) k with h | ⟨e, h⟩
    · left
      simp only [constructFrame, hk, if_true, h, bind, Except.bind]
    · right
      obtain ⟨o', h3, h4, _, _⟩ := addIntrinsics_ok
        { addPose o f.extrinsics k (k == n - 1) with
          edges := (addPose o f.extrinsics k (k == n - 1)).edges ++ [e] }
        f.intrinsics (k + 1)
        (by intro q hq; exact hP q (by simpa [addPose, hkeep.1] using hq))
      refine ⟨o', ?_, ?_⟩
      · simp only [constructFrame, hk, if_true, h, bind, Except.bind]
        exact h3
      · rw [h4]
        simp only [addPose, hkeep.1]
  · right
    obtain ⟨o', h3, h4, _, _⟩ := addIntrinsics_ok (addPose o f.extrinsics k (k == n - 1))
      f.intrinsics (k + 1)
      (by intro q hq; exact hP q (by simpa [addPose, hkeep.1] using hq))
    refine ⟨o', ?_, ?_⟩
    · simp only [constructFrame, hk, if_false, bind, Except.bind, pure, Except.pure]
      exact h3
    · rw [h4]
      simp only [addPose, hkeep.1]

theorem constructFrames_cases (n : Nat) (rest : List Frame) :
    ∀ (k : Nat) (o : SparseOptimizer), (∀ p ∈ o.parameters, p.id < k + 1) →
      constructFrames n rest k o = .error .nullPointer ∨
        ∃ o', constructFrames n rest k o = .ok o' ∧
          o'.parameters = o.parameters ++ cameraBlocksFrom k rest := by
  induction rest with
  | nil =>
    intro k o _
    right
    exact ⟨o, rfl, by simp [cameraBlocksFrom]⟩
  | cons f rest ih =>
    intro k o hP
    rcases constructFrame_cases n o k f hP with h | ⟨o1, h1, h2⟩
    · left
      simp only [constructFrames, h, bind, Except.bind]
    · have hP1 : ∀ p ∈ o1.parameters, p.id < k + 1 + 1 := by
        intro p hp
        rw [h2] at hp
        rcases List.mem_append.mp hp with hp | hp
        · have := hP p hp
          omega
        · simp only [List.mem_singleton] at hp
          subst hp
          simp [cameraParameters]
      rcases ih (k + 1) o1 hP1 with h | ⟨o', g1, g2⟩
      · left
        simp only [constructFrames, h1, bind, Except.bind]
        exact h
      · right
        refine ⟨o', ?_, ?_⟩
        · simp only [constructFrames, h1, bind, Except.bind]
          exact g1
        · rw [g2, h2]
          simp [cameraBlocksFrom, List.enumFrom_cons]

theorem addLandmarkMeasurements_cases (landmark : Landmark) (id : Nat)
    (obs : List Observation) :
    ∀ (s : SparseOptimizer × Stats),
      addLandmarkMeasurements landmark id obs s = .error .outOfRange ∨
        ∃ s', addLandmarkMeasurements landmark id obs s = .ok s' ∧
          s'.1.parameters = s.1.parameters ∧ s'.1.vertices = s.1.vertices := by
  induction obs with
  | nil => intro s; right; exact ⟨s, rfl, rfl, rfl⟩
  | cons ob rest ih =>
    intro s
    have hstep : addLandmarkMeasurement landmark id s ob = .error .outOfRange ∨
        ∃ s1, addLandmarkMeasurement landmark id s ob = .ok s1 ∧
          s1.1.parameters = s.1.parameters ∧ s1.1.vertices = s.1.vertices := by
      have hinc : ∀ (v : List Nat) (i : Nat),
          incrementAt v i = .error .outOfRange ∨ ∃ w, incrementAt v i = .ok w := by
        intro v i
        unfold incrementAt
        split
        · right; exact ⟨_, rfl⟩
        · left; rfl
      by_cases huse : landmark.isUseable = true
      · rcases hinc s.2.usable_landmarks ob.frame_id with hu | ⟨u, hu⟩
        · left
          simp only [addLandmarkMeasurement, huse, if_true, hu, bind, Except.bind]
        · rcases hinc s.2.landmarks ob.frame_id with ha | ⟨a, ha⟩
          · left
            simp only [addLandmarkMeasurement, huse, if_true, hu, ha, bind, Except.bind, pure,
              Except.pure]
          · right
            refine ⟨(s.1.addEdge (projectionEdge s.1 ob id),
              ⟨s.2.total_usable_landmarks, a, u⟩), ?_, rfl, rfl⟩
            simp only [addLandmarkMeasurement, huse, if_true, hu, ha, bind, Except.bind, pure,
              Except.pure]
      · have huse' : landmark.isUseable = false := by simpa using huse
        rcases hinc s.2.landmarks ob.frame_id with ha | ⟨a, ha⟩
        · left
          simp only [addLandmarkMeasurement, huse', Bool.false_eq_true, if_false, ha, bind,
            Except.bind, pure, Except.pure]
        · right
          refine ⟨(s.1, ⟨s.2.total_usable_landmarks, a, s.2.usable_landmarks⟩), ?_, rfl, rfl⟩
          simp only [addLandmarkMeasurement, huse', Bool.false_eq_true, if_false, ha, bind,
            Except.bind, pure, Except.pure]
    rcases hstep with h | ⟨s1, h1, h2, h3⟩
    · left
      simp only [addLandmarkMeasurements, h, bind, Except.bind]
    · rcases ih s1 with h | ⟨s', g1, g2, g3⟩
      · left
        simp only [addLandmarkMeasurements, h1, bind, Except.bind]
        exact h
      · right
        refine ⟨s', ?_, by rw [g2, h2], by rw [g3, h3]⟩
        simp only [addLandmarkMeasurements, h1, bind, Except.bind]
        exact g1

theorem constructLandmarks_cases (compact : Bool) (F : Nat) (rest : List Landmark) :
    ∀ (k : Nat) (s : SparseOptimizer × Stats),
      constructLandmarks compact F rest k s = .error .outOfRange ∨
        ∃ s', constructLandmarks compact F rest k s = .ok s' ∧
          s'.1.parameters = s.1.parameters := by
  induction rest with
  | nil => intro k s; right; exact ⟨s, rfl, rfl⟩
  | cons l rest ih =>
    intro k s
    have hadd : (addLandmark compact s.1 l (k + F)).1.parameters = s.1.parameters := by
      unfold addLandmark
      split
      · exact (addVertex_keeps s.1 _).1
      · rfl
    rcases addLandmarkMeasurements_cases l (k + F) l.obs
      ((addLandmark compact s.1 l (k + F)).1,
        { s.2 with total_usable_landmarks :=
            s.2.total_usable_landmarks + (if (addLandmark compact s.1 l (k + F)).2 then 1 else 0) })
      with h | ⟨s1, h1, h2, _⟩
    · left
      simp only [constructLandmarks, constructLandmark, h, bind, Except.bind]
    · rcases ih (k + 1) s1 with h | ⟨s', g1, g2⟩
      · left
        simp only [constructLandmarks, constructLandmark, h1, bind, Except.bind]
        exact h
      · right
        refine ⟨s', ?_, by rw [g2, h2, hadd]⟩
        simp only [constructLandmarks, constructLandmark, h1, bind, Except.bind]
        exact g1

theorem cameraBlocksFrom_ids (k : Nat) (frames : List Frame) :
    (cameraBlocksFrom k frames).map CameraParameters.id = List.range' (k + 1) frames.length := by
  induction frames generalizing k with
  | nil => rfl
  | cons f rest ih =>
    simp only [cameraBlocksFrom, List.enumFrom_cons, List.map_cons, List.length_cons,
      List.range'_succ] at ih ⊢
    rw [ih (k + 1)]
    simp [cameraParameters]

theorem cameraBlocksFrom_getElem (frames : List Frame) (i : Nat) (f : Frame)
    (h : frames[i]? = some f) :
    (cameraBlocksFrom 0 frames)[i]? = some (cameraParameters f.intrinsics (i + 1)) := by
  simp [cameraBlocksFrom, List.getElem?_enumFrom, h]

theorem construct_cases (compact : Bool) (data : Data) (ba : BundleAdjustment)
    (hp : ba.optimizer.parameters = []) :
    construct compact data ba = .error .nullPointer ∨
    construct compact data ba = .error .outOfRange ∨
    ∃ ba', construct compact data ba = .ok ba' ∧
      ba'.optimizer.parameters = cameraBlocksFrom 0 data.frames := by
  rcases constructFrames_cases data.frames.length data.frames 0 ba.optimizer
    (by intro p hq; rw [hp] at hq; simp at hq) with h | ⟨o1, h1, h2⟩
  · left
    simp only [construct, h, bind, Except.bind]
  · rcases constructLandmarks_cases compact data.frames.length data.landmarks 0
      (o1, { Stats.init with landmarks := List.replicate data.frames.length 0,
                             usable_landmarks := List.replicate data.frames.length 0 })
      with h | ⟨s', g1, g2⟩
    · right
      left
      simp only [construct, h1, h, bind, Except.bind]
    · right
      right
      refine ⟨⟨s'.1, s'.2⟩, ?_, ?_⟩
      · simp only [construct, h1, g1, bind, Except.bind, pure, Except.pure]
      · show s'.1.parameters = _
        rw [g2, h2, hp]
        simp

/-- C12: on an optimizer with no registered parameter, one `construct` pass never
reaches the `assert` of `addIntrinsics`; when the pass completes, the registered blocks are
exactly `F`, the one at position `i` being the block of frame `i` under id `i + 1`, so
the ids are `1, .., F`, pairwise distinct and never `0`; and on an empty optimizer with
observations in range the pass does complete. -/
theorem construct_registers_camera_blocks (compact : Bool) (data : Data)
    (ba : BundleAdjustment) (hp : ba.optimizer.parameters = []) :
    construct compact data ba ≠ .error .assertion ∧
    (∀ ba', construct compact data ba = .ok ba' →
      ba'.optimizer.parameters.length = data.frames.length ∧
      (∀ i f, data.frames[i]? = some f →
        ba'.optimizer.parameters[i]? = some (cameraParameters f.intrinsics (i + 1))) ∧
      ba'.optimizer.parameters.map CameraParameters.id = List.range' 1 data.frames.length ∧
      (ba'.optimizer.parameters.map CameraParameters.id).Nodup ∧
      (∀ p ∈ ba'.optimizer.parameters, p.id ≠ 0)) ∧
    (ba.optimizer = SparseOptimizer.empty → ObservationsInRange data →
      ∃ ba', construct compact data ba = .ok ba') := by
  refine ⟨?_, ?_, ?_⟩
  · rcases construct_cases compact data ba hp with h | h | ⟨ba', h, _⟩ <;>
      · rw [h]
        intro hc
        cases hc
  · intro ba' hba'
    rcases construct_cases compact data ba hp with h | h | ⟨ba'', h, hpar⟩
    · rw [h] at hba'; cases hba'
    · rw [h] at hba'; cases hba'
    · rw [h] at hba'
      simp only [Except.ok.injEq] at hba'
      subst hba'
      have hids := cameraBlocksFrom_ids 0 data.frames
      simp only [Nat.zero_add] at hids
      refine ⟨?_, ?_, ?_, ?_, ?_⟩
      · rw [hpar]
        simp [cameraBlocksFrom]
      · intro i f hf
        rw [hpar]
        exact cameraBlocksFrom_getElem data.frames i f hf
      · rw [hpar, hids]
      · rw [hpar, hids]
        exact List.nodup_range' _ _
      · intro p hpmem
        have hmem : p.id ∈ (ba''.optimizer.parameters).map CameraParameters.id :=
          List.mem_map_of_mem _ hpmem
        rw [hpar, hids] at hmem
        simp only [List.mem_range'_1] at hmem
        omega
  · intro he hwf
    obtain ⟨st, hc, _⟩ := construct_empty compact data ba.stats hwf
    have hba : ba = ⟨SparseOptimizer.empty, ba.stats⟩ := by
      cases ba
      simp only at he
      rw [he]
    rw [hba]
    exact ⟨⟨expectedGraph compact data, st⟩, hc⟩

/-- Witness for C12 on the sample data and an empty optimizer. -/
theorem construct_registers_camera_blocks_witness :
    ((⟨SparseOptimizer.empty, Stats.init⟩ : BundleAdjustment).optimizer.parameters = [] ∧
      (⟨SparseOptimizer.empty, Stats.init⟩ : BundleAdjustment).optimizer =
        SparseOptimizer.empty ∧
      ObservationsInRange Sample.data) ∧
    ∃ ba', construct false Sample.data ⟨SparseOptimizer.empty, Stats.init⟩ = .ok ba' ∧
      ba'.optimizer.parameters.map CameraParameters.id =
        List.range' 1 Sample.data.frames.length := by
  have h : ObservationsInRange Sample.data := by
    unfold ObservationsInRange
    decide
  have hthm := construct_registers_camera_blocks false Sample.data
    ⟨SparseOptimizer.empty, Stats.init⟩ rfl
  obtain ⟨ba', hba'⟩ := hthm.2.2 rfl h
  exact ⟨⟨rfl, rfl, h⟩, ba', hba', (hthm.2.1 ba' hba').2.2.1⟩

theorem construct_again_assertion (compact : Bool) (data : Data) (ba : BundleAdjustment)
    (f : Frame) (rest : List Frame) (hf : data.frames = f :: rest)
    (p : CameraParameters) (more : List CameraParameters)
    (hpar : ba.optimizer.parameters = p :: more) (hid : p.id = 1) :
    construct compact data ba = .error .assertion := by
  have hkeep := addVertex_keeps ba.optimizer
    (poseVertex f.extrinsics 0 (0 == data.frames.length - 1))
  have hadd : addIntrinsics (addPose ba.optimizer f.extrinsics 0 (0 == data.frames.length - 1))
      f.intrinsics 1 = .error .assertion := by
    simp only [addIntrinsics, SparseOptimizer.addParameter, addPose, hkeep.1, hpar,
      cameraParameters, List.find?_cons, hid, beq_self_eq_true]
  have hstep : constructFrame data.frames.length ba.optimizer 0 f = .error .assertion := by
    simp only [constructFrame, gt_iff_lt, Nat.lt_irrefl, if_false, bind, Except.bind, pure,
      Except.pure, Nat.zero_add]
    exact hadd
  simp only [construct, hf, constructFrames, bind, Except.bind]
  rw [hf] at hstep
  simp only [hstep]

theorem addIntrinsicsIn_asserting (o : SparseOptimizer) (intrinsics : Matrix3d) (id : Nat) :
    addIntrinsicsIn false o intrinsics id = addIntrinsics o intrinsics id := by
  unfold addIntrinsicsIn addIntrinsics
  split <;> rfl

theorem constructFramesIn_asserting (n : Nat) (frames : List Frame) :
    ∀ (k : Nat) (o : SparseOptimizer),
      constructFramesIn false n frames k o = constructFrames n frames k o := by
  induction frames with
  | nil => intro k o; rfl
  | cons f rest ih =>
    intro k o
    have hstep : constructFrameIn false n o k f = constructFrame n o k f := by
      simp only [constructFrameIn, constructFrame, addIntrinsicsIn_asserting]
    simp only [constructFramesIn, constructFrames, hstep, ih]

/-- In the build without `NDEBUG`, `constructIn` is `construct`. -/
theorem constructIn_asserting (compact : Bool) (data : Data) (ba : BundleAdjustment) :
    constructIn false compact data ba = construct compact data ba := by
  simp only [constructIn, construct, constructFramesIn_asserting]

/-- C13: on the sample data (three frames, four vertices, five edges, three camera
blocks), a first `construct` on a fresh builder completes, in either build, with the same
graph and statistics.  A second `construct` on the builder it leaves behind does not
give that result again: the optimizer is not cleared, every vertex and every camera block
is refused as a duplicate, and the call either stops at the `assert` of `addIntrinsics`
(build without `NDEBUG`) or completes having added every edge a second time, ten edges
in place of five (build with `NDEBUG`). -/
theorem construct_twice_differs :
    ∃ ba1, construct false Sample.data ⟨SparseOptimizer.empty, Stats.init⟩ = .ok ba1 ∧
      constructIn true false Sample.data ⟨SparseOptimizer.empty, Stats.init⟩ = .ok ba1 ∧
      ba1.optimizer.vertices.length = 4 ∧ ba1.optimizer.edges.length = 5 ∧
      ba1.optimizer.parameters.length = 3 ∧
      construct false Sample.data ba1 = .error .assertion ∧
      constructIn false false Sample.data ba1 = .error .assertion ∧
      ∃ ba2, constructIn true false Sample.data ba1 = .ok ba2 ∧
        ba2.optimizer.vertices.length = 4 ∧ ba2.optimizer.edges.length = 10 ∧
        ba2.optimizer.parameters.length = 3 ∧ ba2.stats = ba1.stats ∧
        ba2.optimizer.edges ≠ ba1.optimizer.edges := by
  have hassert : construct false Sample.data
      ⟨expectedGraph false Sample.data, ⟨1, [2, 2, 1], [1, 1, 1]⟩⟩ = .error .assertion :=
    construct_again_assertion false Sample.data _
      (Sample.frame 0) [Sample.frame 1, Sample.frame 2] rfl
      (cameraParameters (Sample.frame 0).intrinsics 1)
      (cameraBlocksFrom 1 [Sample.frame 1, Sample.frame 2]) rfl rfl
  refine ⟨⟨expectedGraph false Sample.data, ⟨1, [2, 2, 1], [1, 1, 1]⟩⟩, rfl, rfl, rfl, rfl,
    rfl, hassert, ?_, ?_⟩
  · rw [constructIn_asserting]
    exact hassert
  · have hnum : (constructIn true false Sample.data
        ⟨expectedGraph false Sample.data, ⟨1, [2, 2, 1], [1, 1, 1]⟩⟩).toOption.map
        (fun b => (b.optimizer.vertices.length, b.optimizer.edges.length,
          b.optimizer.parameters.length, b.stats.total_usable_landmarks, b.stats.landmarks,
          b.stats.usable_landmarks)) = some (4, 10, 3, 1, [2, 2, 1], [1, 1, 1]) := by rfl
    cases hc : constructIn true false Sample.data
        ⟨expectedGraph false Sample.data, ⟨1, [2, 2, 1], [1, 1, 1]⟩⟩ with
    | error e =>
      rw [hc] at hnum
      cases hnum
    | ok ba2 =>
      rw [hc] at hnum
      simp only [Except.toOption, Option.map_some', Option.some.injEq, Prod.mk.injEq] at hnum
      obtain ⟨n1, n2, n3, n4, n5, n6⟩ := hnum
      refine ⟨ba2, rfl, n1, n2, n3, ?_, ?_⟩
      · obtain ⟨o2, ⟨t, l, u⟩⟩ := ba2
        simp only at n4 n5 n6
        simp only [n4, n5, n6]
      · intro heq
        have hlen := congrArg List.length heq
        rw [n2] at hlen
        have h5 : (expectedGraph false Sample.data).edges.length = 5 := rfl
        rw [h5] at hlen
        omega

end lar

/-! ## Optimization: the writeback of landmark positions -/

namespace lar

theorem writtenBack_isUseable (o : SparseOptimizer) (F j : Nat) (l : Landmark) :
    (writtenBack o F j l).isUseable = l.isUseable := by
  unfold writtenBack
  split
  · split <;> rfl
  · rfl

theorem updateLandmark_ok (o : SparseOptimizer) (F : Nat) (ls : List Landmark) (k : Nat)
    (l : Landmark) (h : ls[k]? = some l)
    (hv : l.isUseable = true → (asVertexPointXYZ (o.vertex (k + F))).isSome = true) :
    ∃ ls1, updateLandmark o F ls k = .ok ls1 ∧ ls1.length = ls.length ∧
      ls1[k]? = some (writtenBack o F k l) ∧
      ∀ (i : Nat), i ≠ k → ls1[i]? = ls[i]? := by
  by_cases hu : l.isUseable = true
  · have hsome := hv hu
    cases hq : asVertexPointXYZ (o.vertex (k + F)) with
    | none => rw [hq] at hsome; cases hsome
    | some q =>
      refine ⟨ls.set k { l with position := q.2 }, ?_, by simp, ?_, ?_⟩
      · simp only [updateLandmark, vectorAt_ok ls k l h, bind, Except.bind, hu, if_true, hq,
          pure, Except.pure]
      · have hk : k < ls.length := by
          rcases Nat.lt_or_ge k ls.length with hlt | hge
          · exact hlt
          · rw [List.getElem?_eq_none hge] at h
            cases h
        rw [List.getElem?_set_self hk]
        simp only [writtenBack, hu, if_true, hq]
      · intro i hi
        rw [List.getElem?_set_ne (Ne.symm hi)]
  · have hu' : l.isUseable = false := by
      cases hb : l.isUseable with
      | true => exact absurd hb hu
      | false => rfl
    refine ⟨ls, ?_, rfl, ?_, ?_⟩
    · simp only [updateLandmark, vectorAt_ok ls k l h, bind, Except.bind, hu',
        Bool.false_eq_true, if_false, pure, Except.pure]
    · rw [h]
      simp only [writtenBack, hu', Bool.false_eq_true, if_false]
    · intro i _
      rfl

theorem updateLandmarks_ok (o : SparseOptimizer) (F : Nat) (n : Nat) :
    ∀ (k : Nat) (ls : List Landmark), k + n ≤ ls.length →
      (∀ (i : Nat) (l : Landmark), k ≤ i → ls[i]? = some l → l.isUseable = true →
        (asVertexPointXYZ (o.vertex (i + F))).isSome = true) →
      ∃ ls', updateLandmarks o F (List.range' k n) ls = .ok ls' ∧ ls'.length = ls.length ∧
        ∀ (i : Nat) (l : Landmark), ls[i]? = some l →
          ls'[i]? = some (if k ≤ i ∧ i < k + n then writtenBack o F i l else l) := by
  induction n with
  | zero =>
    intro k ls _ _
    refine ⟨ls, rfl, rfl, ?_⟩
    intro i l hl
    have : ¬ (k ≤ i ∧ i < k + 0) := by omega
    rw [if_neg this]
    exact hl
  | succ n ih =>
    intro k ls hlen hv
    have hk : k < ls.length := by omega
    have hget : ls[k]? = some ls[k] := List.getElem?_eq_getElem hk
    obtain ⟨ls1, h1, hl1, hk1, hrest⟩ := updateLandmark_ok o F ls k ls[k] hget
      (hv k ls[k] (Nat.le_refl k) hget)
    obtain ⟨ls', h2, hl2, hp⟩ := ih (k + 1) ls1 (by omega)
      (by
        intro i l hki hl hu
        have hne : i ≠ k := by omega
        rw [hrest i hne] at hl
        exact hv i l (by omega) hl hu)
    refine ⟨ls', ?_, by omega, ?_⟩
    · simp only [List.range'_succ, updateLandmarks, h1, bind, Except.bind]
      exact h2
    · intro i l hl
      by_cases hik : i = k
      · subst hik
        rw [hget] at hl
        simp only [Option.some.injEq] at hl
        rw [hp i _ hk1]
        have c1 : ¬ (i + 1 ≤ i ∧ i < i + 1 + n) := by omega
        have c2 : i ≤ i ∧ i < i + (n + 1) := by omega
        rw [if_neg c1, if_pos c2, hl]
      · have hl1' : ls1[i]? = some l := by rw [hrest i hik]; exact hl
        rw [hp i l hl1']
        by_cases c : k + 1 ≤ i ∧ i < k + 1 + n
        · have c2 : k ≤ i ∧ i < k + (n + 1) := by omega
          rw [if_pos c, if_pos c2]
        · have c2 : ¬ (k ≤ i ∧ i < k + (n + 1)) := by omega
          rw [if_neg c, if_neg c2]

theorem optimize_ok (solve : Solver) (data : Data) (ba : BundleAdjustment)
    (hv : ∀ (j : Nat) (l : Landmark), data.landmarks[j]? = some l → l.isUseable = true →
      (asVertexPointXYZ ((solve ba.optimizer 50).vertex (j + data.frames.length))).isSome
        = true) :
    ∃ ls', optimize solve data ba =
        .ok ({ ba with optimizer := solve ba.optimizer 50 }, { data with landmarks := ls' }) ∧
      ls'.length = data.landmarks.length ∧
      ∀ (j : Nat) (l : Landmark), data.landmarks[j]? = some l →
        ls'[j]? = some (writtenBack (solve ba.optimizer 50) data.frames.length j l) := by
  obtain ⟨ls', h1, h2, h3⟩ := updateLandmarks_ok (solve ba.optimizer 50) data.frames.length
    data.landmarks.length 0 data.landmarks (by omega)
    (fun i l _ hl hu => hv i l hl hu)
  refine ⟨ls', ?_, h2, ?_⟩
  · rw [← List.range_eq_range'] at h1
    simp only [optimize, h1, bind, Except.bind, pure, Except.pure]
  · intro j l hl
    rw [h3 j l hl]
    have hj : j < data.landmarks.length := by
      rcases Nat.lt_or_ge j data.landmarks.length with hlt | hge
      · exact hlt
      · rw [List.getElem?_eq_none hge] at hl
        cases hl
    have c : 0 ≤ j ∧ j < 0 + data.landmarks.length := by omega
    rw [if_pos c]

theorem asVertexPointXYZ_some (ov : Option Vertex) (q : Nat × Vector3d)
    (h : asVertexPointXYZ ov = some q) :
    ∃ v, ov = some v ∧ v.id = q.1 ∧ v.estimate = .xyz q.2 := by
  cases ov with
  | none => cases h
  | some v =>
    obtain ⟨id, est, fx, mg⟩ := v
    cases est with
    | se3 pose => cases h
    | xyz point =>
      simp only [asVertexPointXYZ, Option.some.injEq] at h
      subst h
      exact ⟨_, rfl, rfl, rfl⟩

theorem asPose_of_point (w : Vertex) (h : (asVertexPointXYZ (some w)).isSome = true) :
    asVertexSE3Expmap (some w) = none := by
  obtain ⟨id, est, fx, mg⟩ := w
  cases est with
  | se3 pose => cases h
  | xyz point => rfl

theorem find_forall₂ (R : Vertex → Vertex → Prop) (id : Nat) (vs ws : List Vertex)
    (h : List.Forall₂ (fun v w => w.id = v.id ∧ R v w) vs ws) (v : Vertex)
    (hv : vs.find? (fun x => x.id == id) = some v) :
    ∃ w, ws.find? (fun x => x.id == id) = some w ∧ R v w := by
  induction h with
  | nil => cases hv
  | @cons a b l1 l2 hab _ ih =>
    by_cases ha : (a.id == id) = true
    · have hb : (b.id == id) = true := by rw [hab.1]; exact ha
      simp only [List.find?_cons, ha, Option.some.injEq] at hv
      subst hv
      refine ⟨b, ?_, hab.2⟩
      simp only [List.find?_cons, hb]
    · have ha' : (a.id == id) = false := by
        cases hx : (a.id == id) with
        | true => exact absurd hx ha
        | false => rfl
      have hb : (b.id == id) = false := by rw [hab.1]; exact ha'
      simp only [List.find?_cons, ha'] at hv
      obtain ⟨w, hw, hr⟩ := ih hv
      refine ⟨w, ?_, hr⟩
      simp only [List.find?_cons, hb]
      exact hw

theorem solver_lookup (solve : Solver) (hs : SolverKeepsVertices solve) (o : SparseOptimizer)
    (n id : Nat) (v : Vertex) (h : o.vertex id = some v) :
    ∃ w, (solve o n).vertex id = some w ∧
      (asVertexPointXYZ (some w)).isSome = (asVertexPointXYZ (some v)).isSome :=
  find_forall₂ (fun v w => (asVertexPointXYZ (some w)).isSome = (asVertexPointXYZ (some v)).isSome)
    id o.vertices (solve o n).vertices (hs o n) v h

theorem sample_solver_keeps : SolverKeepsVertices Sample.solver := by
  intro o n
  simp only [Sample.solver]
  rw [List.forall₂_map_right_iff, List.forall₂_same]
  intro v _
  obtain ⟨id, est, fx, mg⟩ := v
  cases est <;> exact ⟨rfl, rfl⟩

theorem solved_landmark_vertex (compact : Bool) (solve : Solver) (hs : SolverKeepsVertices solve)
    (data : Data) (n j : Nat) (l : Landmark) (h : data.landmarks[j]? = some l)
    (hl : l.isUseable = true) :
    ∃ w, (solve (expectedGraph compact data) n).vertex (j + data.frames.length) = some w ∧
      w.id = j + data.frames.length ∧ (asVertexPointXYZ (some w)).isSome = true ∧
      asVertexSE3Expmap (some w) = none := by
  obtain ⟨w, hw, hp⟩ := solver_lookup solve hs (expectedGraph compact data) n
    (j + data.frames.length) _ (expectedGraph_landmark_vertex compact data j l h hl)
  rw [asPoint_landmarkVertex] at hp
  exact ⟨w, hw, vertex_id_of_some _ _ _ hw, hp, asPose_of_point w hp⟩

/-- C11: when the solved graph holds a point vertex under id `j + F` for every usable
landmark `j`, `optimize` returns; afterwards the position of a usable landmark at index
`j` is the estimate of the solved vertex under id `j + F`, the position of an unusable
landmark is what it was, every other landmark member (id, sightings, observations,
descriptor, fixed flag, spatial index) is what it was, the landmark sequence has its
length, and the frames (so their extrinsics) are untouched. -/
theorem optimize_writes_positions (solve : Solver) (data : Data) (ba : BundleAdjustment)
    (hv : ∀ (j : Nat) (l : Landmark), data.landmarks[j]? = some l → l.isUseable = true →
      (asVertexPointXYZ ((solve ba.optimizer 50).vertex (j + data.frames.length))).isSome
        = true) :
    ∃ ba' data', optimize solve data ba = .ok (ba', data') ∧
      ba'.optimizer = solve ba.optimizer 50 ∧
      data'.frames = data.frames ∧
      data'.landmarks.length = data.landmarks.length ∧
      ∀ (j : Nat) (l : Landmark), data.landmarks[j]? = some l →
        ∃ l', data'.landmarks[j]? = some l' ∧
          l'.id = l.id ∧ l'.sightings = l.sightings ∧ l'.obs = l.obs ∧ l'.desc = l.desc ∧
          l'.is_fixed = l.is_fixed ∧ l'.index_center = l.index_center ∧
          l'.index_radius = l.index_radius ∧
          (l.isUseable = true →
            ∃ v, ba'.optimizer.vertex (j + data.frames.length) = some v ∧
              v.id = j + data.frames.length ∧ v.estimate = .xyz l'.position) ∧
          (l.isUseable = false → l'.position = l.position) := by
  obtain ⟨ls', h1, h2, h3⟩ := optimize_ok solve data ba hv
  refine ⟨_, _, h1, rfl, rfl, h2, ?_⟩
  intro j l hl
  have hj := h3 j l hl
  by_cases hu : l.isUseable = true
  · have hsome := hv j l hl hu
    cases hq : asVertexPointXYZ ((solve ba.optimizer 50).vertex (j + data.frames.length)) with
    | none => rw [hq] at hsome; cases hsome
    | some q =>
      obtain ⟨v, hv1, hv2, hv3⟩ := asVertexPointXYZ_some _ q hq
      have hw : writtenBack (solve ba.optimizer 50) data.frames.length j l =
          { l with position := q.2 } := by
        simp only [writtenBack, hu, if_true, hq]
      rw [hw] at hj
      refine ⟨{ l with position := q.2 }, hj, rfl, rfl, rfl, rfl, rfl, rfl, rfl, ?_, ?_⟩
      · intro _
        exact ⟨v, hv1, vertex_id_of_some _ _ _ hv1, hv3⟩
      · intro hf
        rw [hu] at hf
        cases hf
  · have hu' : l.isUseable = false := by
      cases hb : l.isUseable with
      | true => exact absurd hb hu
      | false => rfl
    have hw : writtenBack (solve ba.optimizer 50) data.frames.length j l = l := by
      simp only [writtenBack, hu', Bool.false_eq_true, if_false]
    rw [hw] at hj
    refine ⟨l, hj, rfl, rfl, rfl, rfl, rfl, rfl, rfl, ?_, ?_⟩
    · intro hf
      rw [hu'] at hf
      cases hf
    · intro _
      rfl

/-- Witness for C11: the sample solver on the graph built from the sample data. -/
theorem optimize_writes_positions_witness :
    (∀ (j : Nat) (l : Landmark), Sample.data.landmarks[j]? = some l → l.isUseable = true →
      (asVertexPointXYZ ((Sample.solver (expectedGraph false Sample.data) 50).vertex
        (j + Sample.data.frames.length))).isSome = true) ∧
    ∃ ba' data', optimize Sample.solver Sample.data
        ⟨expectedGraph false Sample.data, Stats.init⟩ = .ok (ba', data') ∧
      data'.frames = Sample.data.frames ∧
      data'.landmarks.length = Sample.data.landmarks.length := by
  have hv : ∀ (j : Nat) (l : Landmark), Sample.data.landmarks[j]? = some l →
      l.isUseable = true →
      (asVertexPointXYZ ((Sample.solver (expectedGraph false Sample.data) 50).vertex
        (j + Sample.data.frames.length))).isSome = true := by
    intro j l hl hu
    obtain ⟨w, hw, _, hp, _⟩ := solved_landmark_vertex false Sample.solver sample_solver_keeps
      Sample.data 50 j l hl hu
    rw [hw]
    exact hp
  obtain ⟨ba', data', h1, _, h3, h4, _⟩ := optimize_writes_positions Sample.solver Sample.data
    ⟨expectedGraph false Sample.data, Stats.init⟩ hv
  exact ⟨hv, ba', data', h1, h3, h4⟩

/-- C20: after `construct` on an empty optimizer (observations in range), the vertex
under id `j + F` is, for every usable landmark `j`, the point vertex `addLandmark`
created for that landmark; a solver that keeps the vertices leaves under that id a point
vertex, not a pose vertex; so with the same number of frames and the same usability of
each landmark, every lookup of `updateLandmark` finds a point vertex and `optimize`
returns. -/
theorem writeback_finds_landmark_vertex (compact : Bool) (solve : Solver) (data data' : Data)
    (stats : Stats) (hwf : ObservationsInRange data) (hs : SolverKeepsVertices solve)
    (hframes : data'.frames.length = data.frames.length)
    (husable : data'.landmarks.map Landmark.isUseable =
      data.landmarks.map Landmark.isUseable) :
    ∃ ba, construct compact data ⟨SparseOptimizer.empty, stats⟩ = .ok ba ∧
      (∀ (j : Nat) (l : Landmark), data.landmarks[j]? = some l → l.isUseable = true →
        ba.optimizer.vertex (j + data.frames.length) =
          some (landmarkVertex compact l (j + data.frames.length)) ∧
        ∃ w, (solve ba.optimizer 50).vertex (j + data.frames.length) = some w ∧
          w.id = j + data.frames.length ∧ (asVertexPointXYZ (some w)).isSome = true ∧
          asVertexSE3Expmap (some w) = none) ∧
      (∀ (j : Nat) (l' : Landmark), data'.landmarks[j]? = some l' → l'.isUseable = true →
        (asVertexPointXYZ ((solve ba.optimizer 50).vertex
          (j + data'.frames.length))).isSome = true) ∧
      ∃ r, optimize solve data' ba = .ok r := by
  obtain ⟨st, hc, _⟩ := construct_empty compact data stats hwf
  have hlook : ∀ (j : Nat) (l' : Landmark), data'.landmarks[j]? = some l' →
      l'.isUseable = true →
      (asVertexPointXYZ ((solve (expectedGraph compact data) 50).vertex
        (j + data'.frames.length))).isSome = true := by
    intro j l' hl' hu'
    have h1 : (data'.landmarks.map Landmark.isUseable)[j]? = some true := by
      rw [List.getElem?_map, hl']
      simp only [Option.map_some', hu']
    rw [husable, List.getElem?_map] at h1
    cases hl : data.landmarks[j]? with
    | none => rw [hl] at h1; cases h1
    | some l =>
      rw [hl] at h1
      simp only [Option.map_some', Option.some.injEq] at h1
      obtain ⟨w, hw, _, hp, _⟩ := solved_landmark_vertex compact solve hs data 50 j l hl h1
      rw [hframes, hw]
      exact hp
  refine ⟨⟨expectedGraph compact data, st⟩, hc, ?_, hlook, ?_⟩
  · intro j l hl hu
    exact ⟨expectedGraph_landmark_vertex compact data j l hl hu,
      solved_landmark_vertex compact solve hs data 50 j l hl hu⟩
  · obtain ⟨ls', h1, _⟩ := optimize_ok solve data' ⟨expectedGraph compact data, st⟩ hlook
    exact ⟨_, h1⟩

/-- Witness for C20: the sample data, optimized with the sample solver right after
construction. -/
theorem writeback_finds_landmark_vertex_witness :
    (ObservationsInRange Sample.data ∧ SolverKeepsVertices Sample.solver) ∧
    ∃ ba, construct false Sample.data ⟨SparseOptimizer.empty, Stats.init⟩ = .ok ba ∧
      ∃ r, optimize Sample.solver Sample.data ba = .ok r := by
  have h : ObservationsInRange Sample.data := by
    unfold ObservationsInRange
    decide
  have hk : SolverKeepsVertices Sample.solver := by
    intro o n
    simp only [Sample.solver]
    rw [List.forall₂_map_right_iff, List.forall₂_same]
    intro v _
    obtain ⟨id, est, fx, mg⟩ := v
    cases est <;> exact ⟨rfl, rfl⟩
  obtain ⟨ba, h1, _, _, h4⟩ := writeback_finds_landmark_vertex false Sample.solver Sample.data
    Sample.data Stats.init h hk rfl rfl
  exact ⟨⟨h, hk⟩, ba, h1, h4⟩

end lar

/-! ## Frames-first construction: the statistics -/

namespace lar

theorem sum_set_succ (v : List Nat) :
    ∀ (i a : Nat), v[i]? = some a → (v.set i (a + 1)).sum = v.sum + 1 := by
  induction v with
  | nil => intro i a h; simp at h
  | cons x rest ih =>
    intro i a h
    cases i with
    | zero =>
      simp only [List.getElem?_cons_zero, Option.some.injEq] at h
      subst h
      simp only [List.set_cons_zero, List.sum_cons]
      omega
    | succ i =>
      simp only [List.getElem?_cons_succ] at h
      simp only [List.set_cons_succ, List.sum_cons, ih i a h]
      omega

theorem incrementAt_spec (v : List Nat) (i : Nat) (w : List Nat)
    (h : incrementAt v i = .ok w) :
    (∀ (f a : Nat), v[f]? = some a → w[f]? = some (a + if i == f then 1 else 0)) ∧
    w.sum = v.sum + 1 := by
  unfold incrementAt at h
  split at h
  · rename_i b hg
    simp only [Except.ok.injEq] at h
    subst h
    rw [List.get?_eq_getElem?] at hg
    refine ⟨?_, sum_set_succ v i b hg⟩
    intro f a hf
    by_cases hif : i = f
    · subst hif
      rw [hg] at hf
      simp only [Option.some.injEq] at hf
      subst hf
      have hlt : i < v.length := by
        rcases Nat.lt_or_ge i v.length with hlt | hge
        · exact hlt
        · rw [List.getElem?_eq_none hge] at hg
          cases hg
      rw [List.getElem?_set_self hlt]
      simp
    · rw [List.getElem?_set_ne hif, hf]
      have hb : (i == f) = false := by simpa using hif
      simp [hb]
  · cases h

theorem projectionEdgeCount_addEdge (o : SparseOptimizer) (ob : Observation) (id : Nat) :
    projectionEdgeCount (o.addEdge (projectionEdge o ob id)) = projectionEdgeCount o + 1 := by
  simp [projectionEdgeCount, SparseOptimizer.addEdge, List.filter_append, projectionEdge,
    Edge.isProjection]

theorem addLandmarkMeasurement_stats (landmark : Landmark) (id : Nat)
    (s : SparseOptimizer × Stats) (ob : Observation) (s' : SparseOptimizer × Stats)
    (h : addLandmarkMeasurement landmark id s ob = .ok s') :
    (∀ (f a : Nat), s.2.landmarks[f]? = some a →
      s'.2.landmarks[f]? = some (a + if ob.frame_id == f then 1 else 0)) ∧
    (∀ (f a : Nat), s.2.usable_landmarks[f]? = some a →
      s'.2.usable_landmarks[f]? =
        some (a + if landmark.isUseable then (if ob.frame_id == f then 1 else 0) else 0)) ∧
    projectionEdgeCount s'.1 + s.2.usable_landmarks.sum =
      projectionEdgeCount s.1 + s'.2.usable_landmarks.sum := by
  by_cases huse : landmark.isUseable = true
  · cases hu : incrementAt s.2.usable_landmarks ob.frame_id with
    | error e =>
      simp only [addLandmarkMeasurement, huse, if_true, hu, bind, Except.bind] at h
      cases h
    | ok u =>
      cases ha : incrementAt s.2.landmarks ob.frame_id with
      | error e =>
        simp only [addLandmarkMeasurement, huse, if_true, hu, ha, bind, Except.bind, pure,
          Except.pure] at h
        cases h
      | ok a =>
        simp only [addLandmarkMeasurement, huse, if_true, hu, ha, bind, Except.bind, pure,
          Except.pure, Except.ok.injEq] at h
        subst h
        have hu' := incrementAt_spec _ _ _ hu
        have ha' := incrementAt_spec _ _ _ ha
        refine ⟨ha'.1, ?_, ?_⟩
        · intro f b hb
          rw [if_pos huse]
          exact hu'.1 f b hb
        · show projectionEdgeCount (s.1.addEdge (projectionEdge s.1 ob id)) + _ = _ + u.sum
          rw [projectionEdgeCount_addEdge, hu'.2]
          omega
  · have huse' : landmark.isUseable = false := by simpa using huse
    cases ha : incrementAt s.2.landmarks ob.frame_id with
    | error e =>
      simp only [addLandmarkMeasurement, huse', Bool.false_eq_true, if_false, ha, bind,
        Except.bind, pure, Except.pure] at h
      cases h
    | ok a =>
      simp only [addLandmarkMeasurement, huse', Bool.false_eq_true, if_false, ha, bind,
        Except.bind, pure, Except.pure, Except.ok.injEq] at h
      subst h
      have ha' := incrementAt_spec _ _ _ ha
      refine ⟨ha'.1, ?_, rfl⟩
      intro f b hb
      rw [if_neg huse]
      exact hb

theorem addLandmarkMeasurements_stats (landmark : Landmark) (id : Nat)
    (obs : List Observation) :
    ∀ (s s' : SparseOptimizer × Stats), addLandmarkMeasurements landmark id obs s = .ok s' →
      (∀ (f a : Nat), s.2.landmarks[f]? = some a →
        s'.2.landmarks[f]? = some (a + obs.countP (fun o => o.frame_id == f))) ∧
      (∀ (f a : Nat), s.2.usable_landmarks[f]? = some a →
        s'.2.usable_landmarks[f]? =
          some (a + if landmark.isUseable then obs.countP (fun o => o.frame_id == f) else 0)) ∧
      projectionEdgeCount s'.1 + s.2.usable_landmarks.sum =
        projectionEdgeCount s.1 + s'.2.usable_landmarks.sum := by
  induction obs with
  | nil =>
    intro s s' h
    simp only [addLandmarkMeasurements, pure, Except.pure, Except.ok.injEq] at h
    subst h
    refine ⟨?_, ?_, rfl⟩
    · intro f a ha
      simpa using ha
    · intro f a ha
      simpa using ha
  | cons ob rest ih =>
    intro s s' h
    cases h1 : addLandmarkMeasurement landmark id s ob with
    | error e =>
      simp only [addLandmarkMeasurements, h1, bind, Except.bind] at h
      cases h
    | ok s1 =>
      simp only [addLandmarkMeasurements, h1, bind, Except.bind] at h
      obtain ⟨a1, a2, a3⟩ := addLandmarkMeasurement_stats landmark id s ob s1 h1
      obtain ⟨b1, b2, b3⟩ := ih s1 s' h
      refine ⟨?_, ?_, by omega⟩
      · intro f a ha
        rw [b1 f _ (a1 f a ha), List.countP_cons]
        congr 1
        simp only [Nat.add_assoc]
        congr 1
        exact Nat.add_comm _ _
      · intro f a ha
        rw [b2 f _ (a2 f a ha), List.countP_cons]
        congr 1
        by_cases hu : landmark.isUseable = true
        · simp only [hu, if_true, Nat.add_assoc]
          congr 1
          exact Nat.add_comm _ _
        · have hu' : landmark.isUseable = false := by simpa using hu
          simp only [hu', Bool.false_eq_true, if_false]

theorem constructLandmarks_stats (compact : Bool) (F : Nat) (rest : List Landmark) :
    ∀ (k : Nat) (s s' : SparseOptimizer × Stats),
      constructLandmarks compact F rest k s = .ok s' →
      (∀ (f a : Nat), s.2.landmarks[f]? = some a →
        s'.2.landmarks[f]? = some (a + observedCount rest f)) ∧
      (∀ (f a : Nat), s.2.usable_landmarks[f]? = some a →
        s'.2.usable_landmarks[f]? = some (a + usableObservedCount rest f)) ∧
      projectionEdgeCount s'.1 + s.2.usable_landmarks.sum =
        projectionEdgeCount s.1 + s'.2.usable_landmarks.sum := by
  induction rest with
  | nil =>
    intro k s s' h
    simp only [constructLandmarks, pure, Except.pure, Except.ok.injEq] at h
    subst h
    refine ⟨?_, ?_, rfl⟩
    · intro f a ha
      simpa [observedCount] using ha
    · intro f a ha
      simpa [usableObservedCount, observedCount] using ha
  | cons l rest ih =>
    intro k s s' h
    have hedges : projectionEdgeCount (addLandmark compact s.1 l (k + F)).1 =
        projectionEdgeCount s.1 := by
      unfold addLandmark projectionEdgeCount
      split
      · rw [(addVertex_keeps s.1 _).2]
      · rfl
    cases h1 : addLandmarkMeasurements l (k + F) l.obs
      ((addLandmark compact s.1 l (k + F)).1,
        { s.2 with total_usable_landmarks :=
            s.2.total_usable_landmarks +
              (if (addLandmark compact s.1 l (k + F)).2 then 1 else 0) }) with
    | error e =>
      simp only [constructLandmarks, constructLandmark, h1, bind, Except.bind] at h
      cases h
    | ok s1 =>
      simp only [constructLandmarks, constructLandmark, h1, bind, Except.bind] at h
      obtain ⟨a1, a2, a3⟩ := addLandmarkMeasurements_stats l (k + F) l.obs _ s1 h1
      obtain ⟨b1, b2, b3⟩ := ih (k + 1) s1 s' h
      simp only at a1 a2 a3
      rw [hedges] at a3
      refine ⟨?_, ?_, by omega⟩
      · intro f a ha
        rw [b1 f _ (a1 f a ha)]
        simp only [observedCount, List.map_cons, List.sum_cons, Nat.add_assoc]
      · intro f a ha
        rw [b2 f _ (a2 f a ha)]
        by_cases hu : l.isUseable = true
        · simp only [usableObservedCount, observedCount, List.filter_cons, hu, if_true,
            List.map_cons, List.sum_cons, Nat.add_assoc]
        · have hu' : l.isUseable = false := by simpa using hu
          simp only [usableObservedCount, observedCount, List.filter_cons, hu',
            Bool.false_eq_true, if_false, Nat.add_zero]

theorem usableObservedCount_le (landmarks : List Landmark) (f : Nat) :
    usableObservedCount landmarks f ≤ observedCount landmarks f := by
  induction landmarks with
  | nil => exact Nat.le_refl _
  | cons l rest ih =>
    simp only [usableObservedCount, observedCount] at ih
    by_cases hu : l.isUseable = true
    · simp only [usableObservedCount, observedCount, List.filter_cons, hu, if_true,
        List.map_cons, List.sum_cons]
      omega
    · have hu' : l.isUseable = false := by simpa using hu
      simp only [usableObservedCount, observedCount, List.filter_cons, hu',
        Bool.false_eq_true, if_false, List.map_cons, List.sum_cons]
      omega

/-- C17: after `construct` on an empty optimizer, with every observation made from one of
the `F` frames, both statistics vectors have `F` entries; entry `f` of `landmarks` is the
number of observations with `frame_id = f` over all landmarks, entry `f` of
`usable_landmarks` the number of those belonging to usable landmarks, which is at most
the former; `total_usable_landmarks` is the number of usable landmarks; and the entries of
`usable_landmarks` add up to the number of projection edges, one per observation of a
usable landmark. -/
theorem construct_statistics (compact : Bool) (data : Data) (stats : Stats)
    (hwf : ObservationsInRange data) :
    ∃ ba', construct compact data ⟨SparseOptimizer.empty, stats⟩ = .ok ba' ∧
      ba'.stats.landmarks.length = data.frames.length ∧
      ba'.stats.usable_landmarks.length = data.frames.length ∧
      (∀ (f : Nat), f < data.frames.length →
        ba'.stats.landmarks[f]? = some (observedCount data.landmarks f) ∧
        ba'.stats.usable_landmarks[f]? = some (usableObservedCount data.landmarks f) ∧
        usableObservedCount data.landmarks f ≤ observedCount data.landmarks f) ∧
      ba'.stats.total_usable_landmarks = usableCount data.landmarks ∧
      ba'.stats.usable_landmarks.sum = projectionEdgeCount ba'.optimizer ∧
      projectionEdgeCount ba'.optimizer =
        ((data.landmarks.filter Landmark.isUseable).map (fun l => l.obs.length)).sum := by
  obtain ⟨st, hc, h2, h3, h4⟩ := construct_empty compact data stats hwf
  refine ⟨⟨expectedGraph compact data, st⟩, hc, h2, h3, ?_, h4, ?_, ?_⟩
  · intro f hf
    simp only [construct, constructFrames_empty, bind, Except.bind] at hc
    split at hc
    · cases hc
    · rename_i s hl
      simp only [pure, Except.pure, Except.ok.injEq, BundleAdjustment.mk.injEq] at hc
      obtain ⟨a1, a2, _⟩ := constructLandmarks_stats compact data.frames.length data.landmarks
        0 _ s hl
      have g1 := a1 f 0 (by simp [Stats.init, hf])
      have g2 := a2 f 0 (by simp [Stats.init, hf])
      rw [hc.2] at g1 g2
      simp only [Nat.zero_add] at g1 g2
      exact ⟨g1, g2, usableObservedCount_le data.landmarks f⟩
  · simp only [construct, constructFrames_empty, bind, Except.bind] at hc
    split at hc
    · cases hc
    · rename_i s hl
      simp only [pure, Except.pure, Except.ok.injEq, BundleAdjustment.mk.injEq] at hc
      obtain ⟨_, _, a3⟩ := constructLandmarks_stats compact data.frames.length data.landmarks
        0 _ s hl
      rw [hc.1, hc.2] at a3
      have e0 : projectionEdgeCount
          { vertices := poseVerticesFrom data.frames.length 0 data.frames,
            edges := odometryEdges data.frames,
            parameters := cameraBlocksFrom 0 data.frames } = 0 := by
        simp only [projectionEdgeCount, List.length_eq_zero, List.filter_eq_nil_iff]
        intro e he
        simp [isProjection_eq_not_isOdometry, odometryEdges_isOdometry data.frames e he]
      simp only [e0, Stats.init, List.sum_replicate, smul_eq_mul, Nat.mul_zero,
        Nat.add_zero, Nat.zero_add] at a3
      exact a3.symm
  · show ((expectedGraph compact data).edges.filter Edge.isProjection).length = _
    rw [expectedGraph_projection_edges, projectionEdgesFrom_length]

/-- Witness for C17 on the sample data: frame `0` is observed twice, once by a usable
landmark. -/
theorem construct_statistics_witness :
    ObservationsInRange Sample.data ∧
    ∃ ba', construct false Sample.data ⟨SparseOptimizer.empty, Stats.init⟩ = .ok ba' ∧
      ba'.stats.landmarks[0]? = some 2 ∧ ba'.stats.usable_landmarks[0]? = some 1 ∧
      ba'.stats.usable_landmarks.sum = 3 := by
  have h : ObservationsInRange Sample.data := by
    unfold ObservationsInRange
    decide
  obtain ⟨ba', h1, _, _, h4, _, h6, h7⟩ := construct_statistics false Sample.data Stats.init h
  have h0 := h4 0 (by decide)
  refine ⟨h, ba', h1, ?_, ?_, ?_⟩
  · rw [h0.1]
    rfl
  · rw [h0.2.1]
    rfl
  · rw [h6, h7]
    rfl

end lar

/-! ## The vertex ids of the two constructions -/

namespace geoar

theorem legacy_poseVerticesFrom_find (N : Nat) (frames : List Frame) :
    ∀ (k i : Nat) (f : Frame), frames[i]? = some f →
      (poseVerticesFrom N k frames).find? (fun v => v.id == N + (k + i)) =
        some (poseVertex f.pose (N + (k + i)) (N + (k + i) == N)) := by
  induction frames with
  | nil => intro k i f h; simp at h
  | cons g rest ih =>
    intro k i f h
    cases i with
    | zero =>
      simp only [List.getElem?_cons_zero, Option.some.injEq] at h
      subst h
      simp [poseVerticesFrom, List.enumFrom_cons, poseVertex]
    | succ i =>
      simp only [List.getElem?_cons_succ] at h
      have := ih (k + 1) i f h
      have hk : k + 1 + i = k + (i + 1) := by omega
      rw [hk] at this
      simp only [poseVerticesFrom, List.enumFrom_cons, List.map_cons] at this ⊢
      rw [List.find?_cons_of_neg]
      · exact this
      · simp [poseVertex]

theorem legacy_poseVerticesFrom_ids (N k : Nat) (frames : List Frame) :
    (poseVerticesFrom N k frames).map Vertex.id = List.range' (N + k) frames.length := by
  induction frames generalizing k with
  | nil => rfl
  | cons g rest ih =>
    simp only [poseVerticesFrom, List.enumFrom_cons, List.map_cons, List.length_cons,
      List.range'_succ] at ih ⊢
    rw [ih (k + 1)]
    simp [poseVertex, Nat.add_assoc]

theorem landmarkVerticesFrom_lt (landmarks : List Landmark) (v : Vertex)
    (h : v ∈ landmarkVerticesFrom 0 landmarks) : v.id < landmarks.length := by
  obtain ⟨l, _, hget, _⟩ := landmarkVerticesFrom_mem 0 landmarks v h
  rcases Nat.lt_or_ge v.id landmarks.length with hlt | hge
  · exact hlt
  · rw [List.getElem?_eq_none (by omega)] at hget
    cases hget

theorem legacy_landmark_vertex (data : MapProcessingData) (j : Nat) (l : Landmark)
    (h : data.landmarks[j]? = some l) (hs : l.sightings ≥ 3) :
    (expectedGraph data).vertex j = some (landmarkVertex l j) := by
  obtain ⟨w, hw⟩ := landmarkVerticesFrom_vertex data.landmarks j l h hs
  have hmem : w ∈ landmarkVerticesFrom 0 data.landmarks := List.mem_of_find?_eq_some hw
  have hid : w.id = j := lar.vertex_id_of_some _ _ _ hw
  have hwl : w = landmarkVertex l j := by
    simp only [landmarkVerticesFrom, List.mem_map, List.mem_filter] at hmem
    obtain ⟨p, ⟨hp, _⟩, rfl⟩ := hmem
    obtain ⟨j', l'⟩ := p
    rw [List.mk_mem_enumFrom_iff_le_and_getElem?_sub] at hp
    simp only [landmarkVertex] at hid
    subst hid
    have := hp.2
    simp only [Nat.sub_zero] at this
    rw [h] at this
    simp only [Option.some.injEq] at this
    subst this
    rfl
  rw [← hwl]
  exact vertex_mk_append_old _ _ _ _ j w hw

theorem legacy_pose_vertex (data : MapProcessingData) (i : Nat) (f : Frame)
    (h : data.frames[i]? = some f) :
    (expectedGraph data).vertex (data.landmarks.length + i) =
      some (poseVertex f.pose (data.landmarks.length + i)
        (data.landmarks.length + i == data.landmarks.length)) := by
  have h1 : (landmarkVerticesFrom 0 data.landmarks).find?
      (fun v => v.id == data.landmarks.length + i) = none := by
    rw [List.find?_eq_none]
    intro v hv
    have := landmarkVerticesFrom_lt data.landmarks v hv
    simp
    omega
  have h2 := legacy_poseVerticesFrom_find data.landmarks.length data.frames 0 i f h
  simp only [Nat.zero_add] at h2
  simp [SparseOptimizer.vertex, expectedGraph, List.find?_append, h1, h2]

theorem legacy_poseVertexIds (data : MapProcessingData) :
    lar.poseVertexIds (expectedGraph data) =
      List.range' data.landmarks.length data.frames.length := by
  have h1 : (landmarkVerticesFrom 0 data.landmarks).filter
      (fun v => (asVertexSE3Expmap (some v)).isSome) = [] := by
    rw [List.filter_eq_nil_iff]
    intro v hv
    simp only [landmarkVerticesFrom, List.mem_map] at hv
    obtain ⟨p, _, rfl⟩ := hv
    simp [landmarkVertex, asVertexSE3Expmap]
  have h2 : (poseVerticesFrom data.landmarks.length 0 data.frames).filter
      (fun v => (asVertexSE3Expmap (some v)).isSome) =
      poseVerticesFrom data.landmarks.length 0 data.frames := by
    rw [List.filter_eq_self]
    intro v hv
    simp only [poseVerticesFrom, List.mem_map] at hv
    obtain ⟨p, _, rfl⟩ := hv
    rfl
  simp only [lar.poseVertexIds, expectedGraph, List.filter_append, h1, h2, List.nil_append]
  exact legacy_poseVerticesFrom_ids _ _ _

theorem legacy_landmarkVertexIds_lt (data : MapProcessingData) :
    ∀ a ∈ lar.landmarkVertexIds (expectedGraph data), a < data.landmarks.length := by
  intro a ha
  simp only [lar.landmarkVertexIds, expectedGraph, List.mem_map, List.mem_filter,
    List.mem_append] at ha
  obtain ⟨v, ⟨hv, hp⟩, rfl⟩ := ha
  rcases hv with hv | hv
  · exact landmarkVerticesFrom_lt data.landmarks v hv
  · simp only [poseVerticesFrom, List.mem_map] at hv
    obtain ⟨p, _, rfl⟩ := hv
    simp [poseVertex, asVertexPointXYZ] at hp

end geoar

/-- C18: the landmarks-first `construct` registers the landmark at index `j` (with at
least three sightings) under vertex id `j` and the frame at index `i` under pose-vertex
id `N + i`, `N` being the number of landmarks of the map; the frames-first `construct`
registers frame `i` under id `i` and the usable landmark `j` under id `j + F`.  In the
first the pose ids are `N, .., N + F - 1` and the landmark ids lie below `N`; in the
second the pose ids are `0, .., F - 1` and the landmark ids are `F` or more; so in each
no pose id is a landmark id. -/
theorem vertex_id_offsets :
    (∀ (data : geoar.MapProcessingData) (stats : Stats), geoar.WellFormed data →
      ∃ ba, geoar.construct data ⟨SparseOptimizer.empty, stats⟩ = .ok ba ∧
        (∀ (j : Nat) (l : geoar.Landmark), data.landmarks[j]? = some l → l.sightings ≥ 3 →
          ba.optimizer.vertex j = some (geoar.landmarkVertex l j)) ∧
        (∀ (i : Nat) (f : geoar.Frame), data.frames[i]? = some f →
          ba.optimizer.vertex (data.landmarks.length + i) =
            some (geoar.poseVertex f.pose (data.landmarks.length + i)
              (data.landmarks.length + i == data.landmarks.length))) ∧
        lar.poseVertexIds ba.optimizer =
          List.range' data.landmarks.length data.frames.length ∧
        (∀ a ∈ lar.landmarkVertexIds ba.optimizer, a < data.landmarks.length) ∧
        (∀ a ∈ lar.poseVertexIds ba.optimizer, a ∉ lar.landmarkVertexIds ba.optimizer)) ∧
    (∀ (compact : Bool) (data : lar.Data) (stats : Stats), lar.ObservationsInRange data →
      ∃ ba, lar.construct compact data ⟨SparseOptimizer.empty, stats⟩ = .ok ba ∧
        (∀ (i : Nat) (f : lar.Frame), data.frames[i]? = some f →
          ba.optimizer.vertex i =
            some (lar.poseVertex f.extrinsics i (i == data.frames.length - 1))) ∧
        (∀ (j : Nat) (l : lar.Landmark), data.landmarks[j]? = some l →
          l.isUseable = true →
          ba.optimizer.vertex (j + data.frames.length) =
            some (lar.landmarkVertex compact l (j + data.frames.length))) ∧
        lar.poseVertexIds ba.optimizer = List.range' 0 data.frames.length ∧
        (∀ a ∈ lar.landmarkVertexIds ba.optimizer, data.frames.length ≤ a) ∧
        (∀ a ∈ lar.poseVertexIds ba.optimizer, a ∉ lar.landmarkVertexIds ba.optimizer)) := by
  constructor
  · intro data stats hwf
    obtain ⟨st, hc⟩ := geoar.legacy_construct_empty data stats hwf
    refine ⟨_, hc, ?_, ?_, geoar.legacy_poseVertexIds data,
      geoar.legacy_landmarkVertexIds_lt data, ?_⟩
    · intro j l hl hs
      exact geoar.legacy_landmark_vertex data j l hl hs
    · intro i f hf
      exact geoar.legacy_pose_vertex data i f hf
    · intro a ha hb
      have h1 : a ∈ List.range' data.landmarks.length data.frames.length := by
        rw [← geoar.legacy_poseVertexIds data]
        exact ha
      have h2 := geoar.legacy_landmarkVertexIds_lt data a hb
      simp only [List.mem_range'_1] at h1
      omega
  · intro compact data stats hwf
    obtain ⟨st, hc, _⟩ := lar.construct_empty compact data stats hwf
    have hlm : ∀ a ∈ lar.landmarkVertexIds (lar.expectedGraph compact data),
        data.frames.length ≤ a := by
      intro a ha
      rw [lar.expectedGraph_landmarkVertexIds] at ha
      simp only [List.mem_map] at ha
      obtain ⟨p, _, rfl⟩ := ha
      omega
    refine ⟨_, hc, ?_, ?_, lar.expectedGraph_poseVertexIds compact data, hlm, ?_⟩
    · intro i f hf
      exact lar.poseVertices_vertex data.frames.length data.frames _ _ _ i f hf
    · intro j l hl hu
      exact lar.expectedGraph_landmark_vertex compact data j l hl hu
    · intro a ha hb
      have h1 : a ∈ List.range' 0 data.frames.length := by
        rw [← lar.expectedGraph_poseVertexIds compact data]
        exact ha
      have h2 := hlm a hb
      simp only [List.mem_range'_1] at h1
      omega

/-- Witness for C18: the two sample maps, both well formed. -/
theorem vertex_id_offsets_witness :
    (geoar.WellFormed Sample.legacyData ∧ lar.ObservationsInRange Sample.data) ∧
    (∃ ba, geoar.construct Sample.legacyData ⟨SparseOptimizer.empty, Stats.init⟩ = .ok ba ∧
      lar.poseVertexIds ba.optimizer = [2, 3]) ∧
    (∃ ba, lar.construct false Sample.data ⟨SparseOptimizer.empty, Stats.init⟩ = .ok ba ∧
      lar.poseVertexIds ba.optimizer = [0, 1, 2]) := by
  have h1 : geoar.WellFormed Sample.legacyData := by
    unfold geoar.WellFormed
    decide
  have h2 : lar.ObservationsInRange Sample.data := by
    unfold lar.ObservationsInRange
    decide
  obtain ⟨ba, ha, _, _, hp, _⟩ := vertex_id_offsets.1 Sample.legacyData Stats.init h1
  obtain ⟨ba', ha', _, _, hp', _⟩ := vertex_id_offsets.2 false Sample.data Stats.init h2
  exact ⟨⟨h1, h2⟩, ⟨ba, ha, by rw [hp]; rfl⟩, ⟨ba', ha', by rw [hp']; rfl⟩⟩

/-! ## Frames-first construction: lookups and statistics indices -/

namespace lar

theorem incrementAt_length (v : List Nat) (i : Nat) (w : List Nat)
    (h : incrementAt v i = .ok w) : w.length = v.length := by
  unfold incrementAt at h
  split at h
  · simp only [Except.ok.injEq] at h
    subst h
    simp
  · cases h

theorem addLandmarkMeasurement_shape (landmark : Landmark) (id : Nat)
    (s : SparseOptimizer × Stats) (ob : Observation) (s' : SparseOptimizer × Stats)
    (h : addLandmarkMeasurement landmark id s ob = .ok s') :
    s'.2.landmarks.length = s.2.landmarks.length ∧
    s'.2.usable_landmarks.length = s.2.usable_landmarks.length ∧
    s'.1.vertices = s.1.vertices := by
  by_cases huse : landmark.isUseable = true
  · cases hu : incrementAt s.2.usable_landmarks ob.frame_id with
    | error e =>
      simp only [addLandmarkMeasurement, huse, if_true, hu, bind, Except.bind] at h
      cases h
    | ok u =>
      cases ha : incrementAt s.2.landmarks ob.frame_id with
      | error e =>
        simp only [addLandmarkMeasurement, huse, if_true, hu, ha, bind, Except.bind, pure,
          Except.pure] at h
        cases h
      | ok a =>
        simp only [addLandmarkMeasurement, huse, if_true, hu, ha, bind, Except.bind, pure,
          Except.pure, Except.ok.injEq] at h
        subst h
        exact ⟨incrementAt_length _ _ _ ha, incrementAt_length _ _ _ hu, rfl⟩
  · have huse' : landmark.isUseable = false := by simpa using huse
    cases ha : incrementAt s.2.landmarks ob.frame_id with
    | error e =>
      simp only [addLandmarkMeasurement, huse', Bool.false_eq_true, if_false, ha, bind,
        Except.bind, pure, Except.pure] at h
      cases h
    | ok a =>
      simp only [addLandmarkMeasurement, huse', Bool.false_eq_true, if_false, ha, bind,
        Except.bind, pure, Except.pure, Except.ok.injEq] at h
      subst h
      exact ⟨incrementAt_length _ _ _ ha, rfl, rfl⟩

theorem addLandmarkMeasurements_shape (landmark : Landmark) (id : Nat)
    (obs : List Observation) :
    ∀ (s s' : SparseOptimizer × Stats), addLandmarkMeasurements landmark id obs s = .ok s' →
      s'.2.landmarks.length = s.2.landmarks.length ∧
      s'.2.usable_landmarks.length = s.2.usable_landmarks.length ∧
      s'.1.vertices = s.1.vertices := by
  induction obs with
  | nil =>
    intro s s' h
    simp only [addLandmarkMeasurements, pure, Except.pure, Except.ok.injEq] at h
    subst h
    exact ⟨rfl, rfl, rfl⟩
  | cons ob rest ih =>
    intro s s' h
    cases h1 : addLandmarkMeasurement landmark id s ob with
    | error e =>
      simp only [addLandmarkMeasurements, h1, bind, Except.bind] at h
      cases h
    | ok s1 =>
      simp only [addLandmarkMeasurements, h1, bind, Except.bind] at h
      obtain ⟨a1, a2, a3⟩ := addLandmarkMeasurement_shape landmark id s ob s1 h1
      obtain ⟨b1, b2, b3⟩ := ih s1 s' h
      exact ⟨b1.trans a1, b2.trans a2, b3.trans a3⟩

theorem addLandmark_vertices (compact : Bool) (o : SparseOptimizer) (l : Landmark) (id : Nat) :
    ∀ v ∈ (addLandmark compact o l id).1.vertices,
      v ∈ o.vertices ∨ asVertexSE3Expmap (some v) = none := by
  intro v hv
  unfold addLandmark at hv
  split at hv
  · unfold SparseOptimizer.addVertex at hv
    split at hv
    · left
      exact hv
    · simp only [List.mem_append, List.mem_singleton] at hv
      rcases hv with hv | hv
      · left
        exact hv
      · right
        rw [hv]
        exact asPose_landmarkVertex compact l id
  · left
    exact hv

theorem constructLandmarks_shape (compact : Bool) (F : Nat) (rest : List Landmark) :
    ∀ (k : Nat) (s s' : SparseOptimizer × Stats),
      constructLandmarks compact F rest k s = .ok s' →
      s'.2.landmarks.length = s.2.landmarks.length ∧
      s'.2.usable_landmarks.length = s.2.usable_landmarks.length ∧
      ∀ v ∈ s'.1.vertices, v ∈ s.1.vertices ∨ asVertexSE3Expmap (some v) = none := by
  induction rest with
  | nil =>
    intro k s s' h
    simp only [constructLandmarks, pure, Except.pure, Except.ok.injEq] at h
    subst h
    exact ⟨rfl, rfl, fun v hv => Or.inl hv⟩
  | cons l rest ih =>
    intro k s s' h
    cases h1 : addLandmarkMeasurements l (k + F) l.obs
      ((addLandmark compact s.1 l (k + F)).1,
        { s.2 with total_usable_landmarks :=
            s.2.total_usable_landmarks +
              (if (addLandmark compact s.1 l (k + F)).2 then 1 else 0) }) with
    | error e =>
      simp only [constructLandmarks, constructLandmark, h1, bind, Except.bind] at h
      cases h
    | ok s1 =>
      simp only [constructLandmarks, constructLandmark, h1, bind, Except.bind] at h
      obtain ⟨a1, a2, a3⟩ := addLandmarkMeasurements_shape l (k + F) l.obs _ s1 h1
      obtain ⟨b1, b2, b3⟩ := ih (k + 1) s1 s' h
      simp only at a1 a2 a3
      refine ⟨b1.trans a1, b2.trans a2, ?_⟩
      intro v hv
      rcases b3 v hv with h' | h'
      · rw [a3] at h'
        exact addLandmark_vertices compact s.1 l (k + F) v h'
      · right
        exact h'

theorem pose_lookup_none (o : SparseOptimizer) (F id : Nat)
    (h : ∀ v ∈ o.vertices, v.id < F ∨ asVertexSE3Expmap (some v) = none) (hid : F ≤ id) :
    asVertexSE3Expmap (o.vertex id) = none := by
  cases hv : o.vertex id with
  | none => rfl
  | some v =>
    have hmem : v ∈ o.vertices := List.mem_of_find?_eq_some hv
    have hvid := vertex_id_of_some o id v hv
    rcases h v hmem with h' | h'
    · omega
    · exact h'

theorem expectedGraph_pose_lookup (compact : Bool) (data : Data) (i : Nat)
    (h : i < data.frames.length) :
    (asVertexSE3Expmap ((expectedGraph compact data).vertex i)).isSome = true := by
  have hget : data.frames[i]? = some data.frames[i] := List.getElem?_eq_getElem h
  have := poseVertices_vertex data.frames.length data.frames
    (landmarkVerticesFrom compact data.frames.length 0 data.landmarks)
    (odometryEdges data.frames ++ projectionEdgesFrom data.frames.length 0 data.landmarks)
    (cameraBlocksFrom 0 data.frames) i _ hget
  show (asVertexSE3Expmap (SparseOptimizer.vertex ⟨_, _, _⟩ i)).isSome = true
  rw [this]
  rfl

theorem expectedGraph_odometry_lookup (compact : Bool) (data : Data) (v0 v1 : Nat)
    (m : SE3Quat) (inf : InfoMatrix 6)
    (h : Edge.se3 v0 v1 m inf ∈ (expectedGraph compact data).edges) :
    v1 = v0 + 1 ∧ v1 < data.frames.length := by
  simp only [expectedGraph, List.mem_append] at h
  rcases h with h | h
  · exact odometryEdges_mem data.frames v0 v1 m inf h
  · have := projectionEdgesFrom_isProjection _ _ _ _ h
    cases this

theorem expectedGraph_projection_lookup (compact : Bool) (data : Data) (a b : Option Nat)
    (m : Vector3d) (inf : InfoMatrix 3) (pid : Nat)
    (h : Edge.projectXYZ2UVD a b m inf pid ∈ (expectedGraph compact data).edges) :
    ∃ (j : Nat) (l : Landmark) (ob : Observation), data.landmarks[j]? = some l ∧
      l.isUseable = true ∧ ob ∈ l.obs ∧ a = some (j + data.frames.length) ∧
      b = some ob.frame_id ∧ pid = ob.frame_id + 1 := by
  simp only [expectedGraph, List.mem_append] at h
  rcases h with h | h
  · have := odometryEdges_isOdometry _ _ h
    cases this
  · simp only [projectionEdgesFrom, List.mem_flatMap, List.mem_map] at h
    obtain ⟨p, hp, ob, hob, heq⟩ := h
    rw [usableFrom_mem] at hp
    obtain ⟨⟨_, hget⟩, huse⟩ := hp
    simp only [Nat.sub_zero] at hget
    simp only [expectedProjectionEdge, Edge.projectXYZ2UVD.injEq] at heq
    obtain ⟨e1, e2, _, _, e5⟩ := heq
    exact ⟨p.1, p.2, ob, hget, huse, hob, e1.symm, e2.symm, e5.symm⟩

/-- C19: when every observation refers to one of the `F` frames, `construct` on an empty
optimizer completes; each odometry edge then joins two vertices found in the graph as
pose vertices; each projection edge joins a vertex found as a point vertex (the
landmark) to a vertex found as a pose vertex (the frame `frame_id`), under the parameter
id `frame_id + 1`, which is registered; and every `frame_id` is an index of both
statistics vectors.  For an observation with `frame_id ≥ F`, in the state the loop has
reached when it handles that observation, the lookup under `frame_id` finds no pose
vertex and both statistics vectors are indexed past their end; the run as a whole stops
there. -/
theorem construct_lookups (compact : Bool) (data : Data) (stats : Stats) :
    (ObservationsInRange data →
      ∃ ba, construct compact data ⟨SparseOptimizer.empty, stats⟩ = .ok ba ∧
        (∀ (v0 v1 : Nat) (m : SE3Quat) (inf : InfoMatrix 6),
          Edge.se3 v0 v1 m inf ∈ ba.optimizer.edges →
            (asVertexSE3Expmap (ba.optimizer.vertex v0)).isSome = true ∧
            (asVertexSE3Expmap (ba.optimizer.vertex v1)).isSome = true) ∧
        (∀ (a b : Option Nat) (m : Vector3d) (inf : InfoMatrix 3) (pid : Nat),
          Edge.projectXYZ2UVD a b m inf pid ∈ ba.optimizer.edges →
            ∃ id fid, a = some id ∧ b = some fid ∧
              (asVertexPointXYZ (ba.optimizer.vertex id)).isSome = true ∧
              (asVertexSE3Expmap (ba.optimizer.vertex fid)).isSome = true ∧
              pid = fid + 1 ∧ ∃ p ∈ ba.optimizer.parameters, p.id = pid) ∧
        (∀ l ∈ data.landmarks, ∀ ob ∈ l.obs,
          ob.frame_id < ba.stats.landmarks.length ∧
          ob.frame_id < ba.stats.usable_landmarks.length)) ∧
    (∀ (pre : List Landmark) (l : Landmark) (obsPre : List Observation) (ob : Observation)
        (o1 : SparseOptimizer) (s0 s : SparseOptimizer × Stats),
      data.frames.length ≤ ob.frame_id →
      constructFrames data.frames.length data.frames 0 SparseOptimizer.empty = .ok o1 →
      constructLandmarks compact data.frames.length pre 0
        (o1, { Stats.init with landmarks := List.replicate data.frames.length 0,
                               usable_landmarks := List.replicate data.frames.length 0 })
        = .ok s0 →
      addLandmarkMeasurements l (pre.length + data.frames.length) obsPre
        ((addLandmark compact s0.1 l (pre.length + data.frames.length)).1,
          { s0.2 with total_usable_landmarks := s0.2.total_usable_landmarks +
              (if (addLandmark compact s0.1 l (pre.length + data.frames.length)).2
                then 1 else 0) }) = .ok s →
      asVertexSE3Expmap (s.1.vertex ob.frame_id) = none ∧
      incrementAt s.2.landmarks ob.frame_id = .error .outOfRange ∧
      incrementAt s.2.usable_landmarks ob.frame_id = .error .outOfRange ∧
      addLandmarkMeasurement l (pre.length + data.frames.length) s ob
        = .error .outOfRange) ∧
    (¬ ObservationsInRange data →
      construct compact data ⟨SparseOptimizer.empty, stats⟩ = .error .outOfRange) := by
  refine ⟨?_, ?_, construct_empty_out_of_range compact data stats⟩
  · intro hwf
    obtain ⟨st, hc, h2, h3, _⟩ := construct_empty compact data stats hwf
    refine ⟨⟨expectedGraph compact data, st⟩, hc, ?_, ?_, ?_⟩
    · intro v0 v1 m inf he
      obtain ⟨e1, e2⟩ := expectedGraph_odometry_lookup compact data v0 v1 m inf he
      exact ⟨expectedGraph_pose_lookup compact data v0 (by omega),
        expectedGraph_pose_lookup compact data v1 e2⟩
    · intro a b m inf pid he
      obtain ⟨j, l, ob, hget, huse, hob, ea, eb, ep⟩ :=
        expectedGraph_projection_lookup compact data a b m inf pid he
      have hlt : ob.frame_id < data.frames.length := hwf l (List.getElem?_mem hget) ob hob
      have hfr : data.frames[ob.frame_id]? = some data.frames[ob.frame_id] :=
        List.getElem?_eq_getElem hlt
      refine ⟨j + data.frames.length, ob.frame_id, ea, eb, ?_,
        expectedGraph_pose_lookup compact data ob.frame_id hlt, ep, ?_⟩
      · show (asVertexPointXYZ ((expectedGraph compact data).vertex _)).isSome = true
        rw [expectedGraph_landmark_vertex compact data j l hget huse, asPoint_landmarkVertex]
        rfl
      · refine ⟨cameraParameters data.frames[ob.frame_id].intrinsics (ob.frame_id + 1),
          List.getElem?_mem (cameraBlocksFrom_getElem data.frames ob.frame_id _ hfr), ?_⟩
        rw [ep]
        rfl
    · intro l hl ob hob
      have := hwf l hl ob hob
      show ob.frame_id < st.landmarks.length ∧ ob.frame_id < st.usable_landmarks.length
      omega
  · intro pre l obsPre ob o1 s0 s hge hframes hpre hobs
    rw [constructFrames_empty] at hframes
    simp only [Except.ok.injEq] at hframes
    subst hframes
    obtain ⟨a1, a2, a3⟩ := constructLandmarks_shape compact data.frames.length pre 0 _ s0 hpre
    obtain ⟨b1, b2, b3⟩ := addLandmarkMeasurements_shape l (pre.length + data.frames.length)
      obsPre _ s hobs
    simp only [Stats.init, List.length_replicate] at a1 a2
    simp only at b1 b2 b3
    have hl : s.2.landmarks.length = data.frames.length := b1.trans a1
    have hu : s.2.usable_landmarks.length = data.frames.length := b2.trans a2
    refine ⟨?_, incrementAt_error _ _ (by omega), incrementAt_error _ _ (by omega),
      (addLandmarkMeasurement_total data.frames.length l _ s ob hl hu).2 hge⟩
    apply pose_lookup_none s.1 data.frames.length ob.frame_id _ hge
    intro v hv
    rw [b3] at hv
    rcases addLandmark_vertices compact s0.1 l _ v hv with h' | h'
    · rcases a3 v h' with h'' | h''
      · left
        have hmem : v.id ∈ (poseVerticesFrom data.frames.length 0 data.frames).map Vertex.id :=
          List.mem_map_of_mem _ h''
        rw [poseVerticesFrom_ids] at hmem
        simp only [List.mem_range'_1] at hmem
        omega
      · right
        exact h''
    · right
      exact h'

/-- Witness for C19: the sample data, whose observations are in range, and the stray
sample, whose first observation names frame `1` of a one-frame list. -/
theorem construct_lookups_witness :
    (ObservationsInRange Sample.data ∧ ¬ ObservationsInRange Sample.strayData ∧
      Sample.strayData.frames.length ≤ (Sample.observation 1).frame_id) ∧
    (∃ ba, construct false Sample.data ⟨SparseOptimizer.empty, Stats.init⟩ = .ok ba ∧
      ∀ l ∈ Sample.data.landmarks, ∀ ob ∈ l.obs,
        ob.frame_id < ba.stats.landmarks.length ∧
        ob.frame_id < ba.stats.usable_landmarks.length) ∧
    (∃ o1 s, constructFrames 1 Sample.strayData.frames 0 SparseOptimizer.empty = .ok o1 ∧
      addLandmarkMeasurements (Sample.landmark 3 [1, 0, 0]) 1 []
        ((addLandmark false o1 (Sample.landmark 3 [1, 0, 0]) 1).1,
          ⟨1, [0], [0]⟩) = .ok s ∧
      asVertexSE3Expmap (s.1.vertex 1) = none ∧
      addLandmarkMeasurement (Sample.landmark 3 [1, 0, 0]) 1 s (Sample.observation 1)
        = .error .outOfRange) ∧
    construct false Sample.strayData ⟨SparseOptimizer.empty, Stats.init⟩
      = .error .outOfRange := by
  have h : ObservationsInRange Sample.data := by
    unfold ObservationsInRange
    decide
  have h' : ¬ ObservationsInRange Sample.strayData := by
    unfold ObservationsInRange
    decide
  have hthm := construct_lookups false Sample.data Stats.init
  have hthm' := construct_lookups false Sample.strayData Stats.init
  obtain ⟨ba, hba, _, _, hidx⟩ := hthm.1 h
  have hf := constructFrames_empty 1 Sample.strayData.frames
  have hb := hthm'.2.1 [] (Sample.landmark 3 [1, 0, 0]) [] (Sample.observation 1) _ _ _
    (by decide) hf rfl rfl
  exact ⟨⟨h, h', by decide⟩, ⟨ba, hba, hidx⟩, ⟨_, _, hf, rfl, hb.1, hb.2.2.2⟩, hthm'.2.2 h'⟩

end lar

end GeoAR
